import Mathlib

/-!
ProjectileAimCalculators: aim solvers for a projectile under drag and gravity.

A shallow embedding of the four JavaScript sources

* `cydhranian.js`  (drag-model solver, exported version),
* `cydhranian2.js` (drag-model solver behind the input guard),
* `polynomial.js`  (quadratic fallback, exported version),
* `polynomial2.js` (quadratic fallback behind the input guard),

followed by theorems about them.

Number model.

JavaScript numbers are modelled as exact real numbers, so every value of the
model is a finite number.  Consequently

* `isVecFinite(v)` and `Number.isFinite(x)` hold for every modelled input and
  every modelled intermediate value; the branches they guard are kept only where
  exact arithmetic can reach them;
* the one operation of the drag solver that is undefined on finite arguments,
  `Math.pow(r, t)` for a negative base and a fractional exponent (`NaN`), is
  modelled by the predicate `powIsNumber`, and the `!Number.isFinite(rt)` branch
  of `cydhranian2.js` is taken exactly when it fails;
* `Math.sqrt` is only ever applied to non-negative arguments and is `Real.sqrt`.

Square roots and real powers of real numbers cannot be run, so the model of the sources
is a `noncomputable section`.  At whole flight times and rational inputs the direction
formula stays within the rational numbers; `directionFormulaQ` repeats it there, where it
can be evaluated, and the concrete scenarios are decided on it.

Doubles.

Where a property depends on what exact arithmetic hides, the sources are embedded a second
time:

* `polynomial.js` and `polynomial2.js`, which use `+`, `-`, `*`, `/`, `Math.sqrt`,
  `Math.min`, `Math.abs` and comparisons only, are embedded over the type `JsNum` of IEEE 754
  doubles (`PolynomialJsD`, `Polynomial2JsD`): every operation rounds to the nearest double,
  overflows to an infinity and propagates `NaN`, and the `Number.isFinite` tests are kept
  where the source has them.  These definitions can be evaluated;
* the bisection loop of `cydhranian2.js` is embedded with the number that
  `(low + high) * 0.5` evaluates to, and the outcome of the tests on the magnitudes, as
  parameters (`bracketStep`, `bracketState`), so that what is proved holds whatever the
  rounding.

Definitions that return a direction come in two layers: a function `solveAt`
that returns the direction together with the flight time it was computed at
(a ghost value, needed to state properties about "the solved `t`"), and
`calculateArrowAimDirection`, which forgets the time and is what the
JavaScript function returns (`none` is `null`).
-/

namespace AimCalc

noncomputable section

open Classical

/-- Modelled from the spec: the 3D vector value type `Vector3$1` that the
sources use but do not define (three real components). -/
@[ext]
structure Vector3 where
  x : ℝ
  y : ℝ
  z : ℝ

namespace Vector3

/-- Modelled from the spec: `new Vector3$1()`, the zero vector. -/
def zero : Vector3 := ⟨0, 0, 0⟩

/-- Modelled from the spec: `a.clone().sub(b)`, componentwise subtraction. -/
def sub (a b : Vector3) : Vector3 := ⟨a.x - b.x, a.y - b.y, a.z - b.z⟩

/-- Modelled from the spec: componentwise addition. -/
def add (a b : Vector3) : Vector3 := ⟨a.x + b.x, a.y + b.y, a.z + b.z⟩

/-- Modelled from the spec: multiplication of every component by a scalar. -/
def scale (k : ℝ) (a : Vector3) : Vector3 := ⟨k * a.x, k * a.y, k * a.z⟩

/-- Modelled from the spec: `v.length()`, the Euclidean length. -/
def length (v : Vector3) : ℝ := Real.sqrt (v.x * v.x + v.y * v.y + v.z * v.z)

/-- Modelled from the spec: `v.normalize()`, every component divided by the
Euclidean length. -/
def normalize (v : Vector3) : Vector3 := ⟨v.x / v.length, v.y / v.length, v.z / v.length⟩

end Vector3

/-- The value of `Math.pow(r, t)` is a number: the base is non-negative or the exponent is an
integer.  (For a negative base and a fractional exponent JavaScript yields `NaN`.) -/
def powIsNumber (r t : ℝ) : Prop := 0 ≤ r ∨ ∃ n : ℤ, (n : ℝ) = t

/-! ## cydhranian.js -/

namespace CydhranianJs

/-- The constant `const ARROW_DRAG = 0.99`. -/
def ARROW_DRAG : ℝ := 0.99

/-- The constant `const ARROW_GRAVITY = 0.05`. -/
def ARROW_GRAVITY : ℝ := 0.05

/-- The closure `directionAtT` of `cydhranian.js` (lines 32-51), with the captured
constants `r`, `g` and the captured `arrowSpeed`, `relPos`, `vEnemy` as arguments.
The source has no guard here; the model is exact wherever `Math.pow(r, t)` is a number
and no denominator vanishes. -/
def directionAtT (r g arrowSpeed : ℝ) (relPos vEnemy : Vector3) (t : ℝ) : Vector3 :=
  if t ≤ 0 then Vector3.zero
  else
    let rt := r ^ t
    let rt_minus_1 := rt - 1
    let horizFactor := (r - 1) / (arrowSpeed * rt_minus_1)
    let gravTerm := g * (rt - r * t + t - 1) * (1 / (r - 1)) / (arrowSpeed * rt_minus_1)
    ⟨(relPos.x + vEnemy.x * t) * horizFactor,
     (relPos.y + vEnemy.y * t) * horizFactor + gravTerm,
     (relPos.z + vEnemy.z * t) * horizFactor⟩

end CydhranianJs

/-! ## cydhranian2.js -/

namespace Cydhranian2Js

/-- The constant `const ARROW_DRAG = 0.99`. -/
def ARROW_DRAG : ℝ := 0.99

/-- The constant `const ARROW_GRAVITY = 0.05`. -/
def ARROW_GRAVITY : ℝ := 0.05

/-- The constant `const FULLY_CHARGED_SPEED = 3.0`, the default of the `arrowSpeed` argument. -/
def FULLY_CHARGED_SPEED : ℝ := 3.0

/-- The constant `const MAX_T = 300`. -/
def MAX_T : ℕ := 300

/-- The constant `const EPS = 0.001`. -/
def EPS : ℝ := 0.001

/-- The closure `directionAtT` of `cydhranian2.js` (lines 42-68).  The finiteness
tests on `rt_minus_1` and on the components always pass on real numbers; the test on
`rt` fails exactly when `Math.pow` yields `NaN`. -/
def directionAtT (r g arrowSpeed : ℝ) (relPos targetVelocity : Vector3) (t : ℝ) : Vector3 :=
  if t ≤ 0 then Vector3.zero
  else if ¬ powIsNumber r t then Vector3.zero
  else
    let rt := r ^ t
    let rt_minus_1 := rt - 1
    if |rt_minus_1| < 1e-12 then Vector3.zero
    else
      let horizFactor := (r - 1) / (arrowSpeed * rt_minus_1)
      let gravTerm := g * (rt - r * t + t - 1) * (1 / (r - 1)) / (arrowSpeed * rt_minus_1)
      ⟨(relPos.x + targetVelocity.x * t) * horizFactor,
       (relPos.y + targetVelocity.y * t) * horizFactor + gravTerm,
       (relPos.z + targetVelocity.z * t) * horizFactor⟩

/-- The closure `magnitudeAtT` (lines 70-73). -/
def magnitudeAtT (r g arrowSpeed : ℝ) (relPos targetVelocity : Vector3) (t : ℝ) : ℝ :=
  (directionAtT r g arrowSpeed relPos targetVelocity t).length

/-- The residual `Math.abs(mag - 1.0)` of a candidate flight time. -/
def residualAt (r g arrowSpeed : ℝ) (relPos targetVelocity : Vector3) (t : ℝ) : ℝ :=
  |magnitudeAtT r g arrowSpeed relPos targetVelocity t - 1.0|

/-- The acceptance test repeated at the three return sites (lines 92-95, 112-115,
134-136): `null` when the length is below `0.01`, else the normalised vector.  The flight
time `t` the vector was computed at is returned alongside. -/
def accept (t : ℝ) (dir : Vector3) : Option (ℝ × Vector3) :=
  if dir.length < 0.01 then none else some (t, dir.normalize)

/-- The variables `bestT` (`null` is `none`) and `bestDiff` (`Infinity` is `⊤`). -/
structure ScanState where
  bestT : Option ℕ
  bestDiff : WithTop ℝ

/-- How the coarse scan ends: by a `return` from inside the loop, or by running to
`t > MAX_T` with the final `bestT`, `bestDiff`. -/
inductive ScanOutcome where
  | returned (res : Option (ℝ × Vector3))
  | finished (st : ScanState)

/-- The update of `bestT` / `bestDiff` in one pass through the scan body (lines 85-88). -/
def track (st : ScanState) (t : ℕ) (diff : ℝ) : ScanState :=
  if (diff : WithTop ℝ) < st.bestDiff then ⟨some t, (diff : WithTop ℝ)⟩ else st

/-- The loop `for (let t = 1; t <= MAX_T; t++)` (lines 81-97), entered at counter `t`
with state `st`. -/
def scanLoop (r g arrowSpeed : ℝ) (relPos targetVelocity : Vector3) (t : ℕ) (st : ScanState) :
    ScanOutcome :=
  if t ≤ MAX_T then
    let diff := residualAt r g arrowSpeed relPos targetVelocity t
    let st1 := track st t diff
    if diff < EPS then
      ScanOutcome.returned (accept t (directionAtT r g arrowSpeed relPos targetVelocity t))
    else scanLoop r g arrowSpeed relPos targetVelocity (t + 1) st1
  else ScanOutcome.finished st
termination_by MAX_T + 1 - t
decreasing_by
  simp only [MAX_T] at *
  omega

/-- What one pass through the bisection body does: `return`, or continue with a new
bracket.  (The two `break` statements need a non-finite magnitude and are unreachable
in exact arithmetic.) -/
inductive BisectStep where
  | returned (res : Option (ℝ × Vector3))
  | narrowed (low high : ℝ)

/-- The body of the bisection loop (lines 105-129). -/
def bisectStep (r g arrowSpeed : ℝ) (relPos targetVelocity : Vector3) (low high : ℝ) :
    BisectStep :=
  let mid := (low + high) * 0.5
  let mag := magnitudeAtT r g arrowSpeed relPos targetVelocity mid
  if |mag - 1.0| < EPS then
    BisectStep.returned (accept mid (directionAtT r g arrowSpeed relPos targetVelocity mid))
  else
    let magLow := magnitudeAtT r g arrowSpeed relPos targetVelocity low
    let magHigh := magnitudeAtT r g arrowSpeed relPos targetVelocity high
    if mag > 1.0 then
      if magLow < mag then BisectStep.narrowed low mid else BisectStep.narrowed mid high
    else
      if magHigh > mag then BisectStep.narrowed mid high else BisectStep.narrowed low mid

/-- The loop `for (let i = 0; i < 70; i++)` (lines 104-130), entered at counter `i` with
bracket `low`, `high`: `some res` when the loop returned `res`, `none` when it ran out. -/
def bisectLoop (r g arrowSpeed : ℝ) (relPos targetVelocity : Vector3) (i : ℕ) (low high : ℝ) :
    Option (Option (ℝ × Vector3)) :=
  if i < 70 then
    match bisectStep r g arrowSpeed relPos targetVelocity low high with
    | BisectStep.returned res => some res
    | BisectStep.narrowed l h => bisectLoop r g arrowSpeed relPos targetVelocity (i + 1) l h
  else none
termination_by 70 - i

/-- Lines 99-139: what happens once the coarse scan has finished without returning. -/
def refine (r g arrowSpeed : ℝ) (relPos targetVelocity : Vector3) (st : ScanState) :
    Option (ℝ × Vector3) :=
  match st.bestT with
  | some bestT =>
    if (EPS : WithTop ℝ) < st.bestDiff then
      let low := max 1 ((bestT : ℝ) - 20)
      let high := min (MAX_T : ℝ) ((bestT : ℝ) + 20)
      match bisectLoop r g arrowSpeed relPos targetVelocity 0 low high with
      | some res => res
      | none => accept bestT (directionAtT r g arrowSpeed relPos targetVelocity bestT)
    else none
  | none => none

/-- The body of `calculateArrowAimDirection` of `cydhranian2.js` with the constants
`ARROW_DRAG`, `ARROW_GRAVITY` as the arguments `r`, `g`, returning the flight time next to
the direction. -/
def solveAt (r g : ℝ) (shooterEyePos targetHeadPos targetVelocity : Vector3) (arrowSpeed : ℝ) :
    Option (ℝ × Vector3) :=
  if arrowSpeed ≤ 0 then none
  else
    let relPos := targetHeadPos.sub shooterEyePos
    let r_minus_1 := r - 1
    if |r_minus_1| < 1e-12 then none
    else
      match scanLoop r g arrowSpeed relPos targetVelocity 1 ⟨none, ⊤⟩ with
      | ScanOutcome.returned res => res
      | ScanOutcome.finished st => refine r g arrowSpeed relPos targetVelocity st

/-- The function `calculateArrowAimDirection` of `cydhranian2.js`. -/
def calculateArrowAimDirection (shooterEyePos targetHeadPos targetVelocity : Vector3)
    (arrowSpeed : ℝ) : Option Vector3 :=
  (solveAt ARROW_DRAG ARROW_GRAVITY shooterEyePos targetHeadPos targetVelocity arrowSpeed).map
    Prod.snd

end Cydhranian2Js

/-! ## polynomial.js -/

namespace PolynomialJs

/-- The constant `const ARROW_GRAVITY = 0.05`. -/
def ARROW_GRAVITY : ℝ := 0.05

/-- Lines 59-60 of `polynomial.js`: `let t = t1 > 0 ? t1 : t2; if (t2 > 0 && t2 < t) t = t2;`. -/
def chooseTime (t1 t2 : ℝ) : ℝ :=
  let t := if t1 > 0 then t1 else t2
  if t2 > 0 ∧ t2 < t then t2 else t

/-- The vector `(targetX, targetY, targetZ)` of lines 64-66 (the same in `polynomial2.js`,
lines 71-73), for gravity `g`. -/
def candidate (g : ℝ) (relPos vEnemy : Vector3) (t : ℝ) : Vector3 :=
  ⟨relPos.x + vEnemy.x * t, relPos.y + vEnemy.y * t - 0.5 * g * t * t, relPos.z + vEnemy.z * t⟩

/-- The body of `calculateArrowAimDirection` of `polynomial.js`, returning the selected
time next to the direction.  The source has no input guard. -/
def solveAt (shooterEyePos targetHeadPos targetVelocity : Vector3) (arrowSpeed : ℝ) :
    Option (ℝ × Vector3) :=
  let relPos := targetHeadPos.sub shooterEyePos
  let vEnemy := targetVelocity
  let g := ARROW_GRAVITY
  let v := arrowSpeed
  let a := 0.5 * g
  let b := -(v * vEnemy.y + 0.5 * g * relPos.y)
  let c := v * (relPos.x * vEnemy.x + relPos.y * vEnemy.y + relPos.z * vEnemy.z)
  let discriminant := b * b - 4 * a * c
  if discriminant < 0 then none
  else
    let sqrtDisc := Real.sqrt discriminant
    let t1 := (-b + sqrtDisc) / (2 * a)
    let t2 := (-b - sqrtDisc) / (2 * a)
    let t := chooseTime t1 t2
    if t ≤ 0 then none
    else
      let dir := candidate g relPos vEnemy t
      if dir.length < 0.01 then none else some (t, dir.normalize)

/-- The function `calculateArrowAimDirection` of `polynomial.js`. -/
def calculateArrowAimDirection (shooterEyePos targetHeadPos targetVelocity : Vector3)
    (arrowSpeed : ℝ) : Option Vector3 :=
  (solveAt shooterEyePos targetHeadPos targetVelocity arrowSpeed).map Prod.snd

end PolynomialJs

/-! ## polynomial2.js -/

namespace Polynomial2Js

/-- The constant `const ARROW_GRAVITY = 0.05`. -/
def ARROW_GRAVITY : ℝ := 0.05

/-- The constant `const FULLY_CHARGED_SPEED = 3.0`, the default of the `arrowSpeed` argument. -/
def FULLY_CHARGED_SPEED : ℝ := 3.0

/-- Lines 61-65 of `polynomial2.js`: the choice among the two roots; `none` is the
`else return null`. -/
def chooseTime (t1 t2 : ℝ) : Option ℝ :=
  if t1 > 0 ∧ t2 > 0 then some (min t1 t2)
  else if t1 > 0 then some t1
  else if t2 > 0 then some t2
  else none

/-- The coefficient `a` of line 40. -/
def coeffA (g : ℝ) : ℝ := 0.5 * g

/-- The coefficient `b` of line 41. -/
def coeffB (g : ℝ) (relPos targetVelocity : Vector3) (arrowSpeed : ℝ) : ℝ :=
  -(arrowSpeed * targetVelocity.y + 0.5 * g * relPos.y)

/-- The coefficient `c` of line 42. -/
def coeffC (relPos targetVelocity : Vector3) (arrowSpeed : ℝ) : ℝ :=
  arrowSpeed * (relPos.x * targetVelocity.x + relPos.y * targetVelocity.y
    + relPos.z * targetVelocity.z)

/-- Lines 39-65: the value of the variable `t` when line 67 is reached, `none` when the
function has returned `null` before (negative discriminant, degenerate denominator, no
positive root). -/
def selectedTime (g : ℝ) (relPos targetVelocity : Vector3) (arrowSpeed : ℝ) : Option ℝ :=
  let a := coeffA g
  let b := coeffB g relPos targetVelocity arrowSpeed
  let c := coeffC relPos targetVelocity arrowSpeed
  let discriminant := b * b - 4 * a * c
  if discriminant < 0 then none
  else
    let sqrtDisc := Real.sqrt discriminant
    let denom := 2 * a
    if |denom| < 1e-12 then none
    else
      let t1 := (-b + sqrtDisc) / denom
      let t2 := (-b - sqrtDisc) / denom
      chooseTime t1 t2

/-- The vector `(targetX, targetY, targetZ)` of lines 71-73. -/
def candidate (g : ℝ) (relPos targetVelocity : Vector3) (t : ℝ) : Vector3 :=
  ⟨relPos.x + targetVelocity.x * t, relPos.y + targetVelocity.y * t - 0.5 * g * t * t,
   relPos.z + targetVelocity.z * t⟩

/-- The body of `calculateArrowAimDirection` of `polynomial2.js` with the constant
`ARROW_GRAVITY` as the argument `g`, returning the selected time next to the direction. -/
def solveAt (g : ℝ) (shooterEyePos targetHeadPos targetVelocity : Vector3) (arrowSpeed : ℝ) :
    Option (ℝ × Vector3) :=
  if arrowSpeed ≤ 0 then none
  else
    let relPos := targetHeadPos.sub shooterEyePos
    match selectedTime g relPos targetVelocity arrowSpeed with
    | none => none
    | some t =>
      if t ≤ 0 ∨ t > 1e6 then none
      else
        let dir := candidate g relPos targetVelocity t
        if dir.length < 0.01 then none else some (t, dir.normalize)

/-- The function `calculateArrowAimDirection` of `polynomial2.js`. -/
def calculateArrowAimDirection (shooterEyePos targetHeadPos targetVelocity : Vector3)
    (arrowSpeed : ℝ) : Option Vector3 :=
  (solveAt ARROW_GRAVITY shooterEyePos targetHeadPos targetVelocity arrowSpeed).map Prod.snd

end Polynomial2Js

/-! ## The drag model of flight -/

/-- Position and velocity of a projectile in flight. -/
structure Projectile where
  pos : Vector3
  vel : Vector3

/-- One step of the drag model: `position += velocity`, then the velocity is multiplied
by `r` and `g` is subtracted from its vertical component. -/
def dragStep (r g : ℝ) (p : Projectile) : Projectile :=
  ⟨p.pos.add p.vel, ⟨p.vel.x * r, p.vel.y * r - g, p.vel.z * r⟩⟩

/-- The projectile launched from the shooter (the origin of relative coordinates) with
velocity `vel`, after `n` steps of the drag model. -/
def flight (r g : ℝ) (vel : Vector3) (n : ℕ) : Projectile :=
  (dragStep r g)^[n] ⟨Vector3.zero, vel⟩

/-- The predicted target position at time `t` relative to the shooter: `relPos + v * t`. -/
def targetAt (relPos targetVelocity : Vector3) (t : ℝ) : Vector3 :=
  relPos.add (targetVelocity.scale t)

/-- The arrow position at time `t` in the no-drag model of the comment in `polynomial.js`
(lines 36-41): `(v*dx*t, v*dy*t - 0.5*g*t^2, v*dz*t)` for the unit direction `u`. -/
def arrowNoDragAt (g v : ℝ) (u : Vector3) (t : ℝ) : Vector3 :=
  ⟨v * u.x * t, v * u.y * t - 0.5 * g * t ^ 2, v * u.z * t⟩

/-- The formula shared by the two `directionAtT` closures, at a whole flight time `t`
(where `Math.pow(r, t)` is the `t`-th power of `r`). -/
def directionFormula (r g arrowSpeed : ℝ) (relPos v : Vector3) (t : ℕ) : Vector3 :=
  ⟨(relPos.x + v.x * t) * ((r - 1) / (arrowSpeed * (r ^ t - 1))),
   (relPos.y + v.y * t) * ((r - 1) / (arrowSpeed * (r ^ t - 1)))
     + g * (r ^ t - r * t + t - 1) * (1 / (r - 1)) / (arrowSpeed * (r ^ t - 1)),
   (relPos.z + v.z * t) * ((r - 1) / (arrowSpeed * (r ^ t - 1)))⟩

/-! ## cydhranian.js, the solver -/

namespace CydhranianJs

/-- The constant `const FULLY_CHARGED_SPEED = 3.0`, the default of the `arrowSpeed` argument. -/
def FULLY_CHARGED_SPEED : ℝ := 3.0

/-- The constant `const MAX_T = 300`. -/
def MAX_T : ℕ := 300

/-- The constant `const EPS = 0.001`. -/
def EPS : ℝ := 0.001

/-- The closure `magnitudeAtT` of `cydhranian.js` (lines 53-55), for the constants
`ARROW_DRAG`, `ARROW_GRAVITY` of the file. -/
def magnitudeAtT (arrowSpeed : ℝ) (relPos vEnemy : Vector3) (t : ℝ) : ℝ :=
  (directionAtT ARROW_DRAG ARROW_GRAVITY arrowSpeed relPos vEnemy t).length

/-- The loop `for (let t = 1; t <= MAX_T; t++)` of `cydhranian.js` (lines 63-76), entered
at counter `t` with state `st`.  A hit returns `dir.normalize()` without any test on the
length.  The variables `bestT`, `bestDiff` and their update are those of `cydhranian2.js`. -/
def scanLoop (arrowSpeed : ℝ) (relPos vEnemy : Vector3) (t : ℕ)
    (st : Cydhranian2Js.ScanState) : Cydhranian2Js.ScanOutcome :=
  if t ≤ MAX_T then
    let diff := |magnitudeAtT arrowSpeed relPos vEnemy t - 1.0|
    let st1 := Cydhranian2Js.track st t diff
    if diff < EPS then
      Cydhranian2Js.ScanOutcome.returned
        (some ((t : ℝ),
          (directionAtT ARROW_DRAG ARROW_GRAVITY arrowSpeed relPos vEnemy t).normalize))
    else scanLoop arrowSpeed relPos vEnemy (t + 1) st1
  else Cydhranian2Js.ScanOutcome.finished st
termination_by MAX_T + 1 - t
decreasing_by
  simp only [MAX_T] at *
  omega

/-- The body of the bisection loop of `cydhranian.js` (lines 84-98). -/
def bisectStep (arrowSpeed : ℝ) (relPos vEnemy : Vector3) (low high : ℝ) :
    Cydhranian2Js.BisectStep :=
  let mid := (low + high) * 0.5
  let mag := magnitudeAtT arrowSpeed relPos vEnemy mid
  if |mag - 1.0| < EPS then
    Cydhranian2Js.BisectStep.returned
      (some (mid, (directionAtT ARROW_DRAG ARROW_GRAVITY arrowSpeed relPos vEnemy mid).normalize))
  else if mag > 1.0 then
    if magnitudeAtT arrowSpeed relPos vEnemy low < mag then
      Cydhranian2Js.BisectStep.narrowed low mid
    else Cydhranian2Js.BisectStep.narrowed mid high
  else
    if magnitudeAtT arrowSpeed relPos vEnemy high > mag then
      Cydhranian2Js.BisectStep.narrowed mid high
    else Cydhranian2Js.BisectStep.narrowed low mid

/-- The loop `for (let i = 0; i < 70; i++)` of `cydhranian.js` (lines 83-99), entered at
counter `i` with bracket `low`, `high`: `some res` when the loop returned `res`, `none` when
it ran out. -/
def bisectLoop (arrowSpeed : ℝ) (relPos vEnemy : Vector3) (i : ℕ) (low high : ℝ) :
    Option (Option (ℝ × Vector3)) :=
  if i < 70 then
    match bisectStep arrowSpeed relPos vEnemy low high with
    | Cydhranian2Js.BisectStep.returned res => some res
    | Cydhranian2Js.BisectStep.narrowed l h => bisectLoop arrowSpeed relPos vEnemy (i + 1) l h
  else none
termination_by 70 - i

/-- Lines 78-107 of `cydhranian.js`: what happens once the coarse scan has finished without
returning.  The fallback accepts the best sample only when `len > 0.01`. -/
def refine (arrowSpeed : ℝ) (relPos vEnemy : Vector3) (st : Cydhranian2Js.ScanState) :
    Option (ℝ × Vector3) :=
  match st.bestT with
  | some bestT =>
    if (EPS : WithTop ℝ) < st.bestDiff then
      let low := max 1 ((bestT : ℝ) - 20)
      let high := min (MAX_T : ℝ) ((bestT : ℝ) + 20)
      match bisectLoop arrowSpeed relPos vEnemy 0 low high with
      | some res => res
      | none =>
        let dir := directionAtT ARROW_DRAG ARROW_GRAVITY arrowSpeed relPos vEnemy bestT
        if dir.length > 0.01 then some ((bestT : ℝ), dir.normalize) else none
    else none
  | none => none

/-- The body of `calculateArrowAimDirection` of `cydhranian.js`, returning the flight time
next to the direction.  The source has no input guard; the model is exact for every
`arrowSpeed` other than `0`, where the source divides by zero. -/
def solveAt (shooterEyePos targetHeadPos targetVelocity : Vector3) (arrowSpeed : ℝ) :
    Option (ℝ × Vector3) :=
  let relPos := targetHeadPos.sub shooterEyePos
  let vEnemy := targetVelocity
  match scanLoop arrowSpeed relPos vEnemy 1 ⟨none, ⊤⟩ with
  | Cydhranian2Js.ScanOutcome.returned res => res
  | Cydhranian2Js.ScanOutcome.finished st => refine arrowSpeed relPos vEnemy st

/-- The function `calculateArrowAimDirection` of `cydhranian.js`. -/
def calculateArrowAimDirection (shooterEyePos targetHeadPos targetVelocity : Vector3)
    (arrowSpeed : ℝ) : Option Vector3 :=
  (solveAt shooterEyePos targetHeadPos targetVelocity arrowSpeed).map Prod.snd

end CydhranianJs

/-! ## polynomial.js, the selected root -/

namespace PolynomialJs

/-- Lines 43-61 of `polynomial.js`: the value of the variable `t` when line 63 is reached,
`none` when the function has returned `null` before (negative discriminant, or `t <= 0`). -/
def selectedTime (shooterEyePos targetHeadPos targetVelocity : Vector3) (arrowSpeed : ℝ) :
    Option ℝ :=
  let relPos := targetHeadPos.sub shooterEyePos
  let vEnemy := targetVelocity
  let g := ARROW_GRAVITY
  let v := arrowSpeed
  let a := 0.5 * g
  let b := -(v * vEnemy.y + 0.5 * g * relPos.y)
  let c := v * (relPos.x * vEnemy.x + relPos.y * vEnemy.y + relPos.z * vEnemy.z)
  let discriminant := b * b - 4 * a * c
  if discriminant < 0 then none
  else
    let sqrtDisc := Real.sqrt discriminant
    let t1 := (-b + sqrtDisc) / (2 * a)
    let t2 := (-b - sqrtDisc) / (2 * a)
    let t := chooseTime t1 t2
    if t ≤ 0 then none else some t

end PolynomialJs

/-! ## cydhranian2.js, the bracket of the bisection -/

namespace Cydhranian2Js

/-- The values of `low` and `high` at the start of iteration `i` of the bisection loop that
was entered with the bracket `low`, `high`; `none` when the loop has returned before
iteration `i`. -/
def bisectState (r g arrowSpeed : ℝ) (relPos targetVelocity : Vector3) (low high : ℝ) :
    ℕ → Option (ℝ × ℝ)
  | 0 => some (low, high)
  | i + 1 =>
    match bisectState r g arrowSpeed relPos targetVelocity low high i with
    | some (l, h) =>
      match bisectStep r g arrowSpeed relPos targetVelocity l h with
      | BisectStep.narrowed l1 h1 => some (l1, h1)
      | BisectStep.returned _ => none
    | none => none

end Cydhranian2Js

/-! ## Predicates used in the statements -/

/-- The scan state `st` records the best of the samples `1, ..., hi`: nothing when no
sample has been taken, else the earliest sample `b` of least residual, with
`bestDiff` its residual.  `res u` is the residual of the sample `u`. -/
def IsBestSample (res : ℕ → ℝ) (hi : ℕ) (st : Cydhranian2Js.ScanState) : Prop :=
  match st.bestT with
  | none => hi = 0 ∧ st.bestDiff = ⊤
  | some b =>
    1 ≤ b ∧ b ≤ hi ∧ st.bestDiff = ((res b : ℝ) : WithTop ℝ) ∧
      (∀ u, 1 ≤ u → u ≤ hi → res b ≤ res u) ∧ (∀ u, 1 ≤ u → u < b → res b < res u)

end

/-! ## Exact evaluation at rational inputs

At whole flight times and rational inputs every quantity of the direction formula is a
rational number.  The following definitions repeat `directionFormula` over `ℚ`, where it can
be evaluated; `directionFormulaQ_toReal` ties the two together. -/

/-- A vector with rational components. -/
structure QVector3 where
  x : ℚ
  y : ℚ
  z : ℚ

/-- The direction formula of `directionAtT` over the rational numbers. -/
def directionFormulaQ (r g arrowSpeed : ℚ) (relPos v : QVector3) (t : ℕ) : QVector3 :=
  ⟨(relPos.x + v.x * t) * ((r - 1) / (arrowSpeed * (r ^ t - 1))),
   (relPos.y + v.y * t) * ((r - 1) / (arrowSpeed * (r ^ t - 1)))
     + g * (r ^ t - r * t + t - 1) * (1 / (r - 1)) / (arrowSpeed * (r ^ t - 1)),
   (relPos.z + v.z * t) * ((r - 1) / (arrowSpeed * (r ^ t - 1)))⟩

/-- The squared Euclidean length of a rational vector. -/
def QVector3.lengthSq (q : QVector3) : ℚ := q.x * q.x + q.y * q.y + q.z * q.z

/-- The squared length of the direction at the whole time `t`, for the constants of the
sources (`r = 0.99`, `g = 0.05`) and rational inputs. -/
def magSqQ (arrowSpeed : ℚ) (relPos v : QVector3) (t : ℕ) : ℚ :=
  (directionFormulaQ (99 / 100) (1 / 20) arrowSpeed relPos v t).lengthSq

/-- The length is within `0.001` of 1, stated on the squared length. -/
def hitQ (lsq : ℚ) : Prop := (999 / 1000) ^ 2 < lsq ∧ lsq < (1001 / 1000) ^ 2

/-- The length is further than `0.001` from 1, stated on the squared length. -/
def missQ (lsq : ℚ) : Prop := lsq < (999 / 1000) ^ 2 ∨ (1001 / 1000) ^ 2 < lsq

instance hitQ.decidable (lsq : ℚ) : Decidable (hitQ lsq) := by
  unfold hitQ
  infer_instance

instance missQ.decidable (lsq : ℚ) : Decidable (missQ lsq) := by
  unfold missQ
  infer_instance

/-- The real vector with the same components. -/
noncomputable def QVector3.toReal (q : QVector3) : Vector3 := ⟨(q.x : ℝ), (q.y : ℝ), (q.z : ℝ)⟩

/-! ## cydhranian2.js, the bisection loop for any rounding

The bracket of the bisection depends on the arithmetic in two places only: the number that
`(low + high) * 0.5` evaluates to, and the outcome of the tests on the magnitudes.  The
following definitions take both as parameters, so that what is proved about them holds for
the doubles as it does for exact arithmetic. -/

noncomputable section

open Classical

namespace Cydhranian2Js

/-- What the tests of one pass through the bisection body (lines 106-128) decide. -/
inductive BisectChoice where
  | returns
  | breaks
  | lowerHigh
  | raiseLow

/-- One pass through the bisection body (lines 105-129) for the bracket `low`, `high`, where
`midpoint low high` is the number that `(low + high) * 0.5` evaluates to and
`choice low high mid` is what the tests on `magnitudeAtT(mid)`, `magnitudeAtT(low)` and
`magnitudeAtT(high)` decide: the bracket after the assignment `high = mid` or `low = mid`,
`none` when the loop is left by `return` or `break`. -/
def bracketStep (midpoint : ℝ → ℝ → ℝ) (choice : ℝ → ℝ → ℝ → BisectChoice) (low high : ℝ) :
    Option (ℝ × ℝ) :=
  match choice low high (midpoint low high) with
  | BisectChoice.returns => none
  | BisectChoice.breaks => none
  | BisectChoice.lowerHigh => some (low, midpoint low high)
  | BisectChoice.raiseLow => some (midpoint low high, high)

/-- The values of `low` and `high` at the start of iteration `i` of the loop entered with the
bracket `low`, `high`; `none` when the loop has been left before iteration `i`. -/
def bracketState (midpoint : ℝ → ℝ → ℝ) (choice : ℝ → ℝ → ℝ → BisectChoice) (low high : ℝ) :
    ℕ → Option (ℝ × ℝ)
  | 0 => some (low, high)
  | i + 1 =>
    match bracketState midpoint choice low high i with
    | some (l, h) => bracketStep midpoint choice l h
    | none => none

/-- The tests of lines 106-128 on exact magnitudes (which are always finite, so that no
`break` is taken). -/
def exactChoice (r g arrowSpeed : ℝ) (relPos targetVelocity : Vector3) (low high mid : ℝ) :
    BisectChoice :=
  let mag := magnitudeAtT r g arrowSpeed relPos targetVelocity mid
  if |mag - 1.0| < EPS then BisectChoice.returns
  else
    let magLow := magnitudeAtT r g arrowSpeed relPos targetVelocity low
    let magHigh := magnitudeAtT r g arrowSpeed relPos targetVelocity high
    if mag > 1.0 then
      if magLow < mag then BisectChoice.lowerHigh else BisectChoice.raiseLow
    else
      if magHigh > mag then BisectChoice.raiseLow else BisectChoice.lowerHigh

end Cydhranian2Js

end

/-! ## IEEE 754 double precision

JavaScript numbers are binary64 values.  Where a property of the sources depends on rounding,
overflow or `NaN`, the sources are embedded a second time over the type `JsNum` below, whose
finite values are the rational numbers a double can hold and whose arithmetic rounds the exact
result to the nearest double, ties to even.  The two zeros of IEEE 754 are not told apart
(a zero divisor counts as `+0`); none of the embedded programs divides by a computed zero. -/

/-- The floor of the binary logarithm of `n ≥ 1`, by repeated halving. -/
def log2Fuel : ℕ → ℕ → ℕ
  | 0, _ => 0
  | fuel + 1, n => if n < 2 then 0 else log2Fuel fuel (n / 2) + 1

/-- Newton's iteration for the integer square root of `n`, started at `x` above the root:
it descends while the next iterate is smaller. -/
def isqrtFuel : ℕ → ℕ → ℕ → ℕ
  | 0, _, x => x
  | fuel + 1, n, x => if (x + n / x) / 2 < x then isqrtFuel fuel n ((x + n / x) / 2) else x

/-- The floor of the square root of a natural number. -/
def isqrt (n : ℕ) : ℕ :=
  if n = 0 then 0 else isqrtFuel 256 n (2 ^ (log2Fuel n n / 2 + 1))

/-- A JavaScript number: the value of a finite double, `Infinity`, `-Infinity` or `NaN`. -/
inductive JsNum where
  | fin (q : ℚ)
  | posInf
  | negInf
  | nan
  deriving DecidableEq

namespace JsNum

/-- The power `2 ^ e` for an exponent of either sign. -/
def pow2 (e : ℤ) : ℚ := if 0 ≤ e then 2 ^ e.toNat else 1 / 2 ^ (-e).toNat

/-- For `q > 0`, the exponent `e` with `2 ^ e ≤ q < 2 ^ (e + 1)`. -/
def floorLog2 (q : ℚ) : ℤ :=
  if pow2 ((log2Fuel q.num.natAbs q.num.natAbs : ℤ) - (log2Fuel q.den q.den : ℤ)) ≤ q then
    (log2Fuel q.num.natAbs q.num.natAbs : ℤ) - (log2Fuel q.den q.den : ℤ)
  else (log2Fuel q.num.natAbs q.num.natAbs : ℤ) - (log2Fuel q.den q.den : ℤ) - 1

/-- Rounding to the nearest integer, ties to the even one. -/
def roundHalfEven (x : ℚ) : ℤ :=
  if x - ⌊x⌋ < 1 / 2 then ⌊x⌋
  else if 1 / 2 < x - ⌊x⌋ then ⌊x⌋ + 1
  else if ⌊x⌋ % 2 = 0 then ⌊x⌋ else ⌊x⌋ + 1

/-- The spacing of the doubles around `q ≠ 0`: 53 significant bits, and the fixed spacing
`2 ^ (-1074)` of the subnormal range below `2 ^ (-1022)`. -/
def ulpAt (q : ℚ) : ℚ := pow2 (max (floorLog2 |q|) (-1022) - 52)

/-- The double nearest to the rational number `q` (round to nearest, ties to even); a result
of magnitude `2 ^ 1024` or more overflows to an infinity.  This is also how a decimal literal
of the source is read. -/
def ofRat (q : ℚ) : JsNum :=
  if q = 0 then fin 0
  else if pow2 1024 ≤ |(roundHalfEven (q / ulpAt q) : ℚ) * ulpAt q| then
    (if 0 < q then posInf else negInf)
  else fin ((roundHalfEven (q / ulpAt q) : ℚ) * ulpAt q)

/-- The double nearest to the square root of `q > 0`. -/
def sqrtRound (q : ℚ) : ℚ :=
  let ulp := pow2 (⌊(floorLog2 q : ℚ) / 2⌋ - 52)
  let x := q / (ulp * ulp)
  let f : ℤ := (isqrt ⌊x⌋.toNat : ℤ)
  let m : ℤ :=
    if x < ((f : ℚ) + 1 / 2) ^ 2 then f
    else if ((f : ℚ) + 1 / 2) ^ 2 < x then f + 1
    else if f % 2 = 0 then f else f + 1
  (m : ℚ) * ulp

/-- The test `Number.isFinite(x)`. -/
def isFinite : JsNum → Bool
  | fin _ => true
  | _ => false

/-- The comparison `x < y`: false as soon as an operand is `NaN`. -/
def lt : JsNum → JsNum → Bool
  | fin a, fin b => decide (a < b)
  | fin _, posInf => true
  | negInf, fin _ => true
  | negInf, posInf => true
  | _, _ => false

/-- The comparison `x <= y`: false as soon as an operand is `NaN`. -/
def le : JsNum → JsNum → Bool
  | fin a, fin b => decide (a ≤ b)
  | fin _, posInf => true
  | negInf, fin _ => true
  | negInf, posInf => true
  | posInf, posInf => true
  | negInf, negInf => true
  | _, _ => false

/-- Unary minus. -/
def neg : JsNum → JsNum
  | fin a => fin (-a)
  | posInf => negInf
  | negInf => posInf
  | nan => nan

/-- The function `Math.abs`. -/
def abs : JsNum → JsNum
  | fin a => fin |a|
  | posInf => posInf
  | negInf => posInf
  | nan => nan

/-- Addition. -/
def add : JsNum → JsNum → JsNum
  | fin a, fin b => ofRat (a + b)
  | nan, _ => nan
  | _, nan => nan
  | posInf, negInf => nan
  | negInf, posInf => nan
  | posInf, _ => posInf
  | _, posInf => posInf
  | negInf, _ => negInf
  | _, negInf => negInf

/-- Subtraction. -/
def sub (x y : JsNum) : JsNum := add x (neg y)

/-- Multiplication. -/
def mul : JsNum → JsNum → JsNum
  | fin a, fin b => ofRat (a * b)
  | nan, _ => nan
  | _, nan => nan
  | posInf, fin b => if b = 0 then nan else if 0 < b then posInf else negInf
  | negInf, fin b => if b = 0 then nan else if 0 < b then negInf else posInf
  | fin a, posInf => if a = 0 then nan else if 0 < a then posInf else negInf
  | fin a, negInf => if a = 0 then nan else if 0 < a then negInf else posInf
  | posInf, posInf => posInf
  | posInf, negInf => negInf
  | negInf, posInf => negInf
  | negInf, negInf => posInf

/-- Division. -/
def div : JsNum → JsNum → JsNum
  | fin a, fin b =>
    if b = 0 then (if a = 0 then nan else if 0 < a then posInf else negInf)
    else ofRat (a / b)
  | nan, _ => nan
  | _, nan => nan
  | fin _, posInf => fin 0
  | fin _, negInf => fin 0
  | posInf, fin b => if 0 ≤ b then posInf else negInf
  | negInf, fin b => if 0 ≤ b then negInf else posInf
  | posInf, posInf => nan
  | posInf, negInf => nan
  | negInf, posInf => nan
  | negInf, negInf => nan

/-- The function `Math.sqrt`. -/
def sqrt : JsNum → JsNum
  | fin q => if q < 0 then nan else if q = 0 then fin 0 else fin (sqrtRound q)
  | posInf => posInf
  | negInf => nan
  | nan => nan

/-- The function `Math.min` of two arguments. -/
def min : JsNum → JsNum → JsNum
  | nan, _ => nan
  | _, nan => nan
  | x, y => if lt y x then y else x

instance instAdd : Add JsNum := ⟨add⟩

instance instSub : Sub JsNum := ⟨sub⟩

instance instMul : Mul JsNum := ⟨mul⟩

instance instDiv : Div JsNum := ⟨div⟩

instance instNeg : Neg JsNum := ⟨neg⟩

end JsNum

/-- A `Vector3` whose components are doubles. -/
structure DVector3 where
  x : JsNum
  y : JsNum
  z : JsNum
  deriving DecidableEq

namespace DVector3

/-- The method `sub`: componentwise subtraction. -/
def sub (a b : DVector3) : DVector3 := ⟨a.x - b.x, a.y - b.y, a.z - b.z⟩

/-- The method `length`: `Math.sqrt(x * x + y * y + z * z)`. -/
def length (v : DVector3) : JsNum := JsNum.sqrt (v.x * v.x + v.y * v.y + v.z * v.z)

/-- The helper `isVecFinite` of the guarded sources. -/
def isVecFinite (v : DVector3) : Bool := v.x.isFinite && v.y.isFinite && v.z.isFinite

/-- The vector of the doubles nearest to three rational numbers, the way decimal literals
are read. -/
def ofRat (x y z : ℚ) : DVector3 := ⟨JsNum.ofRat x, JsNum.ofRat y, JsNum.ofRat z⟩

end DVector3

/-! ## polynomial.js and polynomial2.js over the doubles -/

namespace PolynomialJsD

/-- The constant `const ARROW_GRAVITY = 0.05`. -/
def ARROW_GRAVITY : JsNum := JsNum.ofRat (1 / 20)

/-- The coefficient `a = 0.5 * g`. -/
def coeffA : JsNum := JsNum.ofRat (1 / 2) * ARROW_GRAVITY

/-- The coefficient `b = -(v * vy + 0.5 * g * y)`. -/
def coeffB (relPos vel : DVector3) (v : JsNum) : JsNum :=
  -(v * vel.y + JsNum.ofRat (1 / 2) * ARROW_GRAVITY * relPos.y)

/-- The coefficient `c = v * (x * vx + y * vy + z * vz)`. -/
def coeffC (relPos vel : DVector3) (v : JsNum) : JsNum :=
  v * (relPos.x * vel.x + relPos.y * vel.y + relPos.z * vel.z)

/-- The value `discriminant = b * b - 4 * a * c`. -/
def discriminant (relPos vel : DVector3) (v : JsNum) : JsNum :=
  coeffB relPos vel v * coeffB relPos vel v - JsNum.ofRat 4 * coeffA * coeffC relPos vel v

/-- The root `t1 = (-b + sqrtDisc) / (2 * a)`. -/
def root1 (relPos vel : DVector3) (v : JsNum) : JsNum :=
  (-coeffB relPos vel v + JsNum.sqrt (discriminant relPos vel v)) / (JsNum.ofRat 2 * coeffA)

/-- The root `t2 = (-b - sqrtDisc) / (2 * a)`. -/
def root2 (relPos vel : DVector3) (v : JsNum) : JsNum :=
  (-coeffB relPos vel v - JsNum.sqrt (discriminant relPos vel v)) / (JsNum.ofRat 2 * coeffA)

/-- The vector `(targetX, targetY, targetZ)` computed from the time `t`. -/
def candidate (relPos vel : DVector3) (t : JsNum) : DVector3 :=
  ⟨relPos.x + vel.x * t,
   relPos.y + vel.y * t - JsNum.ofRat (1 / 2) * ARROW_GRAVITY * t * t,
   relPos.z + vel.z * t⟩

/-- Lines 59-60 of `polynomial.js`: `let t = t1 > 0 ? t1 : t2; if (t2 > 0 && t2 < t) t = t2`. -/
def chooseTime (t1 t2 : JsNum) : JsNum :=
  if (JsNum.lt (JsNum.ofRat 0) t2 && JsNum.lt t2 (if JsNum.lt (JsNum.ofRat 0) t1 then t1 else t2))
      = true then t2
  else if JsNum.lt (JsNum.ofRat 0) t1 = true then t1 else t2

/-- The body of `calculateArrowAimDirection` of `polynomial.js` over the doubles: `none` is
`null`, and `some (t, dir)` stands for the return of `dir.normalize()`, with the time `t` and
the vector `dir` before normalisation. -/
def solveAt (shooterEyePos targetHeadPos targetVelocity : DVector3) (arrowSpeed : JsNum) :
    Option (JsNum × DVector3) :=
  let relPos := targetHeadPos.sub shooterEyePos
  if JsNum.lt (discriminant relPos targetVelocity arrowSpeed) (JsNum.ofRat 0) = true then none
  else
    let t := chooseTime (root1 relPos targetVelocity arrowSpeed)
      (root2 relPos targetVelocity arrowSpeed)
    if JsNum.le t (JsNum.ofRat 0) = true then none
    else
      let dir := candidate relPos targetVelocity t
      if JsNum.lt dir.length (JsNum.ofRat (1 / 100)) = true then none
      else some (t, dir)

end PolynomialJsD

namespace Polynomial2JsD

/-- Lines 60-65 of `polynomial2.js`: the choice of the time among the two roots, `none` for
the `return null` of the last branch. -/
def chooseTime (t1 t2 : JsNum) : Option JsNum :=
  if (JsNum.lt (JsNum.ofRat 0) t1 && JsNum.lt (JsNum.ofRat 0) t2) = true then
    some (JsNum.min t1 t2)
  else if JsNum.lt (JsNum.ofRat 0) t1 = true then some t1
  else if JsNum.lt (JsNum.ofRat 0) t2 = true then some t2
  else none

/-- The body of `calculateArrowAimDirection` of `polynomial2.js` over the doubles, with the
coefficients, roots and candidate vector of `PolynomialJsD` (the same expressions in both
sources): `none` is `null`, and `some (t, dir)` stands for the return of `dir.normalize()`. -/
def solveAt (shooterEyePos targetHeadPos targetVelocity : DVector3) (arrowSpeed : JsNum) :
    Option (JsNum × DVector3) :=
  if (shooterEyePos.isVecFinite && targetHeadPos.isVecFinite && targetVelocity.isVecFinite)
      = false then none
  else if (!arrowSpeed.isFinite || JsNum.le arrowSpeed (JsNum.ofRat 0)) = true then none
  else
    let relPos := targetHeadPos.sub shooterEyePos
    if (!PolynomialJsD.coeffA.isFinite || !(PolynomialJsD.coeffB relPos targetVelocity
        arrowSpeed).isFinite || !(PolynomialJsD.coeffC relPos targetVelocity
        arrowSpeed).isFinite) = true then none
    else if (!(PolynomialJsD.discriminant relPos targetVelocity arrowSpeed).isFinite ||
        JsNum.lt (PolynomialJsD.discriminant relPos targetVelocity arrowSpeed) (JsNum.ofRat 0))
        = true then none
    else if (!(JsNum.ofRat 2 * PolynomialJsD.coeffA).isFinite ||
        JsNum.lt (JsNum.abs (JsNum.ofRat 2 * PolynomialJsD.coeffA)) (JsNum.ofRat (1 / 10 ^ 12)))
        = true then none
    else
      match chooseTime (PolynomialJsD.root1 relPos targetVelocity arrowSpeed)
          (PolynomialJsD.root2 relPos targetVelocity arrowSpeed) with
      | none => none
      | some t =>
        if (!t.isFinite || JsNum.le t (JsNum.ofRat 0) || JsNum.lt (JsNum.ofRat (10 ^ 6)) t)
            = true then none
        else
          let dir := PolynomialJsD.candidate relPos targetVelocity t
          if dir.isVecFinite = false then none
          else if (!dir.length.isFinite || JsNum.lt dir.length (JsNum.ofRat (1 / 100))) = true
          then none
          else some (t, dir)

end Polynomial2JsD

/-! ## Theorems -/

/-! ### Closed form of the drag-model flight -/

theorem flight_zero (r g : ℝ) (vel : Vector3) : flight r g vel 0 = ⟨Vector3.zero, vel⟩ := rfl

theorem flight_succ (r g : ℝ) (vel : Vector3) (n : ℕ) :
    flight r g vel (n + 1) = dragStep r g (flight r g vel n) := by
  unfold flight
  rw [Function.iterate_succ_apply']

/-- Velocity and position after `n` steps, cleared of denominators. -/
theorem flight_closed_form (r g : ℝ) (vel : Vector3) (n : ℕ) :
    (flight r g vel n).vel.x = vel.x * r ^ n ∧
    (flight r g vel n).vel.z = vel.z * r ^ n ∧
    (r - 1) * (flight r g vel n).vel.y = vel.y * r ^ n * (r - 1) - g * (r ^ n - 1) ∧
    (r - 1) * (flight r g vel n).pos.x = vel.x * (r ^ n - 1) ∧
    (r - 1) * (flight r g vel n).pos.z = vel.z * (r ^ n - 1) ∧
    (r - 1) ^ 2 * (flight r g vel n).pos.y
      = vel.y * (r ^ n - 1) * (r - 1) - g * ((r ^ n - 1) - n * (r - 1)) := by
  induction n with
  | zero => simp [flight_zero, Vector3.zero, mul_comm]
  | succ k ih =>
    obtain ⟨h1, h2, h3, h4, h5, h6⟩ := ih
    rw [flight_succ]
    simp only [dragStep, Vector3.add, pow_succ, Nat.cast_succ]
    refine ⟨?_, ?_, ?_, ?_, ?_, ?_⟩
    · rw [h1]; ring
    · rw [h2]; ring
    · linear_combination r * h3
    · linear_combination h4 + (r - 1) * h1
    · linear_combination h5 + (r - 1) * h2
    · linear_combination h6 + (r - 1) * h3

/-- The position reached after `n` steps when all denominators are non-zero. -/
theorem flight_pos_eq (r g : ℝ) (vel target : Vector3) (n : ℕ) (hr : r ≠ 1)
    (hx : vel.x * (r ^ n - 1) = (r - 1) * target.x)
    (hy : vel.y * (r ^ n - 1) * (r - 1) - g * ((r ^ n - 1) - n * (r - 1))
      = (r - 1) ^ 2 * target.y)
    (hz : vel.z * (r ^ n - 1) = (r - 1) * target.z) :
    (flight r g vel n).pos = target := by
  obtain ⟨-, -, -, h4, h5, h6⟩ := flight_closed_form r g vel n
  have hr1 : r - 1 ≠ 0 := sub_ne_zero.mpr hr
  ext
  · exact mul_left_cancel₀ hr1 (h4.trans hx)
  · exact mul_left_cancel₀ (pow_ne_zero 2 hr1) (h6.trans hy)
  · exact mul_left_cancel₀ hr1 (h5.trans hz)

/-! ### The direction formula at whole flight times -/

theorem powIsNumber_natCast (r : ℝ) (t : ℕ) : powIsNumber r (t : ℝ) :=
  Or.inr ⟨(t : ℤ), by push_cast; rfl⟩

theorem cyd_directionAtT_nat (r g s : ℝ) (relPos v : Vector3) (t : ℕ) (ht : 1 ≤ t) :
    CydhranianJs.directionAtT r g s relPos v t = directionFormula r g s relPos v t := by
  have h0 : ¬ ((t : ℝ) ≤ 0) := by
    have : (1 : ℝ) ≤ t := by exact_mod_cast ht
    linarith
  simp only [CydhranianJs.directionAtT, directionFormula, if_neg h0, Real.rpow_natCast]

theorem cyd2_directionAtT_nat (r g s : ℝ) (relPos v : Vector3) (t : ℕ) (ht : 1 ≤ t)
    (hg : (1e-12 : ℝ) ≤ |r ^ t - 1|) :
    Cydhranian2Js.directionAtT r g s relPos v t = directionFormula r g s relPos v t := by
  have h0 : ¬ ((t : ℝ) ≤ 0) := by
    have : (1 : ℝ) ≤ t := by exact_mod_cast ht
    linarith
  have h1 : ¬ ¬ powIsNumber r (t : ℝ) := not_not.mpr (powIsNumber_natCast r t)
  have h2 : ¬ (|r ^ t - 1| < (1e-12 : ℝ)) := not_lt.mpr hg
  simp only [Cydhranian2Js.directionAtT, directionFormula, if_neg h0, if_neg h1,
    Real.rpow_natCast, if_neg h2]

/-- Launching with velocity `s * directionFormula t` lands on the predicted target
position after `t` steps. -/
theorem directionFormula_round_trip (r g s : ℝ) (relPos v : Vector3) (t : ℕ)
    (hr : r ≠ 1) (hs : s ≠ 0) (hrt : r ^ t ≠ 1) :
    (flight r g ((directionFormula r g s relPos v t).scale s) t).pos
      = targetAt relPos v t := by
  have hr1 : r - 1 ≠ 0 := sub_ne_zero.mpr hr
  have hrt1 : r ^ t - 1 ≠ 0 := sub_ne_zero.mpr hrt
  apply flight_pos_eq r g _ _ t hr
  · simp only [directionFormula, Vector3.scale, targetAt, Vector3.add]
    field_simp
    ring
  · simp only [directionFormula, Vector3.scale, targetAt, Vector3.add]
    field_simp
    ring
  · simp only [directionFormula, Vector3.scale, targetAt, Vector3.add]
    field_simp
    ring

theorem normalize_of_length_one (d : Vector3) (h : d.length = 1) : d.normalize = d := by
  ext <;> simp [Vector3.normalize, h]

/-- For a positive drag ratio the inner guard of `cydhranian2.js` never fires at a whole
flight time once the outer guard `|r - 1| >= 1e-12` has passed. -/
theorem pow_guard_of_base_guard (r : ℝ) (t : ℕ) (hpos : 0 < r) (ht : 1 ≤ t)
    (hg : (1e-12 : ℝ) ≤ |r - 1|) : (1e-12 : ℝ) ≤ |r ^ t - 1| := by
  rcases le_total 1 r with h | h
  · have h1 : r ≤ r ^ t := by
      calc r = r ^ 1 := (pow_one r).symm
        _ ≤ r ^ t := pow_le_pow_right₀ h ht
    rw [abs_of_nonneg (by linarith)] at hg
    rw [abs_of_nonneg (by linarith)]
    linarith
  · have h1 : r ^ t ≤ r := by
      calc r ^ t ≤ r ^ 1 := pow_le_pow_of_le_one hpos.le h ht
        _ = r := pow_one r
    rw [abs_of_nonpos (by linarith)] at hg
    rw [abs_of_nonpos (by linarith)]
    linarith

/-- C1 (amended): for every drag ratio `r != 1`, gravity `g`, launch speed `s != 0`,
`relPos`, target velocity `v` and whole flight time `t >= 1` with `r^t != 1`, the projectile
launched from the shooter with velocity `s * direction(t)` and stepped `t` times by the drag
model lands exactly on `relPos + v * t`: for `directionAtT` of `cydhranian.js` as it stands,
and for `directionAtT` of `cydhranian2.js` whenever its guard `|r^t - 1| >= 1e-12` passes,
which it does for every positive `r` with `|r - 1| >= 1e-12`.  Hence, when the direction has
length 1, launching at speed `s` along it (velocity `s * normalize(direction(t))`) reaches the
target exactly at `t`. -/
theorem direction_round_trip (r g s : ℝ) (relPos v : Vector3) (t : ℕ)
    (hr : r ≠ 1) (hs : s ≠ 0) (ht : 1 ≤ t) (hrt : r ^ t ≠ 1) :
    ((flight r g ((CydhranianJs.directionAtT r g s relPos v t).scale s) t).pos
        = targetAt relPos v t
      ∧ ((CydhranianJs.directionAtT r g s relPos v t).length = 1 →
          (flight r g ((CydhranianJs.directionAtT r g s relPos v t).normalize.scale s) t).pos
            = targetAt relPos v t))
    ∧ ((1e-12 : ℝ) ≤ |r ^ t - 1| →
        (flight r g ((Cydhranian2Js.directionAtT r g s relPos v t).scale s) t).pos
          = targetAt relPos v t
        ∧ ((Cydhranian2Js.directionAtT r g s relPos v t).length = 1 →
            (flight r g ((Cydhranian2Js.directionAtT r g s relPos v t).normalize.scale s) t).pos
              = targetAt relPos v t))
    ∧ (0 < r → (1e-12 : ℝ) ≤ |r - 1| →
        (flight r g ((Cydhranian2Js.directionAtT r g s relPos v t).scale s) t).pos
          = targetAt relPos v t) := by
  have key := directionFormula_round_trip r g s relPos v t hr hs hrt
  refine ⟨⟨?_, ?_⟩, ?_, ?_⟩
  · rw [cyd_directionAtT_nat r g s relPos v t ht]
    exact key
  · intro hlen
    rw [normalize_of_length_one _ hlen, cyd_directionAtT_nat r g s relPos v t ht]
    exact key
  · intro hg
    refine ⟨?_, ?_⟩
    · rw [cyd2_directionAtT_nat r g s relPos v t ht hg]
      exact key
    · intro hlen
      rw [normalize_of_length_one _ hlen, cyd2_directionAtT_nat r g s relPos v t ht hg]
      exact key
  · intro hpos hg
    rw [cyd2_directionAtT_nat r g s relPos v t ht (pow_guard_of_base_guard r t hpos ht hg)]
    exact key

/-- C1, witness: the round trip at `r = 0.99`, `g = 0.05`, `s = 3`, `relPos = (0, 0, 20)`,
a target at rest and `t = 7`. -/
theorem direction_round_trip_witness :
    ((0.99 : ℝ) ≠ 1 ∧ (3 : ℝ) ≠ 0 ∧ 1 ≤ 7 ∧ (0.99 : ℝ) ^ 7 ≠ 1) ∧
    (flight 0.99 0.05 ((CydhranianJs.directionAtT 0.99 0.05 3 ⟨0, 0, 20⟩ ⟨0, 0, 0⟩
      ((7 : ℕ) : ℝ)).scale 3) 7).pos = targetAt ⟨0, 0, 20⟩ ⟨0, 0, 0⟩ ((7 : ℕ) : ℝ) :=
  ⟨⟨by norm_num, by norm_num, by norm_num, by norm_num⟩,
    (direction_round_trip 0.99 0.05 3 ⟨0, 0, 20⟩ ⟨0, 0, 0⟩ 7 (by norm_num) (by norm_num)
      (by norm_num) (by norm_num)).1.1⟩

/-- C1, counterexample: two inputs at which `directionAtT` of `cydhranian2.js` takes its
`|rt - 1| < 1e-12` branch and yields the zero vector although `r != 1` and `r^t != 1`, so
that the projectile never leaves the vertical line through the shooter and misses the target
at `(1, 0, 0)`: the drag ratio `r = 1 - 1e-13` at `t = 1`, and the drag ratio
`r = -1 + 1e-13` (which passes the solver's own test `|r - 1| >= 1e-12`) at `t = 2`. -/
theorem direction_round_trip_counterexample :
    (((1 - 1e-13 : ℝ) ≠ 1 ∧ (1 : ℝ) ≠ 0 ∧ 1 ≤ 1 ∧ (1 - 1e-13 : ℝ) ^ 1 ≠ 1) ∧
      Cydhranian2Js.directionAtT (1 - 1e-13) 0.05 1 ⟨1, 0, 0⟩ ⟨0, 0, 0⟩ ((1 : ℕ) : ℝ)
        = Vector3.zero ∧
      (flight (1 - 1e-13) 0.05 ((Cydhranian2Js.directionAtT (1 - 1e-13) 0.05 1 ⟨1, 0, 0⟩
        ⟨0, 0, 0⟩ ((1 : ℕ) : ℝ)).scale 1) 1).pos
          ≠ targetAt ⟨1, 0, 0⟩ ⟨0, 0, 0⟩ ((1 : ℕ) : ℝ)) ∧
    (((-1 + 1e-13 : ℝ) ≠ 1 ∧ (1 : ℝ) ≠ 0 ∧ 1 ≤ 2 ∧ (-1 + 1e-13 : ℝ) ^ 2 ≠ 1
        ∧ ¬ (|(-1 + 1e-13 : ℝ) - 1| < 1e-12)) ∧
      Cydhranian2Js.directionAtT (-1 + 1e-13) 0.05 1 ⟨1, 0, 0⟩ ⟨0, 0, 0⟩ ((2 : ℕ) : ℝ)
        = Vector3.zero ∧
      (flight (-1 + 1e-13) 0.05 ((Cydhranian2Js.directionAtT (-1 + 1e-13) 0.05 1 ⟨1, 0, 0⟩
        ⟨0, 0, 0⟩ ((2 : ℕ) : ℝ)).scale 1) 2).pos
          ≠ targetAt ⟨1, 0, 0⟩ ⟨0, 0, 0⟩ ((2 : ℕ) : ℝ)) := by
  have hdir : Cydhranian2Js.directionAtT (1 - 1e-13) 0.05 1 ⟨1, 0, 0⟩ ⟨0, 0, 0⟩ ((1 : ℕ) : ℝ)
      = Vector3.zero := by
    have h1 : ¬ ¬ powIsNumber (1 - 1e-13) ((1 : ℕ) : ℝ) :=
      not_not.mpr (powIsNumber_natCast _ 1)
    have h2 : |(1 - 1e-13 : ℝ) ^ (1 : ℕ) - 1| < (1e-12 : ℝ) := by
      rw [abs_lt]
      constructor <;> norm_num
    have h0 : ¬ (((1 : ℕ) : ℝ) ≤ 0) := by norm_num
    simp only [Cydhranian2Js.directionAtT, if_neg h0, if_neg h1, Real.rpow_natCast, if_pos h2]
  have hdir2 : Cydhranian2Js.directionAtT (-1 + 1e-13) 0.05 1 ⟨1, 0, 0⟩ ⟨0, 0, 0⟩
      ((2 : ℕ) : ℝ) = Vector3.zero := by
    have h1 : ¬ ¬ powIsNumber (-1 + 1e-13) ((2 : ℕ) : ℝ) :=
      not_not.mpr (powIsNumber_natCast _ 2)
    have h2 : |(-1 + 1e-13 : ℝ) ^ (2 : ℕ) - 1| < (1e-12 : ℝ) := by
      rw [abs_lt]
      constructor <;> norm_num
    have h0 : ¬ (((2 : ℕ) : ℝ) ≤ 0) := by norm_num
    simp only [Cydhranian2Js.directionAtT, if_neg h0, if_neg h1, Real.rpow_natCast, if_pos h2]
  refine ⟨⟨⟨by norm_num, by norm_num, le_refl 1, by norm_num⟩, hdir, ?_⟩,
    ⟨⟨by norm_num, by norm_num, by norm_num, by norm_num, ?_⟩, hdir2, ?_⟩⟩
  · rw [hdir]
    intro h
    have hx := congrArg Vector3.x h
    simp [flight, dragStep, Vector3.add, Vector3.scale, Vector3.zero, targetAt] at hx
  · rw [not_lt, abs_of_nonpos (by norm_num)]
    norm_num
  · rw [hdir2]
    intro h
    have hx := congrArg Vector3.x h
    simp [flight, dragStep, Vector3.add, Vector3.scale, Vector3.zero, targetAt] at hx

/-! ### Vectors -/

theorem length_nonneg (d : Vector3) : 0 ≤ d.length := Real.sqrt_nonneg _

theorem length_mul_self (d : Vector3) :
    d.length * d.length = d.x * d.x + d.y * d.y + d.z * d.z :=
  Real.mul_self_sqrt (by nlinarith [mul_self_nonneg d.x, mul_self_nonneg d.y, mul_self_nonneg d.z])

/-- Normalising a vector of non-zero length gives a vector of length 1. -/
theorem normalize_length (d : Vector3) (h : d.length ≠ 0) : d.normalize.length = 1 := by
  have hsq := length_mul_self d
  have hpos : 0 < d.length := lt_of_le_of_ne (length_nonneg d) (Ne.symm h)
  have h1 : d.normalize.x * d.normalize.x + d.normalize.y * d.normalize.y
      + d.normalize.z * d.normalize.z = 1 := by
    simp only [Vector3.normalize]
    field_simp
    linarith
  unfold Vector3.length
  rw [h1, Real.sqrt_one]

theorem length_zero : Vector3.zero.length = 0 := by
  simp [Vector3.length, Vector3.zero]

/-! ### The acceptance test -/

theorem accept_eq_none_iff (t : ℝ) (d : Vector3) :
    Cydhranian2Js.accept t d = none ↔ d.length < 0.01 := by
  unfold Cydhranian2Js.accept
  split_ifs with h <;> simp [h]

theorem accept_eq_some_iff (t : ℝ) (d : Vector3) (res : ℝ × Vector3) :
    Cydhranian2Js.accept t d = some res ↔ ¬ d.length < 0.01 ∧ res = (t, d.normalize) := by
  unfold Cydhranian2Js.accept
  split_ifs with h
  · simp [h]
  · simp only [Option.some.injEq, h, not_false_eq_true, true_and]
    exact eq_comm

/-- A candidate time whose residual is below `EPS` has a direction of length above `0.999`. -/
theorem length_of_residual_lt (r g s : ℝ) (relPos v : Vector3) (t : ℝ)
    (h : Cydhranian2Js.residualAt r g s relPos v t < Cydhranian2Js.EPS) :
    0.999 < (Cydhranian2Js.directionAtT r g s relPos v t).length := by
  unfold Cydhranian2Js.residualAt Cydhranian2Js.magnitudeAtT Cydhranian2Js.EPS at h
  rw [abs_lt] at h
  norm_num at h
  norm_num
  linarith [h.1]

theorem accept_of_residual_lt (r g s : ℝ) (relPos v : Vector3) (t : ℝ)
    (h : Cydhranian2Js.residualAt r g s relPos v t < Cydhranian2Js.EPS) :
    Cydhranian2Js.accept t (Cydhranian2Js.directionAtT r g s relPos v t)
      = some (t, (Cydhranian2Js.directionAtT r g s relPos v t).normalize) := by
  rw [accept_eq_some_iff]
  refine ⟨?_, rfl⟩
  have := length_of_residual_lt r g s relPos v t h
  rw [not_lt]
  norm_num at this ⊢
  linarith

/-! ### The coarse scan -/

section Scan

open Cydhranian2Js

variable (r g s : ℝ) (relPos v : Vector3)

theorem isBestSample_init (res : ℕ → ℝ) : IsBestSample res 0 ⟨none, ⊤⟩ := by
  simp [IsBestSample]

theorem isBestSample_track (res : ℕ → ℝ) (t : ℕ) (st : ScanState) (ht : 1 ≤ t)
    (h : IsBestSample res (t - 1) st) : IsBestSample res t (track st t (res t)) := by
  obtain ⟨bt, bd⟩ := st
  cases bt with
  | none =>
    simp only [IsBestSample] at h
    obtain ⟨h0, hd⟩ := h
    subst hd
    have ht1 : t = 1 := by omega
    subst ht1
    have hlt : ((res 1 : ℝ) : WithTop ℝ) < ⊤ := WithTop.coe_lt_top _
    simp only [track, if_pos hlt, IsBestSample]
    refine ⟨le_refl 1, le_refl 1, trivial, ?_, ?_⟩
    · intro u hu1 hu2
      have : u = 1 := by omega
      subst this
      exact le_refl _
    · intro u hu1 hu2
      omega
  | some b =>
    simp only [IsBestSample] at h
    obtain ⟨hb1, hb2, hd, hmin, hfirst⟩ := h
    subst hd
    by_cases hlt : res t < res b
    · have hlt2 : ((res t : ℝ) : WithTop ℝ) < ((res b : ℝ) : WithTop ℝ) :=
        WithTop.coe_lt_coe.mpr hlt
      simp only [track, if_pos hlt2, IsBestSample]
      refine ⟨ht, le_refl t, trivial, ?_, ?_⟩
      · intro u hu1 hu2
        rcases Nat.lt_or_ge u t with hu | hu
        · exact le_of_lt (lt_of_lt_of_le hlt (hmin u hu1 (by omega)))
        · have : u = t := by omega
          subst this
          exact le_refl _
      · intro u hu1 hu2
        exact lt_of_lt_of_le hlt (hmin u hu1 (by omega))
    · have hlt2 : ¬ (((res t : ℝ) : WithTop ℝ) < ((res b : ℝ) : WithTop ℝ)) := by
        rw [WithTop.coe_lt_coe]
        exact hlt
      simp only [track, if_neg hlt2, IsBestSample]
      refine ⟨hb1, by omega, trivial, ?_, hfirst⟩
      intro u hu1 hu2
      rcases Nat.lt_or_ge u t with hu | hu
      · exact hmin u hu1 (by omega)
      · have : u = t := by omega
        subst this
        exact not_lt.mp hlt

/-- The coarse scan entered at `t`: either it returns at the first sample `t0 >= t` whose
residual is below `EPS`, or no sample from `t` on has such a residual and it finishes with
the best of all samples. -/
theorem scanLoop_spec (n t : ℕ) (st : ScanState) (h : t + n = MAX_T + 1) (ht : 1 ≤ t)
    (hbest : IsBestSample (fun u => residualAt r g s relPos v u) (t - 1) st) :
    (∃ t0 : ℕ, t ≤ t0 ∧ t0 ≤ MAX_T ∧ residualAt r g s relPos v t0 < EPS ∧
        (∀ u : ℕ, t ≤ u → u < t0 → ¬ residualAt r g s relPos v u < EPS) ∧
        scanLoop r g s relPos v t st
          = ScanOutcome.returned (accept t0 (directionAtT r g s relPos v t0))) ∨
    ((∀ u : ℕ, t ≤ u → u ≤ MAX_T → ¬ residualAt r g s relPos v u < EPS) ∧
      ∃ st1, scanLoop r g s relPos v t st = ScanOutcome.finished st1 ∧
        IsBestSample (fun u => residualAt r g s relPos v u) MAX_T st1) := by
  induction n generalizing t st with
  | zero =>
    right
    have ht2 : ¬ t ≤ MAX_T := by omega
    refine ⟨fun u hu1 hu2 => by omega, st, ?_, ?_⟩
    · rw [scanLoop, if_neg ht2]
    · have : t - 1 = MAX_T := by omega
      rw [← this]
      exact hbest
  | succ k ih =>
    have ht2 : t ≤ MAX_T := by omega
    by_cases hhit : residualAt r g s relPos v t < EPS
    · left
      refine ⟨t, le_refl t, ht2, hhit, fun u hu1 hu2 => by omega, ?_⟩
      rw [scanLoop, if_pos ht2]
      simp only [if_pos hhit]
    · have hstep := isBestSample_track (fun u => residualAt r g s relPos v u) t st ht hbest
      have hrec : scanLoop r g s relPos v t st
          = scanLoop r g s relPos v (t + 1) (track st t (residualAt r g s relPos v t)) := by
        rw [scanLoop, if_pos ht2]
        simp only [if_neg hhit]
      rcases ih (t + 1) (track st t (residualAt r g s relPos v t)) (by omega) (by omega)
        (by simpa using hstep) with ⟨t0, h1, h2, h3, h4, h5⟩ | ⟨h1, st1, h2, h3⟩
      · left
        refine ⟨t0, by omega, h2, h3, ?_, by rw [hrec, h5]⟩
        intro u hu1 hu2
        rcases Nat.eq_or_lt_of_le hu1 with heq | hlt
        · subst heq
          exact hhit
        · exact h4 u hlt hu2
      · right
        refine ⟨?_, st1, by rw [hrec, h2], h3⟩
        intro u hu1 hu2
        rcases Nat.eq_or_lt_of_le hu1 with heq | hlt
        · subst heq
          exact hhit
        · exact h1 u hlt hu2

end Scan

/-! ### The bisection refinement -/

section Bisect

open Cydhranian2Js

variable (r g s : ℝ) (relPos v : Vector3)

/-- One pass through the bisection body: it returns at the midpoint when the residual there
is below `EPS`, and otherwise replaces exactly one end of the bracket by the midpoint. -/
theorem bisectStep_cases (low high : ℝ) :
    (residualAt r g s relPos v ((low + high) * 0.5) < EPS ∧
      bisectStep r g s relPos v low high
        = BisectStep.returned (accept ((low + high) * 0.5)
            (directionAtT r g s relPos v ((low + high) * 0.5)))) ∨
    (¬ residualAt r g s relPos v ((low + high) * 0.5) < EPS ∧
      (bisectStep r g s relPos v low high = BisectStep.narrowed low ((low + high) * 0.5) ∨
       bisectStep r g s relPos v low high = BisectStep.narrowed ((low + high) * 0.5) high)) := by
  by_cases hhit : residualAt r g s relPos v ((low + high) * 0.5) < EPS
  · left
    refine ⟨hhit, ?_⟩
    have hhit2 : |magnitudeAtT r g s relPos v ((low + high) * 0.5) - 1.0| < EPS := hhit
    simp only [bisectStep, if_pos hhit2]
  · right
    refine ⟨hhit, ?_⟩
    have hhit2 : ¬ |magnitudeAtT r g s relPos v ((low + high) * 0.5) - 1.0| < EPS := hhit
    simp only [bisectStep, if_neg hhit2]
    split_ifs
    · exact Or.inl rfl
    · exact Or.inr rfl
    · exact Or.inr rfl
    · exact Or.inl rfl

/-- The bisection loop entered at counter `i` with `low <= high`: either it runs out, or it
returns at a time inside the bracket whose residual is below `EPS`. -/
theorem bisectLoop_spec (n i : ℕ) (low high : ℝ) (h : i + n = 70) (hle : low ≤ high) :
    bisectLoop r g s relPos v i low high = none ∨
    ∃ mid : ℝ, low ≤ mid ∧ mid ≤ high ∧ residualAt r g s relPos v mid < EPS ∧
      bisectLoop r g s relPos v i low high
        = some (some (mid, (directionAtT r g s relPos v mid).normalize)) := by
  induction n generalizing i low high with
  | zero =>
    left
    have hi : ¬ i < 70 := by omega
    rw [bisectLoop, if_neg hi]
  | succ k ih =>
    have hi : i < 70 := by omega
    have hm1 : low ≤ (low + high) * 0.5 := by norm_num; linarith
    have hm2 : (low + high) * 0.5 ≤ high := by norm_num; linarith
    rcases bisectStep_cases r g s relPos v low high with ⟨hhit, hstep⟩ | ⟨-, hstep | hstep⟩
    · right
      refine ⟨(low + high) * 0.5, hm1, hm2, hhit, ?_⟩
      rw [bisectLoop, if_pos hi, hstep]
      simp only [accept_of_residual_lt r g s relPos v _ hhit]
    · have hrec : bisectLoop r g s relPos v i low high
          = bisectLoop r g s relPos v (i + 1) low ((low + high) * 0.5) := by
        rw [bisectLoop, if_pos hi, hstep]
      rcases ih (i + 1) low ((low + high) * 0.5) (by omega) hm1 with h0 | ⟨mid, h1, h2, h3, h4⟩
      · left
        rw [hrec, h0]
      · right
        exact ⟨mid, h1, le_trans h2 hm2, h3, by rw [hrec, h4]⟩
    · have hrec : bisectLoop r g s relPos v i low high
          = bisectLoop r g s relPos v (i + 1) ((low + high) * 0.5) high := by
        rw [bisectLoop, if_pos hi, hstep]
      rcases ih (i + 1) ((low + high) * 0.5) high (by omega) hm2 with h0 | ⟨mid, h1, h2, h3, h4⟩
      · left
        rw [hrec, h0]
      · right
        exact ⟨mid, le_trans hm1 h1, h2, h3, by rw [hrec, h4]⟩

/-- The initial bracket `[max(1, bestT - 20), min(MAX_T, bestT + 20)]` is non-empty and lies
in `[1, MAX_T]` when `1 <= bestT <= MAX_T`. -/
theorem bracket_bounds (b : ℕ) (h1 : 1 ≤ b) (h2 : b ≤ MAX_T) :
    (1 : ℝ) ≤ max 1 ((b : ℝ) - 20) ∧
    max 1 ((b : ℝ) - 20) ≤ min (MAX_T : ℝ) ((b : ℝ) + 20) ∧
    min (MAX_T : ℝ) ((b : ℝ) + 20) ≤ (MAX_T : ℝ) := by
  have hb1 : (1 : ℝ) ≤ b := by exact_mod_cast h1
  have hb2 : (b : ℝ) ≤ (MAX_T : ℝ) := by exact_mod_cast h2
  refine ⟨le_max_left _ _, ?_, min_le_left _ _⟩
  apply le_min
  · apply max_le
    · linarith
    · linarith
  · apply max_le
    · linarith
    · linarith

end Bisect

/-! ### The whole drag-model solver -/

section Solver

open Cydhranian2Js

/-- Past the input guard, `solveAt` is the coarse scan followed, when the scan finishes
without returning, by the refinement. -/
theorem solveAt_eq_scan (r g : ℝ) (shooter target vel : Vector3) (s : ℝ) (hs : 0 < s)
    (hr : (1e-12 : ℝ) ≤ |r - 1|) :
    solveAt r g shooter target vel s
      = match scanLoop r g s (target.sub shooter) vel 1 ⟨none, ⊤⟩ with
        | ScanOutcome.returned res => res
        | ScanOutcome.finished st => refine r g s (target.sub shooter) vel st := by
  have hs0 : ¬ s ≤ 0 := not_le.mpr hs
  have hr0 : ¬ |r - 1| < (1e-12 : ℝ) := not_lt.mpr hr
  simp only [solveAt, if_neg hs0, if_neg hr0]

/-- The coarse scan started as the solver starts it returns at the first whole time whose
residual is below `EPS`, if there is one. -/
theorem scan_returns_first_hit (r g s : ℝ) (relPos v : Vector3) (t : ℕ) (ht1 : 1 ≤ t)
    (ht2 : t ≤ MAX_T) (hres : residualAt r g s relPos v t < EPS) :
    ∃ t0 : ℕ, 1 ≤ t0 ∧ t0 ≤ t ∧ residualAt r g s relPos v t0 < EPS ∧
      (∀ u : ℕ, 1 ≤ u → u < t0 → ¬ residualAt r g s relPos v u < EPS) ∧
      scanLoop r g s relPos v 1 ⟨none, ⊤⟩
        = ScanOutcome.returned (some ((t0 : ℝ), (directionAtT r g s relPos v t0).normalize)) := by
  rcases scanLoop_spec r g s relPos v MAX_T 1 ⟨none, ⊤⟩ (by omega) (le_refl 1)
    (isBestSample_init _) with ⟨t0, h1, h2, h3, h4, h5⟩ | ⟨h1, -⟩
  · refine ⟨t0, h1, ?_, h3, h4, ?_⟩
    · by_contra hlt
      exact h4 t ht1 (not_le.mp hlt) hres
    · rw [h5, accept_of_residual_lt r g s relPos v _ h3]
  · exact absurd hres (h1 t ht1 ht2)

/-- Every way `solveAt` of `cydhranian2.js` can end once the input guard has passed:
* the coarse scan returns at the first whole time `t0` in `1..MAX_T` of residual below `EPS`;
* or no whole time has such a residual, `b` is the earliest whole time of least residual, and
  - the least residual equals `EPS` and the result is `null`, or
  - the bisection returns at a time `mid` of its bracket with residual below `EPS`, or
  - the bisection runs out and the best sample `b` is put to the acceptance test. -/
theorem solveAt_cases (r g : ℝ) (shooter target vel : Vector3) (s : ℝ) (hs : 0 < s)
    (hr : (1e-12 : ℝ) ≤ |r - 1|) :
    (∃ t0 : ℕ, 1 ≤ t0 ∧ t0 ≤ MAX_T ∧ residualAt r g s (target.sub shooter) vel t0 < EPS ∧
        (∀ u : ℕ, 1 ≤ u → u < t0 → ¬ residualAt r g s (target.sub shooter) vel u < EPS) ∧
        solveAt r g shooter target vel s
          = some ((t0 : ℝ), (directionAtT r g s (target.sub shooter) vel t0).normalize)) ∨
    ((∀ u : ℕ, 1 ≤ u → u ≤ MAX_T → ¬ residualAt r g s (target.sub shooter) vel u < EPS) ∧
      ∃ b : ℕ, 1 ≤ b ∧ b ≤ MAX_T ∧
        (∀ u : ℕ, 1 ≤ u → u ≤ MAX_T →
          residualAt r g s (target.sub shooter) vel b ≤ residualAt r g s (target.sub shooter) vel u) ∧
        (∀ u : ℕ, 1 ≤ u → u < b →
          residualAt r g s (target.sub shooter) vel b < residualAt r g s (target.sub shooter) vel u) ∧
        ((residualAt r g s (target.sub shooter) vel b = EPS ∧
            solveAt r g shooter target vel s = none) ∨
         (EPS < residualAt r g s (target.sub shooter) vel b ∧
            ∃ mid : ℝ, max 1 ((b : ℝ) - 20) ≤ mid ∧ mid ≤ min (MAX_T : ℝ) ((b : ℝ) + 20) ∧
              residualAt r g s (target.sub shooter) vel mid < EPS ∧
              solveAt r g shooter target vel s
                = some (mid, (directionAtT r g s (target.sub shooter) vel mid).normalize)) ∨
         (EPS < residualAt r g s (target.sub shooter) vel b ∧
            bisectLoop r g s (target.sub shooter) vel 0 (max 1 ((b : ℝ) - 20))
              (min (MAX_T : ℝ) ((b : ℝ) + 20)) = none ∧
            solveAt r g shooter target vel s
              = accept b (directionAtT r g s (target.sub shooter) vel b)))) := by
  have hsolve := solveAt_eq_scan r g shooter target vel s hs hr
  rcases scanLoop_spec r g s (target.sub shooter) vel MAX_T 1 ⟨none, ⊤⟩ (by omega) (le_refl 1)
    (isBestSample_init _) with ⟨t0, h1, h2, h3, h4, h5⟩ | ⟨h1, st1, h2, h3⟩
  · left
    refine ⟨t0, h1, h2, h3, h4, ?_⟩
    rw [hsolve, h5]
    exact accept_of_residual_lt r g s _ vel _ h3
  · right
    refine ⟨h1, ?_⟩
    obtain ⟨bt, bd⟩ := st1
    cases bt with
    | none =>
      simp only [IsBestSample, MAX_T] at h3
      omega
    | some b =>
      simp only [IsBestSample] at h3
      obtain ⟨hb1, hb2, hd, hmin, hfirst⟩ := h3
      subst hd
      refine ⟨b, hb1, hb2, hmin, hfirst, ?_⟩
      have hge : EPS ≤ residualAt r g s (target.sub shooter) vel b := not_lt.mp (h1 b hb1 hb2)
      rcases eq_or_lt_of_le hge with heq | hlt
      · left
        refine ⟨heq.symm, ?_⟩
        have hnot : ¬ ((EPS : WithTop ℝ)
            < ((residualAt r g s (target.sub shooter) vel b : ℝ) : WithTop ℝ)) := by
          rw [WithTop.coe_lt_coe, ← heq]
          exact lt_irrefl _
        rw [hsolve, h2]
        simp only [refine, if_neg hnot]
      · have hyes : (EPS : WithTop ℝ)
            < ((residualAt r g s (target.sub shooter) vel b : ℝ) : WithTop ℝ) :=
          WithTop.coe_lt_coe.mpr hlt
        obtain ⟨-, hbr, -⟩ := bracket_bounds b hb1 hb2
        rcases bisectLoop_spec r g s (target.sub shooter) vel 70 0 _ _ (by omega) hbr with
          h0 | ⟨mid, hm1, hm2, hm3, hm4⟩
        · right
          right
          refine ⟨hlt, h0, ?_⟩
          rw [hsolve, h2]
          simp only [refine, if_pos hyes, h0]
        · right
          left
          refine ⟨hlt, mid, hm1, hm2, hm3, ?_⟩
          rw [hsolve, h2]
          simp only [refine, if_pos hyes, hm4]

end Solver

/-! ### The drag-model solver with the constants of `cydhranian2.js` -/

section Constants

open Cydhranian2Js

theorem arrow_drag_guard : (1e-12 : ℝ) ≤ |ARROW_DRAG - 1| := by
  unfold ARROW_DRAG
  rw [abs_of_nonpos (by norm_num)]
  norm_num

theorem arrow_drag_pos : 0 < ARROW_DRAG := by
  unfold ARROW_DRAG
  norm_num

/-- At a whole flight time `t >= 1` no guard of `directionAtT` fires for the drag ratio
`ARROW_DRAG`. -/
theorem directionAtT_arrow_drag (g s : ℝ) (relPos v : Vector3) (t : ℕ) (ht : 1 ≤ t) :
    directionAtT ARROW_DRAG g s relPos v t = directionFormula ARROW_DRAG g s relPos v t :=
  cyd2_directionAtT_nat ARROW_DRAG g s relPos v t ht
    (pow_guard_of_base_guard ARROW_DRAG t arrow_drag_pos ht arrow_drag_guard)

/-- With a target at the shooter and at rest, and launch speed `5/199`, the direction at
`t = 1` is the zero vector. -/
theorem direction_slow_launch_one :
    directionAtT ARROW_DRAG ARROW_GRAVITY (5 / 199)
      ((⟨0, 0, 0⟩ : Vector3).sub ⟨0, 0, 0⟩) ⟨0, 0, 0⟩ ((1 : ℕ) : ℝ) = ⟨0, 0, 0⟩ := by
  rw [directionAtT_arrow_drag _ _ _ _ 1 (le_refl 1)]
  simp only [directionFormula, ARROW_DRAG, ARROW_GRAVITY, Vector3.sub]
  ext <;> norm_num

/-- With a target at the shooter and at rest, and launch speed `5/199`, the direction at
`t = 2` is exactly `(0, 1, 0)`. -/
theorem direction_slow_launch_two :
    directionAtT ARROW_DRAG ARROW_GRAVITY (5 / 199)
      ((⟨0, 0, 0⟩ : Vector3).sub ⟨0, 0, 0⟩) ⟨0, 0, 0⟩ ((2 : ℕ) : ℝ) = ⟨0, 1, 0⟩ := by
  rw [directionAtT_arrow_drag _ _ _ _ 2 (by norm_num)]
  simp only [directionFormula, ARROW_DRAG, ARROW_GRAVITY, Vector3.sub]
  ext <;> norm_num

theorem residual_slow_launch_one :
    ¬ residualAt ARROW_DRAG ARROW_GRAVITY (5 / 199)
      ((⟨0, 0, 0⟩ : Vector3).sub ⟨0, 0, 0⟩) ⟨0, 0, 0⟩ ((1 : ℕ) : ℝ) < EPS := by
  unfold residualAt magnitudeAtT
  rw [direction_slow_launch_one]
  simp only [Vector3.length, EPS]
  norm_num

theorem residual_slow_launch_two :
    residualAt ARROW_DRAG ARROW_GRAVITY (5 / 199)
      ((⟨0, 0, 0⟩ : Vector3).sub ⟨0, 0, 0⟩) ⟨0, 0, 0⟩ ((2 : ℕ) : ℝ) < EPS := by
  unfold residualAt magnitudeAtT
  rw [direction_slow_launch_two]
  simp only [Vector3.length, EPS]
  norm_num

theorem normalize_unit_y : (⟨0, 1, 0⟩ : Vector3).normalize = ⟨0, 1, 0⟩ := by
  apply normalize_of_length_one
  simp [Vector3.length]

/-- With a target at the shooter and at rest, and launch speed `5/199`, the coarse scan
misses at `t = 1` and returns at `t = 2` with the direction `(0, 1, 0)`. -/
theorem solveAt_slow_launch :
    solveAt ARROW_DRAG ARROW_GRAVITY ⟨0, 0, 0⟩ ⟨0, 0, 0⟩ ⟨0, 0, 0⟩ (5 / 199)
      = some (((2 : ℕ) : ℝ), ⟨0, 1, 0⟩) := by
  rcases solveAt_cases ARROW_DRAG ARROW_GRAVITY ⟨0, 0, 0⟩ ⟨0, 0, 0⟩ ⟨0, 0, 0⟩ (5 / 199)
    (by norm_num) arrow_drag_guard with ⟨t0, h1, h2, h3, h4, h5⟩ | ⟨h1, -⟩
  · have ht0 : t0 = 2 := by
      rcases Nat.lt_or_ge 2 t0 with hlt | hge
      · exact absurd residual_slow_launch_two (h4 2 (by norm_num) hlt)
      · rcases Nat.eq_or_lt_of_le hge with heq | hlt
        · exact heq
        · have : t0 = 1 := by omega
          subst this
          exact absurd h3 residual_slow_launch_one
    subst ht0
    rw [h5, direction_slow_launch_two, normalize_unit_y]
  · exact absurd residual_slow_launch_two (h1 2 (by norm_num) (by norm_num [MAX_T]))

theorem calculate_slow_launch :
    Cydhranian2Js.calculateArrowAimDirection ⟨0, 0, 0⟩ ⟨0, 0, 0⟩ ⟨0, 0, 0⟩ (5 / 199)
      = some ⟨0, 1, 0⟩ := by
  unfold Cydhranian2Js.calculateArrowAimDirection
  rw [solveAt_slow_launch]
  rfl

end Constants

/-! ### C10: the coarse scan returns at the earliest hit -/

section ClaimC10

open Cydhranian2Js

/-- C10: for every input that passes the input guard (launch speed `s > 0`; the drag ratio
`0.99` passes the degeneracy test), if some whole time `t` in `1..300` has residual
`| ||direction(t)|| - 1 | < 0.001`, then `calculateArrowAimDirection` of `cydhranian2.js`
returns `normalize(direction(t0))` for the smallest such whole time `t0`, and it does so by
a `return` from inside the coarse scan, before the bisection is reached. -/
theorem coarse_scan_returns_earliest_hit (shooter target vel : Vector3) (s : ℝ) (hs : 0 < s)
    (t : ℕ) (ht1 : 1 ≤ t) (ht2 : t ≤ MAX_T)
    (hres : residualAt ARROW_DRAG ARROW_GRAVITY s (target.sub shooter) vel t < EPS) :
    ∃ t0 : ℕ, 1 ≤ t0 ∧ t0 ≤ t ∧
      residualAt ARROW_DRAG ARROW_GRAVITY s (target.sub shooter) vel t0 < EPS ∧
      (∀ u : ℕ, 1 ≤ u → u < t0 →
        ¬ residualAt ARROW_DRAG ARROW_GRAVITY s (target.sub shooter) vel u < EPS) ∧
      Cydhranian2Js.calculateArrowAimDirection shooter target vel s
        = some (directionAtT ARROW_DRAG ARROW_GRAVITY s (target.sub shooter) vel t0).normalize ∧
      scanLoop ARROW_DRAG ARROW_GRAVITY s (target.sub shooter) vel 1 ⟨none, ⊤⟩
        = ScanOutcome.returned (some ((t0 : ℝ),
            (directionAtT ARROW_DRAG ARROW_GRAVITY s (target.sub shooter) vel t0).normalize)) := by
  obtain ⟨t0, h1, h2, h3, h4, h5⟩ :=
    scan_returns_first_hit ARROW_DRAG ARROW_GRAVITY s (target.sub shooter) vel t ht1 ht2 hres
  refine ⟨t0, h1, h2, h3, h4, ?_, h5⟩
  unfold Cydhranian2Js.calculateArrowAimDirection
  rw [solveAt_eq_scan ARROW_DRAG ARROW_GRAVITY shooter target vel s hs arrow_drag_guard, h5]
  rfl

/-- C10, witness: a target at the shooter and at rest with launch speed `5/199`, where the
whole time `t = 2` has residual below `EPS`. -/
theorem coarse_scan_returns_earliest_hit_witness :
    ((0 : ℝ) < 5 / 199 ∧ 1 ≤ 2 ∧ 2 ≤ MAX_T ∧
      residualAt ARROW_DRAG ARROW_GRAVITY (5 / 199) ((⟨0, 0, 0⟩ : Vector3).sub ⟨0, 0, 0⟩)
        ⟨0, 0, 0⟩ ((2 : ℕ) : ℝ) < EPS) ∧
    ∃ t0 : ℕ, 1 ≤ t0 ∧ t0 ≤ 2 ∧
      residualAt ARROW_DRAG ARROW_GRAVITY (5 / 199) ((⟨0, 0, 0⟩ : Vector3).sub ⟨0, 0, 0⟩)
        ⟨0, 0, 0⟩ t0 < EPS ∧
      (∀ u : ℕ, 1 ≤ u → u < t0 →
        ¬ residualAt ARROW_DRAG ARROW_GRAVITY (5 / 199) ((⟨0, 0, 0⟩ : Vector3).sub ⟨0, 0, 0⟩)
          ⟨0, 0, 0⟩ u < EPS) ∧
      Cydhranian2Js.calculateArrowAimDirection ⟨0, 0, 0⟩ ⟨0, 0, 0⟩ ⟨0, 0, 0⟩ (5 / 199)
        = some (directionAtT ARROW_DRAG ARROW_GRAVITY (5 / 199)
            ((⟨0, 0, 0⟩ : Vector3).sub ⟨0, 0, 0⟩) ⟨0, 0, 0⟩ t0).normalize ∧
      scanLoop ARROW_DRAG ARROW_GRAVITY (5 / 199) ((⟨0, 0, 0⟩ : Vector3).sub ⟨0, 0, 0⟩)
          ⟨0, 0, 0⟩ 1 ⟨none, ⊤⟩
        = ScanOutcome.returned (some ((t0 : ℝ),
            (directionAtT ARROW_DRAG ARROW_GRAVITY (5 / 199)
              ((⟨0, 0, 0⟩ : Vector3).sub ⟨0, 0, 0⟩) ⟨0, 0, 0⟩ t0).normalize)) :=
  ⟨⟨by norm_num, by norm_num, by norm_num [MAX_T], residual_slow_launch_two⟩,
    coarse_scan_returns_earliest_hit ⟨0, 0, 0⟩ ⟨0, 0, 0⟩ ⟨0, 0, 0⟩ (5 / 199) (by norm_num) 2
      (by norm_num) (by norm_num [MAX_T]) residual_slow_launch_two⟩

end ClaimC10

/-! ### C3: returned directions have length 1 -/

section ClaimC3

/-- Whatever `solveAt` of `cydhranian2.js` returns is the normalised direction of the
returned time, that time lies in `[1, MAX_T]`, and the direction before normalisation has
length at least `0.01`. -/
theorem cyd2_solveAt_some_shape (r g : ℝ) (shooter target vel : Vector3) (s t : ℝ)
    (d : Vector3) (h : Cydhranian2Js.solveAt r g shooter target vel s = some (t, d)) :
    0 < s ∧ 1 ≤ t ∧ t ≤ (Cydhranian2Js.MAX_T : ℝ) ∧
    ¬ (Cydhranian2Js.directionAtT r g s (target.sub shooter) vel t).length < 0.01 ∧
    d = (Cydhranian2Js.directionAtT r g s (target.sub shooter) vel t).normalize := by
  have hs : 0 < s := by
    by_contra hs
    simp [Cydhranian2Js.solveAt, not_lt.mp hs] at h
  have hr : (1e-12 : ℝ) ≤ |r - 1| := by
    by_contra hr
    simp [Cydhranian2Js.solveAt, not_le.mpr hs, not_le.mp hr] at h
  refine ⟨hs, ?_⟩
  have big : ∀ u : ℝ, Cydhranian2Js.residualAt r g s (target.sub shooter) vel u
      < Cydhranian2Js.EPS →
      ¬ (Cydhranian2Js.directionAtT r g s (target.sub shooter) vel u).length < 0.01 := by
    intro u hu
    have := length_of_residual_lt r g s (target.sub shooter) vel u hu
    rw [not_lt]
    norm_num at this ⊢
    linarith
  rcases solveAt_cases r g shooter target vel s hs hr with
    ⟨t0, h1, h2, h3, -, h5⟩ | ⟨-, b, hb1, hb2, -, -, hcase⟩
  · rw [h5] at h
    simp only [Option.some.injEq, Prod.mk.injEq] at h
    obtain ⟨ht, hd⟩ := h
    subst ht
    refine ⟨by exact_mod_cast h1, by exact_mod_cast h2, big _ h3, hd.symm⟩
  · rcases hcase with ⟨-, h0⟩ | ⟨-, mid, hm1, hm2, hm3, hm4⟩ | ⟨-, -, hacc⟩
    · rw [h0] at h
      exact absurd h (by simp)
    · rw [hm4] at h
      simp only [Option.some.injEq, Prod.mk.injEq] at h
      obtain ⟨ht, hd⟩ := h
      subst ht
      obtain ⟨hb3, -, hb4⟩ := bracket_bounds b hb1 hb2
      exact ⟨le_trans hb3 hm1, le_trans hm2 hb4, big _ hm3, hd.symm⟩
    · rw [hacc, accept_eq_some_iff] at h
      obtain ⟨hlen, heq⟩ := h
      simp only [Prod.mk.injEq] at heq
      obtain ⟨ht, hd⟩ := heq
      subst ht
      exact ⟨by exact_mod_cast hb1, by exact_mod_cast hb2, hlen, hd⟩

/-- Whatever `solveAt` of `polynomial2.js` returns is the normalised candidate vector of the
selected time, which lies in `(0, 1e6]`, and the candidate has length at least `0.01`. -/
theorem poly2_solveAt_some_shape (g : ℝ) (shooter target vel : Vector3) (s t : ℝ)
    (d : Vector3) (h : Polynomial2Js.solveAt g shooter target vel s = some (t, d)) :
    0 < s ∧ Polynomial2Js.selectedTime g (target.sub shooter) vel s = some t ∧
    0 < t ∧ t ≤ 1e6 ∧
    ¬ (Polynomial2Js.candidate g (target.sub shooter) vel t).length < 0.01 ∧
    d = (Polynomial2Js.candidate g (target.sub shooter) vel t).normalize := by
  unfold Polynomial2Js.solveAt at h
  split_ifs at h with hs
  simp only at h
  split at h
  · exact absurd h (by simp)
  · rename_i t1 hsel
    split_ifs at h with hguard hlen
    simp only [Option.some.injEq, Prod.mk.injEq] at h
    obtain ⟨ht, hd⟩ := h
    subst ht
    rw [not_or, not_le, not_lt] at hguard
    exact ⟨not_le.mp hs, hsel, hguard.1, hguard.2, hlen, hd.symm⟩

theorem length_ne_zero_of_not_small (w : Vector3) (h : ¬ w.length < 0.01) : w.length ≠ 0 := by
  intro h0
  apply h
  rw [h0]
  norm_num

/-- C3: for every input, if `calculateArrowAimDirection` of `cydhranian2.js` or of
`polynomial2.js` returns a vector `d` (not `null`), then `d` has length 1; indeed `d` is the
normalisation of a vector `w` of length at least `0.01`, with `normalize` dividing each
component by the Euclidean length. -/
theorem returned_direction_has_length_one (shooter target vel : Vector3) (s : ℝ)
    (d : Vector3) :
    (Cydhranian2Js.calculateArrowAimDirection shooter target vel s = some d →
      d.length = 1 ∧ ∃ w : Vector3, 0.01 ≤ w.length ∧ d = w.normalize) ∧
    (Polynomial2Js.calculateArrowAimDirection shooter target vel s = some d →
      d.length = 1 ∧ ∃ w : Vector3, 0.01 ≤ w.length ∧ d = w.normalize) := by
  constructor
  · intro h
    unfold Cydhranian2Js.calculateArrowAimDirection at h
    rw [Option.map_eq_some'] at h
    obtain ⟨⟨t, d1⟩, hsol, hd⟩ := h
    simp only at hd
    subst hd
    obtain ⟨-, -, -, hlen, heq⟩ := cyd2_solveAt_some_shape _ _ shooter target vel s t d1 hsol
    refine ⟨?_, _, not_lt.mp hlen, heq⟩
    rw [heq]
    exact normalize_length _ (length_ne_zero_of_not_small _ hlen)
  · intro h
    unfold Polynomial2Js.calculateArrowAimDirection at h
    rw [Option.map_eq_some'] at h
    obtain ⟨⟨t, d1⟩, hsol, hd⟩ := h
    simp only at hd
    subst hd
    obtain ⟨-, -, -, -, hlen, heq⟩ := poly2_solveAt_some_shape _ shooter target vel s t d1 hsol
    refine ⟨?_, _, not_lt.mp hlen, heq⟩
    rw [heq]
    exact normalize_length _ (length_ne_zero_of_not_small _ hlen)

end ClaimC3

/-! ### The quadratic fallback -/

section Quadratic

open Polynomial2Js

/-- The choice made by lines 61-65 of `polynomial2.js`: `chooseTime t1 t2` is the least
strictly positive number among `t1` and `t2`, and `none` when neither is positive. -/
theorem chooseTime_spec (t1 t2 : ℝ) :
    (chooseTime t1 t2 = none ∧ t1 ≤ 0 ∧ t2 ≤ 0) ∨
    ∃ t0, chooseTime t1 t2 = some t0 ∧ 0 < t0 ∧ (t0 = t1 ∨ t0 = t2) ∧
      (0 < t1 → t0 ≤ t1) ∧ (0 < t2 → t0 ≤ t2) := by
  unfold chooseTime
  by_cases h1 : t1 > 0
  · by_cases h2 : t2 > 0
    · right
      rw [if_pos ⟨h1, h2⟩]
      refine ⟨min t1 t2, rfl, lt_min h1 h2, ?_, fun _ => min_le_left _ _,
        fun _ => min_le_right _ _⟩
      rcases le_total t1 t2 with h | h
      · exact Or.inl (min_eq_left h)
      · exact Or.inr (min_eq_right h)
    · right
      rw [if_neg (fun h => h2 h.2), if_pos h1]
      exact ⟨t1, rfl, h1, Or.inl rfl, fun _ => le_refl _, fun h => absurd h h2⟩
  · by_cases h2 : t2 > 0
    · right
      rw [if_neg (fun h => h1 h.1), if_neg h1, if_pos h2]
      exact ⟨t2, rfl, h2, Or.inr rfl, fun h => absurd h h1, fun _ => le_refl _⟩
    · left
      rw [if_neg (fun h => h1 h.1), if_neg h1, if_neg h2]
      exact ⟨rfl, not_lt.mp h1, not_lt.mp h2⟩

/-- The time selected by `polynomial2.js` for a non-degenerate gravity: `none` exactly when
the quadratic `a t^2 + b t + c = 0` has no strictly positive real root, and otherwise the
least strictly positive root. -/
theorem selectedTime_spec (g : ℝ) (relPos vel : Vector3) (s : ℝ) (hg : (1e-12 : ℝ) ≤ |g|) :
    (selectedTime g relPos vel s = none ∧
      ∀ t : ℝ, 0 < t →
        coeffA g * t ^ 2 + coeffB g relPos vel s * t + coeffC relPos vel s ≠ 0) ∨
    ∃ t0, selectedTime g relPos vel s = some t0 ∧ 0 < t0 ∧
      coeffA g * t0 ^ 2 + coeffB g relPos vel s * t0 + coeffC relPos vel s = 0 ∧
      ∀ t : ℝ, 0 < t →
        coeffA g * t ^ 2 + coeffB g relPos vel s * t + coeffC relPos vel s = 0 → t0 ≤ t := by
  have hg0 : g ≠ 0 := by
    intro h
    rw [h, abs_zero] at hg
    norm_num at hg
  have ha : coeffA g ≠ 0 := by
    unfold coeffA
    exact mul_ne_zero (by norm_num) hg0
  have hden : ¬ |2 * coeffA g| < (1e-12 : ℝ) := by
    have : 2 * coeffA g = g := by unfold coeffA; ring
    rw [this]
    exact not_lt.mpr hg
  by_cases hdisc : coeffB g relPos vel s * coeffB g relPos vel s
      - 4 * coeffA g * coeffC relPos vel s < 0
  · left
    refine ⟨by simp only [selectedTime, if_pos hdisc], ?_⟩
    intro t _ hroot
    have : (2 * coeffA g * t + coeffB g relPos vel s) ^ 2
        = coeffB g relPos vel s * coeffB g relPos vel s
          - 4 * coeffA g * coeffC relPos vel s := by
      linear_combination 4 * coeffA g * hroot
    nlinarith [sq_nonneg (2 * coeffA g * t + coeffB g relPos vel s)]
  · have hD : 0 ≤ coeffB g relPos vel s * coeffB g relPos vel s
        - 4 * coeffA g * coeffC relPos vel s := not_lt.mp hdisc
    have hsel : selectedTime g relPos vel s
        = chooseTime
            ((-coeffB g relPos vel s + Real.sqrt (coeffB g relPos vel s * coeffB g relPos vel s
              - 4 * coeffA g * coeffC relPos vel s)) / (2 * coeffA g))
            ((-coeffB g relPos vel s - Real.sqrt (coeffB g relPos vel s * coeffB g relPos vel s
              - 4 * coeffA g * coeffC relPos vel s)) / (2 * coeffA g)) := by
      simp only [selectedTime, if_neg hdisc, if_neg hden]
    have hroots : ∀ t : ℝ,
        coeffA g * t ^ 2 + coeffB g relPos vel s * t + coeffC relPos vel s = 0 ↔
        t = (-coeffB g relPos vel s + Real.sqrt (coeffB g relPos vel s * coeffB g relPos vel s
              - 4 * coeffA g * coeffC relPos vel s)) / (2 * coeffA g) ∨
        t = (-coeffB g relPos vel s - Real.sqrt (coeffB g relPos vel s * coeffB g relPos vel s
              - 4 * coeffA g * coeffC relPos vel s)) / (2 * coeffA g) := by
      intro t
      have hq := quadratic_eq_zero_iff ha
        (show discrim (coeffA g) (coeffB g relPos vel s) (coeffC relPos vel s)
          = Real.sqrt (coeffB g relPos vel s * coeffB g relPos vel s
              - 4 * coeffA g * coeffC relPos vel s)
            * Real.sqrt (coeffB g relPos vel s * coeffB g relPos vel s
              - 4 * coeffA g * coeffC relPos vel s) by
          rw [Real.mul_self_sqrt hD, discrim]
          ring) t
      rw [← hq]
      constructor <;> intro h <;> linear_combination h
    rw [hsel]
    rcases chooseTime_spec
        ((-coeffB g relPos vel s + Real.sqrt (coeffB g relPos vel s * coeffB g relPos vel s
          - 4 * coeffA g * coeffC relPos vel s)) / (2 * coeffA g))
        ((-coeffB g relPos vel s - Real.sqrt (coeffB g relPos vel s * coeffB g relPos vel s
          - 4 * coeffA g * coeffC relPos vel s)) / (2 * coeffA g)) with
      ⟨h0, h1, h2⟩ | ⟨t0, h0, hpos, hmem, hle1, hle2⟩
    · left
      refine ⟨h0, ?_⟩
      intro t ht hroot
      rcases (hroots t).mp hroot with h | h
      · rw [h] at ht
        exact absurd ht (not_lt.mpr h1)
      · rw [h] at ht
        exact absurd ht (not_lt.mpr h2)
    · right
      refine ⟨t0, h0, hpos, (hroots t0).mpr hmem, ?_⟩
      intro t ht hroot
      rcases (hroots t).mp hroot with h | h
      · rw [h] at ht ⊢
        exact hle1 ht
      · rw [h] at ht ⊢
        exact hle2 ht

theorem arrow_gravity_guard : (1e-12 : ℝ) ≤ |ARROW_GRAVITY| := by
  unfold ARROW_GRAVITY
  rw [abs_of_nonneg (by norm_num)]
  norm_num

end Quadratic

/-! ### A target straight above, ten blocks up, for the quadratic fallback -/

section QuadraticAbove

theorem sqrt_sixteenth : Real.sqrt (0.0625 : ℝ) = 0.25 := by
  rw [show (0.0625 : ℝ) = 0.25 * 0.25 by norm_num]
  exact Real.sqrt_mul_self (by norm_num)

theorem length_seven_half : (⟨0, 7.5, 0⟩ : Vector3).length = 7.5 := by
  unfold Vector3.length
  rw [show (0 : ℝ) * 0 + 7.5 * 7.5 + 0 * 0 = 7.5 * 7.5 by norm_num]
  exact Real.sqrt_mul_self (by norm_num)

theorem normalize_seven_half : (⟨0, 7.5, 0⟩ : Vector3).normalize = ⟨0, 1, 0⟩ := by
  unfold Vector3.normalize
  rw [length_seven_half]
  ext <;> norm_num

/-- The time selected by `polynomial2.js` once the coefficients, the discriminant `D >= 0`
and its square root have been evaluated. -/
theorem poly2_selectedTime_of_coeffs (g : ℝ) (relPos vel : Vector3) (s a b c D sq : ℝ)
    (ha : Polynomial2Js.coeffA g = a) (hb : Polynomial2Js.coeffB g relPos vel s = b)
    (hc : Polynomial2Js.coeffC relPos vel s = c) (hD : b * b - 4 * a * c = D) (hD0 : 0 ≤ D)
    (hsq : Real.sqrt D = sq) (hden : (1e-12 : ℝ) ≤ |2 * a|) :
    Polynomial2Js.selectedTime g relPos vel s
      = Polynomial2Js.chooseTime ((-b + sq) / (2 * a)) ((-b - sq) / (2 * a)) := by
  simp only [Polynomial2Js.selectedTime, ha, hb, hc, hD, hsq, if_neg (not_lt.mpr hD0),
    if_neg (not_lt.mpr hden)]

/-- The result of `polynomial.js` once the coefficients, the discriminant `D >= 0` and its
square root have been evaluated. -/
theorem poly_solveAt_of_coeffs (shooter target vel : Vector3) (s b c D sq : ℝ)
    (hb : -(s * vel.y + 0.5 * PolynomialJs.ARROW_GRAVITY * (target.sub shooter).y) = b)
    (hc : s * ((target.sub shooter).x * vel.x + (target.sub shooter).y * vel.y
      + (target.sub shooter).z * vel.z) = c)
    (hD : b * b - 4 * (0.5 * PolynomialJs.ARROW_GRAVITY) * c = D) (hD0 : 0 ≤ D)
    (hsq : Real.sqrt D = sq) :
    PolynomialJs.solveAt shooter target vel s
      = if PolynomialJs.chooseTime ((-b + sq) / (2 * (0.5 * PolynomialJs.ARROW_GRAVITY)))
            ((-b - sq) / (2 * (0.5 * PolynomialJs.ARROW_GRAVITY))) ≤ 0 then none
        else if (PolynomialJs.candidate PolynomialJs.ARROW_GRAVITY (target.sub shooter) vel
            (PolynomialJs.chooseTime ((-b + sq) / (2 * (0.5 * PolynomialJs.ARROW_GRAVITY)))
              ((-b - sq) / (2 * (0.5 * PolynomialJs.ARROW_GRAVITY))))).length < 0.01 then none
        else some (PolynomialJs.chooseTime ((-b + sq) / (2 * (0.5 * PolynomialJs.ARROW_GRAVITY)))
            ((-b - sq) / (2 * (0.5 * PolynomialJs.ARROW_GRAVITY))),
          (PolynomialJs.candidate PolynomialJs.ARROW_GRAVITY (target.sub shooter) vel
            (PolynomialJs.chooseTime ((-b + sq) / (2 * (0.5 * PolynomialJs.ARROW_GRAVITY)))
              ((-b - sq) / (2 * (0.5 * PolynomialJs.ARROW_GRAVITY))))).normalize) := by
  simp only [PolynomialJs.solveAt, hb, hc, hD, hsq, if_neg (not_lt.mpr hD0)]

/-- With the shooter at the origin, a target at rest at `(0, 10, 0)` and launch speed `3`,
`polynomial2.js` selects the root `t = 10`. -/
theorem poly2_selectedTime_above :
    Polynomial2Js.selectedTime Polynomial2Js.ARROW_GRAVITY
      ((⟨0, 10, 0⟩ : Vector3).sub ⟨0, 0, 0⟩) ⟨0, 0, 0⟩ 3 = some 10 := by
  rw [poly2_selectedTime_of_coeffs Polynomial2Js.ARROW_GRAVITY _ _ 3 0.025 (-0.25) 0 0.0625 0.25
    (by norm_num [Polynomial2Js.coeffA, Polynomial2Js.ARROW_GRAVITY])
    (by norm_num [Polynomial2Js.coeffB, Polynomial2Js.ARROW_GRAVITY, Vector3.sub])
    (by norm_num [Polynomial2Js.coeffC, Vector3.sub])
    (by norm_num) (by norm_num) sqrt_sixteenth
    (by rw [abs_of_nonneg (by norm_num)]; norm_num)]
  norm_num [Polynomial2Js.chooseTime]

/-- With the shooter at the origin, a target at rest at `(0, 10, 0)` and launch speed `3`,
`polynomial2.js` returns the direction `(0, 1, 0)` computed from the root `t = 10`. -/
theorem poly2_solveAt_above :
    Polynomial2Js.solveAt Polynomial2Js.ARROW_GRAVITY ⟨0, 0, 0⟩ ⟨0, 10, 0⟩ ⟨0, 0, 0⟩ 3
      = some (10, ⟨0, 1, 0⟩) := by
  have hs : ¬ ((3 : ℝ) ≤ 0) := by norm_num
  have hcand : Polynomial2Js.candidate Polynomial2Js.ARROW_GRAVITY
      ((⟨0, 10, 0⟩ : Vector3).sub ⟨0, 0, 0⟩) ⟨0, 0, 0⟩ 10 = ⟨0, 7.5, 0⟩ := by
    simp only [Polynomial2Js.candidate, Polynomial2Js.ARROW_GRAVITY, Vector3.sub]
    ext <;> norm_num
  have hguard : ¬ ((10 : ℝ) ≤ 0 ∨ (10 : ℝ) > 1e6) := by norm_num
  have hlen : ¬ ((7.5 : ℝ) < 0.01) := by norm_num
  simp only [Polynomial2Js.solveAt, if_neg hs, poly2_selectedTime_above, if_neg hguard, hcand,
    length_seven_half, if_neg hlen, normalize_seven_half]

theorem poly2_calculate_above :
    Polynomial2Js.calculateArrowAimDirection ⟨0, 0, 0⟩ ⟨0, 10, 0⟩ ⟨0, 0, 0⟩ 3
      = some ⟨0, 1, 0⟩ := by
  unfold Polynomial2Js.calculateArrowAimDirection
  rw [poly2_solveAt_above]
  rfl

/-- With the shooter at the origin, a target at rest at `(0, 10, 0)` and launch speed `3`,
`polynomial.js` returns the direction `(0, 1, 0)` computed from the root `t = 10`. -/
theorem poly_solveAt_above :
    PolynomialJs.solveAt ⟨0, 0, 0⟩ ⟨0, 10, 0⟩ ⟨0, 0, 0⟩ 3 = some (10, ⟨0, 1, 0⟩) := by
  have hcand : PolynomialJs.candidate PolynomialJs.ARROW_GRAVITY
      ((⟨0, 10, 0⟩ : Vector3).sub ⟨0, 0, 0⟩) ⟨0, 0, 0⟩ 10 = ⟨0, 7.5, 0⟩ := by
    simp only [PolynomialJs.candidate, PolynomialJs.ARROW_GRAVITY, Vector3.sub]
    ext <;> norm_num
  have hlen : ¬ ((7.5 : ℝ) < 0.01) := by norm_num
  have h10 : ¬ ((10 : ℝ) ≤ 0) := by norm_num
  have hchoose : PolynomialJs.chooseTime
      ((-(-0.25 : ℝ) + 0.25) / (2 * (0.5 * PolynomialJs.ARROW_GRAVITY)))
      ((-(-0.25 : ℝ) - 0.25) / (2 * (0.5 * PolynomialJs.ARROW_GRAVITY))) = 10 := by
    norm_num [PolynomialJs.chooseTime, PolynomialJs.ARROW_GRAVITY]
  rw [poly_solveAt_of_coeffs ⟨0, 0, 0⟩ ⟨0, 10, 0⟩ ⟨0, 0, 0⟩ 3 (-0.25) 0 0.0625 0.25
    (by norm_num [PolynomialJs.ARROW_GRAVITY, Vector3.sub])
    (by norm_num [Vector3.sub])
    (by norm_num [PolynomialJs.ARROW_GRAVITY]) (by norm_num) sqrt_sixteenth]
  rw [hchoose, hcand, if_neg h10, length_seven_half, if_neg hlen, normalize_seven_half]

end QuadraticAbove

/-! ### C3, witness -/

/-- C3, witness: both guarded solvers return `(0, 1, 0)`, of length 1, the drag-model solver
for a target at the shooter with launch speed `5/199`, the quadratic fallback for a target
ten blocks above the shooter with launch speed `3`. -/
theorem returned_direction_has_length_one_witness :
    (Cydhranian2Js.calculateArrowAimDirection ⟨0, 0, 0⟩ ⟨0, 0, 0⟩ ⟨0, 0, 0⟩ (5 / 199)
        = some ⟨0, 1, 0⟩ ∧ (⟨0, 1, 0⟩ : Vector3).length = 1) ∧
    (Polynomial2Js.calculateArrowAimDirection ⟨0, 0, 0⟩ ⟨0, 10, 0⟩ ⟨0, 0, 0⟩ 3
        = some ⟨0, 1, 0⟩ ∧ (⟨0, 1, 0⟩ : Vector3).length = 1) :=
  ⟨⟨calculate_slow_launch,
      ((returned_direction_has_length_one ⟨0, 0, 0⟩ ⟨0, 0, 0⟩ ⟨0, 0, 0⟩ (5 / 199) ⟨0, 1, 0⟩).1
        calculate_slow_launch).1⟩,
    ⟨poly2_calculate_above,
      ((returned_direction_has_length_one ⟨0, 0, 0⟩ ⟨0, 10, 0⟩ ⟨0, 0, 0⟩ 3 ⟨0, 1, 0⟩).2
        poly2_calculate_above).1⟩⟩

/-! ### Root selection of the quadratic fallback in exact arithmetic -/

/-- In exact arithmetic (no rounding), with `a = 0.5*g`, `b = -(s*v.y + 0.5*g*relPos.y)`,
`c = s*(relPos . v)` and `g = 0.05`, for every input with launch speed `s > 0`: if the quadratic
`a*t^2 + b*t + c = 0` has no strictly positive real root, `calculateArrowAimDirection` of
`polynomial2.js` returns `null`; otherwise the time `t0` it selects is the smallest strictly
positive root, and any direction it returns is `normalize` of
`(relPos.x + v.x*t0, relPos.y + v.y*t0 - 0.5*g*t0^2, relPos.z + v.z*t0)`. -/
theorem quadratic_root_selection (shooter target vel : Vector3) (s : ℝ) (hs : 0 < s) :
    ((¬ ∃ t : ℝ, 0 < t ∧
        0.5 * Polynomial2Js.ARROW_GRAVITY * t ^ 2
          + -(s * vel.y + 0.5 * Polynomial2Js.ARROW_GRAVITY * (target.sub shooter).y) * t
          + s * ((target.sub shooter).x * vel.x + (target.sub shooter).y * vel.y
              + (target.sub shooter).z * vel.z) = 0) →
      Polynomial2Js.calculateArrowAimDirection shooter target vel s = none) ∧
    ((∃ t : ℝ, 0 < t ∧
        0.5 * Polynomial2Js.ARROW_GRAVITY * t ^ 2
          + -(s * vel.y + 0.5 * Polynomial2Js.ARROW_GRAVITY * (target.sub shooter).y) * t
          + s * ((target.sub shooter).x * vel.x + (target.sub shooter).y * vel.y
              + (target.sub shooter).z * vel.z) = 0) →
      ∃ t0 : ℝ,
        Polynomial2Js.selectedTime Polynomial2Js.ARROW_GRAVITY (target.sub shooter) vel s
          = some t0 ∧
        0 < t0 ∧
        0.5 * Polynomial2Js.ARROW_GRAVITY * t0 ^ 2
          + -(s * vel.y + 0.5 * Polynomial2Js.ARROW_GRAVITY * (target.sub shooter).y) * t0
          + s * ((target.sub shooter).x * vel.x + (target.sub shooter).y * vel.y
              + (target.sub shooter).z * vel.z) = 0 ∧
        (∀ t : ℝ, 0 < t →
          0.5 * Polynomial2Js.ARROW_GRAVITY * t ^ 2
            + -(s * vel.y + 0.5 * Polynomial2Js.ARROW_GRAVITY * (target.sub shooter).y) * t
            + s * ((target.sub shooter).x * vel.x + (target.sub shooter).y * vel.y
                + (target.sub shooter).z * vel.z) = 0 → t0 ≤ t) ∧
        ∀ d : Vector3, Polynomial2Js.calculateArrowAimDirection shooter target vel s = some d →
          d = (⟨(target.sub shooter).x + vel.x * t0,
                (target.sub shooter).y + vel.y * t0
                  - 0.5 * Polynomial2Js.ARROW_GRAVITY * t0 * t0,
                (target.sub shooter).z + vel.z * t0⟩ : Vector3).normalize) := by
  have hs0 : ¬ s ≤ 0 := not_le.mpr hs
  rcases selectedTime_spec Polynomial2Js.ARROW_GRAVITY (target.sub shooter) vel s
    arrow_gravity_guard with ⟨hnone, hno⟩ | ⟨t0, hsel, hpos, hroot, hleast⟩
  · constructor
    · intro _
      simp only [Polynomial2Js.calculateArrowAimDirection, Polynomial2Js.solveAt, if_neg hs0,
        hnone, Option.map_none']
    · rintro ⟨t, ht, hrt⟩
      exact absurd hrt (hno t ht)
  · constructor
    · intro hnot
      exact absurd ⟨t0, hpos, hroot⟩ hnot
    · intro _
      refine ⟨t0, hsel, hpos, hroot, hleast, ?_⟩
      intro d hd
      unfold Polynomial2Js.calculateArrowAimDirection at hd
      rw [Option.map_eq_some'] at hd
      obtain ⟨⟨t, d1⟩, hsol, hd1⟩ := hd
      simp only at hd1
      subst hd1
      obtain ⟨-, hsel2, -, -, -, heq⟩ :=
        poly2_solveAt_some_shape _ shooter target vel s t d1 hsol
      rw [hsel] at hsel2
      simp only [Option.some.injEq] at hsel2
      subst hsel2
      exact heq

/-! ### C5: the quadratic fallback against the no-drag model of its comment -/

/-- C5, the code at the failing input (shooter at the origin, target at rest at `(0, 10, 0)`,
launch speed `3`): `polynomial.js` and `polynomial2.js` both return the unit direction
`u = (0, 1, 0)` computed from the selected root `t = 10`, but the arrow position of the
no-drag model at `t = 10`, `(0, 27.5, 0)`, is not the target position `(0, 10, 0)`. -/
theorem quadratic_fallback_misses_target :
    PolynomialJs.solveAt ⟨0, 0, 0⟩ ⟨0, 10, 0⟩ ⟨0, 0, 0⟩ 3 = some (10, ⟨0, 1, 0⟩) ∧
    Polynomial2Js.solveAt Polynomial2Js.ARROW_GRAVITY ⟨0, 0, 0⟩ ⟨0, 10, 0⟩ ⟨0, 0, 0⟩ 3
      = some (10, ⟨0, 1, 0⟩) ∧
    (⟨0, 1, 0⟩ : Vector3).length = 1 ∧
    arrowNoDragAt 0.05 3 ⟨0, 1, 0⟩ 10 = ⟨0, 27.5, 0⟩ ∧
    targetAt ((⟨0, 10, 0⟩ : Vector3).sub ⟨0, 0, 0⟩) ⟨0, 0, 0⟩ 10 = ⟨0, 10, 0⟩ ∧
    arrowNoDragAt 0.05 3 ⟨0, 1, 0⟩ 10
      ≠ targetAt ((⟨0, 10, 0⟩ : Vector3).sub ⟨0, 0, 0⟩) ⟨0, 0, 0⟩ 10 := by
  have h1 : arrowNoDragAt 0.05 3 ⟨0, 1, 0⟩ 10 = ⟨0, 27.5, 0⟩ := by
    simp only [arrowNoDragAt]
    ext <;> norm_num
  have h2 : targetAt ((⟨0, 10, 0⟩ : Vector3).sub ⟨0, 0, 0⟩) ⟨0, 0, 0⟩ 10 = ⟨0, 10, 0⟩ := by
    simp only [targetAt, Vector3.add, Vector3.scale, Vector3.sub]
    ext <;> norm_num
  refine ⟨poly_solveAt_above, poly2_solveAt_above, by simp [Vector3.length], h1, h2, ?_⟩
  rw [h1, h2]
  intro h
  have hy := congrArg Vector3.y h
  norm_num at hy

/-! ### The scenario `(5, 0, 5)` moving with `(1, 0, 0)` -/

/-- The coefficients of `polynomial2.js` for shooter `(0,0,0)`, target `(5,0,5)`, target
velocity `(1,0,0)` and launch speed `3.0` give the discriminant `-1.5`. -/
theorem scenario_discriminant :
    Polynomial2Js.coeffB Polynomial2Js.ARROW_GRAVITY ((⟨5, 0, 5⟩ : Vector3).sub ⟨0, 0, 0⟩)
        ⟨1, 0, 0⟩ 3.0
      * Polynomial2Js.coeffB Polynomial2Js.ARROW_GRAVITY ((⟨5, 0, 5⟩ : Vector3).sub ⟨0, 0, 0⟩)
        ⟨1, 0, 0⟩ 3.0
      - 4 * Polynomial2Js.coeffA Polynomial2Js.ARROW_GRAVITY
        * Polynomial2Js.coeffC ((⟨5, 0, 5⟩ : Vector3).sub ⟨0, 0, 0⟩) ⟨1, 0, 0⟩ 3.0 = -1.5 := by
  simp only [Polynomial2Js.coeffA, Polynomial2Js.coeffB, Polynomial2Js.coeffC,
    Polynomial2Js.ARROW_GRAVITY, Vector3.sub]
  norm_num

theorem scenario_returns_none :
    Polynomial2Js.calculateArrowAimDirection ⟨0, 0, 0⟩ ⟨5, 0, 5⟩ ⟨1, 0, 0⟩ 3.0 = none := by
  have hs : ¬ ((3.0 : ℝ) ≤ 0) := by norm_num
  have hsel : Polynomial2Js.selectedTime Polynomial2Js.ARROW_GRAVITY
      ((⟨5, 0, 5⟩ : Vector3).sub ⟨0, 0, 0⟩) ⟨1, 0, 0⟩ 3.0 = none := by
    have hneg : (-1.5 : ℝ) < 0 := by norm_num
    simp only [Polynomial2Js.selectedTime, scenario_discriminant, if_pos hneg]
  simp only [Polynomial2Js.calculateArrowAimDirection, Polynomial2Js.solveAt, if_neg hs, hsel,
    Option.map_none']

/-! ### Real flight times with the drag ratio 0.99 -/

section RealTimes

open Cydhranian2Js

theorem arrow_drag_rpow_pos (t : ℝ) : 0 < ARROW_DRAG ^ t :=
  Real.rpow_pos_of_pos arrow_drag_pos t

theorem arrow_drag_rpow_le (t : ℝ) (ht : 1 ≤ t) : ARROW_DRAG ^ t ≤ 0.99 := by
  have h := Real.rpow_le_rpow_of_exponent_ge arrow_drag_pos (by norm_num [ARROW_DRAG]) ht
  rw [Real.rpow_one] at h
  exact h

/-- Bernoulli's inequality for the drag ratio: `1 - 0.01 t <= 0.99^t` for `t >= 1`. -/
theorem arrow_drag_bernoulli (t : ℝ) (ht : 1 ≤ t) : 1 - 0.01 * t ≤ ARROW_DRAG ^ t := by
  have h := one_add_mul_self_le_rpow_one_add (show (-1 : ℝ) ≤ -0.01 by norm_num) ht
  have e : (1 : ℝ) + -0.01 = ARROW_DRAG := by norm_num [ARROW_DRAG]
  rw [e] at h
  linarith

/-- For a real flight time `t >= 1` no guard of `directionAtT` fires for the drag ratio
`ARROW_DRAG`. -/
theorem directionAtT_arrow_drag_real (g s : ℝ) (relPos v : Vector3) (t : ℝ) (ht : 1 ≤ t) :
    directionAtT ARROW_DRAG g s relPos v t
      = ⟨(relPos.x + v.x * t) * ((ARROW_DRAG - 1) / (s * (ARROW_DRAG ^ t - 1))),
         (relPos.y + v.y * t) * ((ARROW_DRAG - 1) / (s * (ARROW_DRAG ^ t - 1)))
           + g * (ARROW_DRAG ^ t - ARROW_DRAG * t + t - 1) * (1 / (ARROW_DRAG - 1))
             / (s * (ARROW_DRAG ^ t - 1)),
         (relPos.z + v.z * t) * ((ARROW_DRAG - 1) / (s * (ARROW_DRAG ^ t - 1)))⟩ := by
  have h0 : ¬ t ≤ 0 := by linarith
  have h1 : ¬ ¬ powIsNumber ARROW_DRAG t := not_not.mpr (Or.inl arrow_drag_pos.le)
  have h2 : ¬ |ARROW_DRAG ^ t - 1| < (1e-12 : ℝ) := by
    have := arrow_drag_rpow_le t ht
    rw [abs_of_nonpos (by linarith), not_lt]
    norm_num
    linarith
  simp only [directionAtT, if_neg h0, if_neg h1, if_neg h2]

/-- A target at height `h >= 0` straight above the shooter and at rest: for every launch
speed `s > 0` and every real flight time `t` in `[1, 300]` the direction is vertical, with
`0.01 h / s <= y <= (h + 1500) / s`. -/
theorem vertical_direction (h s t : ℝ) (hh : 0 ≤ h) (hs : 0 < s) (ht1 : 1 ≤ t)
    (ht2 : t ≤ 300) :
    (directionAtT ARROW_DRAG ARROW_GRAVITY s ⟨0, h, 0⟩ ⟨0, 0, 0⟩ t).x = 0 ∧
    (directionAtT ARROW_DRAG ARROW_GRAVITY s ⟨0, h, 0⟩ ⟨0, 0, 0⟩ t).z = 0 ∧
    0.01 * h / s ≤ (directionAtT ARROW_DRAG ARROW_GRAVITY s ⟨0, h, 0⟩ ⟨0, 0, 0⟩ t).y ∧
    (directionAtT ARROW_DRAG ARROW_GRAVITY s ⟨0, h, 0⟩ ⟨0, 0, 0⟩ t).y ≤ (h + 1500) / s := by
  rw [directionAtT_arrow_drag_real _ _ _ _ t ht1]
  have hp := arrow_drag_rpow_pos t
  have hle := arrow_drag_rpow_le t ht1
  have hb := arrow_drag_bernoulli t ht1
  generalize ARROW_DRAG ^ t = rt at hp hle hb
  have hD : 0 < s * (1 - rt) := mul_pos hs (by linarith)
  have hy : (h + (0 : ℝ) * t) * ((ARROW_DRAG - 1) / (s * (rt - 1)))
      + ARROW_GRAVITY * (rt - ARROW_DRAG * t + t - 1) * (1 / (ARROW_DRAG - 1)) / (s * (rt - 1))
      = (0.01 * h + 5 * (rt - 1 + 0.01 * t)) / (s * (1 - rt)) := by
    have h1 : s * (rt - 1) ≠ 0 := by
      have : s * (rt - 1) = -(s * (1 - rt)) := by ring
      rw [this]
      exact neg_ne_zero.mpr hD.ne'
    unfold ARROW_DRAG ARROW_GRAVITY
    field_simp
    ring
  refine ⟨by simp, by simp, ?_, ?_⟩
  · show _ ≤ (h + (0 : ℝ) * t) * ((ARROW_DRAG - 1) / (s * (rt - 1)))
      + ARROW_GRAVITY * (rt - ARROW_DRAG * t + t - 1) * (1 / (ARROW_DRAG - 1)) / (s * (rt - 1))
    rw [hy, div_le_div_iff₀ hs hD]
    have h2 : 0 ≤ h * rt := mul_nonneg hh hp.le
    have h3 : 0 ≤ rt - 1 + 0.01 * t := by linarith
    nlinarith [mul_nonneg h3 hs.le]
  · show (h + (0 : ℝ) * t) * ((ARROW_DRAG - 1) / (s * (rt - 1)))
      + ARROW_GRAVITY * (rt - ARROW_DRAG * t + t - 1) * (1 / (ARROW_DRAG - 1)) / (s * (rt - 1))
      ≤ _
    rw [hy, div_le_div_iff₀ hD hs]
    have h3 : rt - 1 + 0.01 * t ≤ 3 := by linarith
    have h4 : 0.01 ≤ 1 - rt := by linarith
    nlinarith [mul_nonneg hh (sub_nonneg.mpr h4), mul_nonneg hs.le (sub_nonneg.mpr h3),
      mul_nonneg hs.le (sub_nonneg.mpr h4)]

/-- The length of a vertical vector with non-negative `y` is `y`. -/
theorem length_vertical (w : Vector3) (hx : w.x = 0) (hz : w.z = 0) (hy : 0 ≤ w.y) :
    w.length = w.y := by
  unfold Vector3.length
  rw [hx, hz]
  simp only [mul_zero, zero_add, add_zero]
  exact Real.sqrt_mul_self hy

/-- Normalising a vertical vector with positive `y` gives `(0, 1, 0)`. -/
theorem normalize_vertical (w : Vector3) (hx : w.x = 0) (hz : w.z = 0) (hy : 0 < w.y) :
    w.normalize = ⟨0, 1, 0⟩ := by
  have hl := length_vertical w hx hz hy.le
  unfold Vector3.normalize
  rw [hl, hx, hz]
  ext
  · simp
  · exact div_self hy.ne'
  · simp

end RealTimes

/-! ### Exact evaluation at rational inputs -/

section Rational

open Cydhranian2Js

theorem directionFormulaQ_toReal (r g s : ℚ) (relPos v : QVector3) (t : ℕ) :
    directionFormula (r : ℝ) (g : ℝ) (s : ℝ) relPos.toReal v.toReal t
      = (directionFormulaQ r g s relPos v t).toReal := by
  simp only [directionFormula, directionFormulaQ, QVector3.toReal]
  ext <;> push_cast <;> rfl

theorem length_toReal (q : QVector3) : q.toReal.length = Real.sqrt ((q.lengthSq : ℝ)) := by
  simp only [Vector3.length, QVector3.toReal, QVector3.lengthSq]
  push_cast
  rfl

/-- At a whole time `t >= 1` the direction for rational inputs is the rational vector
`directionFormulaQ`. -/
theorem directionAtT_rational (s : ℚ) (relPos v : QVector3) (t : ℕ) (ht : 1 ≤ t) :
    directionAtT ARROW_DRAG ARROW_GRAVITY (s : ℝ) relPos.toReal v.toReal t
      = (directionFormulaQ (99 / 100) (1 / 20) s relPos v t).toReal := by
  rw [directionAtT_arrow_drag _ _ _ _ t ht]
  have e1 : ARROW_DRAG = ((99 / 100 : ℚ) : ℝ) := by norm_num [ARROW_DRAG]
  have e2 : ARROW_GRAVITY = ((1 / 20 : ℚ) : ℝ) := by norm_num [ARROW_GRAVITY]
  rw [e1, e2, directionFormulaQ_toReal]

/-- At a whole time `t >= 1` the magnitude for rational inputs is the square root of the
rational number `magSqQ`. -/
theorem magnitudeAtT_rational (s : ℚ) (relPos v : QVector3) (t : ℕ) (ht : 1 ≤ t) :
    magnitudeAtT ARROW_DRAG ARROW_GRAVITY (s : ℝ) relPos.toReal v.toReal t
      = Real.sqrt ((magSqQ s relPos v t : ℚ) : ℝ) := by
  unfold magnitudeAtT
  rw [directionAtT_rational s relPos v t ht, length_toReal]
  rfl

theorem residual_lt_iff_sq (L : ℝ) :
    |Real.sqrt L - 1.0| < EPS ↔ (0.999 : ℝ) ^ 2 < L ∧ L < (1.001 : ℝ) ^ 2 := by
  unfold EPS
  rw [abs_lt]
  constructor
  · rintro ⟨h1, h2⟩
    constructor
    · rw [← Real.lt_sqrt (by norm_num)]
      norm_num at h1 ⊢
      linarith
    · rw [← Real.sqrt_lt' (by norm_num)]
      norm_num at h2 ⊢
      linarith
  · rintro ⟨h1, h2⟩
    rw [← Real.lt_sqrt (by norm_num)] at h1
    rw [← Real.sqrt_lt' (by norm_num)] at h2
    constructor
    · norm_num at h1 ⊢
      linarith
    · norm_num at h2 ⊢
      linarith

/-- The residual test of the scan at a whole time, decided on rational numbers. -/
theorem residual_lt_iff_hitQ (s : ℚ) (relPos v : QVector3) (t : ℕ) (ht : 1 ≤ t) :
    residualAt ARROW_DRAG ARROW_GRAVITY (s : ℝ) relPos.toReal v.toReal t < EPS
      ↔ hitQ (magSqQ s relPos v t) := by
  unfold residualAt
  rw [magnitudeAtT_rational s relPos v t ht,
    residual_lt_iff_sq]
  unfold hitQ
  constructor
  · rintro ⟨h1, h2⟩
    constructor
    · have : (((999 / 1000 : ℚ) ^ 2 : ℚ) : ℝ) < ((magSqQ s relPos v t : ℚ) : ℝ) := by
        push_cast
        norm_num at h1 ⊢
        linarith
      exact_mod_cast this
    · have : ((magSqQ s relPos v t : ℚ) : ℝ) < (((1001 / 1000 : ℚ) ^ 2 : ℚ) : ℝ) := by
        push_cast
        norm_num at h2 ⊢
        linarith
      exact_mod_cast this
  · rintro ⟨h1, h2⟩
    have h1r : (((999 / 1000 : ℚ) ^ 2 : ℚ) : ℝ) < ((magSqQ s relPos v t : ℚ) : ℝ) := by
      exact_mod_cast h1
    have h2r : ((magSqQ s relPos v t : ℚ) : ℝ) < (((1001 / 1000 : ℚ) ^ 2 : ℚ) : ℝ) := by
      exact_mod_cast h2
    push_cast at h1r h2r
    constructor
    · norm_num at h1r ⊢
      linarith
    · norm_num at h2r ⊢
      linarith

end Rational

/-! ### C4: the scenario of a target at rest twenty blocks ahead -/

section ScenarioAhead

open Cydhranian2Js

theorem ahead_misses :
    ∀ t ∈ Finset.Icc 1 102, ¬ hitQ (magSqQ 3 ⟨0, 0, 20⟩ ⟨0, 0, 0⟩ t) := by
  decide!

theorem ahead_hits : hitQ (magSqQ 3 ⟨0, 0, 20⟩ ⟨0, 0, 0⟩ 103) := by
  decide!

theorem ahead_components :
    (directionFormulaQ (99 / 100) (1 / 20) 3 ⟨0, 0, 20⟩ ⟨0, 0, 0⟩ 103).x = 0 ∧
    0 < (directionFormulaQ (99 / 100) (1 / 20) 3 ⟨0, 0, 20⟩ ⟨0, 0, 0⟩ 103).z ∧
    (directionFormulaQ (99 / 100) (1 / 20) 3 ⟨0, 0, 20⟩ ⟨0, 0, 0⟩ 103).z
      < (directionFormulaQ (99 / 100) (1 / 20) 3 ⟨0, 0, 20⟩ ⟨0, 0, 0⟩ 103).y := by
  decide!

theorem ahead_relPos :
    (⟨0, 0, 20⟩ : Vector3).sub ⟨0, 0, 0⟩ = (⟨0, 0, 20⟩ : QVector3).toReal := by
  simp only [Vector3.sub, QVector3.toReal]
  ext <;> norm_num

theorem ahead_velocity : (⟨0, 0, 0⟩ : Vector3) = (⟨0, 0, 0⟩ : QVector3).toReal := by
  simp only [QVector3.toReal]
  ext <;> norm_num

theorem ahead_speed : (3.0 : ℝ) = ((3 : ℚ) : ℝ) := by norm_num

/-- In the scenario the residual at a whole time `t >= 1` is decided by `hitQ`. -/
theorem ahead_residual_iff (t : ℕ) (ht : 1 ≤ t) :
    residualAt ARROW_DRAG ARROW_GRAVITY 3.0 ((⟨0, 0, 20⟩ : Vector3).sub ⟨0, 0, 0⟩) ⟨0, 0, 0⟩ t
      < EPS ↔ hitQ (magSqQ 3 ⟨0, 0, 20⟩ ⟨0, 0, 0⟩ t) := by
  rw [ahead_relPos, ahead_velocity, ahead_speed]
  exact residual_lt_iff_hitQ 3 ⟨0, 0, 20⟩ ⟨0, 0, 0⟩ t ht

/-- In the scenario the coarse scan returns at `t = 103`. -/
theorem ahead_scan :
    (∀ u : ℕ, 1 ≤ u → u < 103 →
      ¬ residualAt ARROW_DRAG ARROW_GRAVITY 3.0 ((⟨0, 0, 20⟩ : Vector3).sub ⟨0, 0, 0⟩)
        ⟨0, 0, 0⟩ u < EPS) ∧
    residualAt ARROW_DRAG ARROW_GRAVITY 3.0 ((⟨0, 0, 20⟩ : Vector3).sub ⟨0, 0, 0⟩)
      ⟨0, 0, 0⟩ ((103 : ℕ) : ℝ) < EPS ∧
    scanLoop ARROW_DRAG ARROW_GRAVITY 3.0 ((⟨0, 0, 20⟩ : Vector3).sub ⟨0, 0, 0⟩) ⟨0, 0, 0⟩ 1
        ⟨none, ⊤⟩
      = ScanOutcome.returned (some (((103 : ℕ) : ℝ),
          (directionAtT ARROW_DRAG ARROW_GRAVITY 3.0 ((⟨0, 0, 20⟩ : Vector3).sub ⟨0, 0, 0⟩)
            ⟨0, 0, 0⟩ ((103 : ℕ) : ℝ)).normalize)) := by
  have hmiss : ∀ u : ℕ, 1 ≤ u → u < 103 →
      ¬ residualAt ARROW_DRAG ARROW_GRAVITY 3.0 ((⟨0, 0, 20⟩ : Vector3).sub ⟨0, 0, 0⟩)
        ⟨0, 0, 0⟩ u < EPS := by
    intro u hu1 hu2
    rw [ahead_residual_iff u hu1]
    exact ahead_misses u (Finset.mem_Icc.mpr ⟨hu1, by omega⟩)
  have hhit : residualAt ARROW_DRAG ARROW_GRAVITY 3.0
      ((⟨0, 0, 20⟩ : Vector3).sub ⟨0, 0, 0⟩) ⟨0, 0, 0⟩ ((103 : ℕ) : ℝ) < EPS :=
    (ahead_residual_iff 103 (by norm_num)).mpr ahead_hits
  refine ⟨hmiss, hhit, ?_⟩
  obtain ⟨t0, h1, h2, h3, -, h5⟩ := scan_returns_first_hit ARROW_DRAG ARROW_GRAVITY 3.0
    ((⟨0, 0, 20⟩ : Vector3).sub ⟨0, 0, 0⟩) ⟨0, 0, 0⟩ 103 (by norm_num) (by norm_num [MAX_T]) hhit
  have ht0 : t0 = 103 := by
    rcases Nat.eq_or_lt_of_le h2 with heq | hlt
    · exact heq
    · exact absurd h3 (hmiss t0 h1 hlt)
  subst ht0
  exact h5

/-- In the scenario the direction at `t = 103` has `x = 0` and `0 < z < y`, and so has its
normalisation. -/
theorem ahead_direction :
    (directionAtT ARROW_DRAG ARROW_GRAVITY 3.0 ((⟨0, 0, 20⟩ : Vector3).sub ⟨0, 0, 0⟩)
      ⟨0, 0, 0⟩ ((103 : ℕ) : ℝ)).normalize.x = 0 ∧
    0 < (directionAtT ARROW_DRAG ARROW_GRAVITY 3.0 ((⟨0, 0, 20⟩ : Vector3).sub ⟨0, 0, 0⟩)
      ⟨0, 0, 0⟩ ((103 : ℕ) : ℝ)).normalize.z ∧
    (directionAtT ARROW_DRAG ARROW_GRAVITY 3.0 ((⟨0, 0, 20⟩ : Vector3).sub ⟨0, 0, 0⟩)
      ⟨0, 0, 0⟩ ((103 : ℕ) : ℝ)).normalize.z
      < (directionAtT ARROW_DRAG ARROW_GRAVITY 3.0 ((⟨0, 0, 20⟩ : Vector3).sub ⟨0, 0, 0⟩)
          ⟨0, 0, 0⟩ ((103 : ℕ) : ℝ)).normalize.y := by
  have hlen := length_of_residual_lt _ _ _ _ _ _ ahead_scan.2.1
  have hpos : 0 < (directionAtT ARROW_DRAG ARROW_GRAVITY 3.0
      ((⟨0, 0, 20⟩ : Vector3).sub ⟨0, 0, 0⟩) ⟨0, 0, 0⟩ ((103 : ℕ) : ℝ)).length := by
    norm_num at hlen ⊢
    linarith
  obtain ⟨hx, hz, hzy⟩ := ahead_components
  have hdir := directionAtT_rational 3 ⟨0, 0, 20⟩ ⟨0, 0, 0⟩ 103 (by norm_num)
  rw [← ahead_relPos, ← ahead_velocity, ← ahead_speed] at hdir
  have hxr : (directionAtT ARROW_DRAG ARROW_GRAVITY 3.0
      ((⟨0, 0, 20⟩ : Vector3).sub ⟨0, 0, 0⟩) ⟨0, 0, 0⟩ ((103 : ℕ) : ℝ)).x = 0 := by
    rw [hdir]
    simp only [QVector3.toReal]
    exact_mod_cast hx
  have hzr : 0 < (directionAtT ARROW_DRAG ARROW_GRAVITY 3.0
      ((⟨0, 0, 20⟩ : Vector3).sub ⟨0, 0, 0⟩) ⟨0, 0, 0⟩ ((103 : ℕ) : ℝ)).z := by
    rw [hdir]
    simp only [QVector3.toReal]
    exact_mod_cast hz
  have hzyr : (directionAtT ARROW_DRAG ARROW_GRAVITY 3.0
      ((⟨0, 0, 20⟩ : Vector3).sub ⟨0, 0, 0⟩) ⟨0, 0, 0⟩ ((103 : ℕ) : ℝ)).z
      < (directionAtT ARROW_DRAG ARROW_GRAVITY 3.0
          ((⟨0, 0, 20⟩ : Vector3).sub ⟨0, 0, 0⟩) ⟨0, 0, 0⟩ ((103 : ℕ) : ℝ)).y := by
    rw [hdir]
    simp only [QVector3.toReal]
    exact_mod_cast hzy
  simp only [Vector3.normalize]
  refine ⟨?_, div_pos hzr hpos, div_lt_div_of_pos_right hzyr hpos⟩
  rw [hxr, zero_div]

theorem ahead_calculate :
    Cydhranian2Js.calculateArrowAimDirection ⟨0, 0, 0⟩ ⟨0, 0, 20⟩ ⟨0, 0, 0⟩ 3.0
      = some (directionAtT ARROW_DRAG ARROW_GRAVITY 3.0 ((⟨0, 0, 20⟩ : Vector3).sub ⟨0, 0, 0⟩)
          ⟨0, 0, 0⟩ ((103 : ℕ) : ℝ)).normalize := by
  unfold Cydhranian2Js.calculateArrowAimDirection
  rw [solveAt_eq_scan ARROW_DRAG ARROW_GRAVITY _ _ _ 3.0 (by norm_num) arrow_drag_guard,
    ahead_scan.2.2]
  rfl

/-- C4 (amended): with shooter `(0,0,0)`, target `(0,0,20)`, target velocity `(0,0,0)` and
launch speed `3.0` (drag `0.99`, gravity `0.05`), the solver returns a direction `d` found in
the coarse scan, so the bisection is not entered: no whole time `t < 103` has residual below
`0.001`, `t = 103` has, and `d = normalize(direction(103))`.  This `d` has `d.x = 0` and
`0 < d.z < d.y`: the vertical component dominates. -/
theorem scenario_ahead_lob :
    (∀ u : ℕ, 1 ≤ u → u < 103 →
      ¬ residualAt ARROW_DRAG ARROW_GRAVITY 3.0 ((⟨0, 0, 20⟩ : Vector3).sub ⟨0, 0, 0⟩)
        ⟨0, 0, 0⟩ u < EPS) ∧
    residualAt ARROW_DRAG ARROW_GRAVITY 3.0 ((⟨0, 0, 20⟩ : Vector3).sub ⟨0, 0, 0⟩)
      ⟨0, 0, 0⟩ ((103 : ℕ) : ℝ) < EPS ∧
    scanLoop ARROW_DRAG ARROW_GRAVITY 3.0 ((⟨0, 0, 20⟩ : Vector3).sub ⟨0, 0, 0⟩) ⟨0, 0, 0⟩ 1
        ⟨none, ⊤⟩
      = ScanOutcome.returned (some (((103 : ℕ) : ℝ),
          (directionAtT ARROW_DRAG ARROW_GRAVITY 3.0 ((⟨0, 0, 20⟩ : Vector3).sub ⟨0, 0, 0⟩)
            ⟨0, 0, 0⟩ ((103 : ℕ) : ℝ)).normalize)) ∧
    ∃ d : Vector3,
      Cydhranian2Js.calculateArrowAimDirection ⟨0, 0, 0⟩ ⟨0, 0, 20⟩ ⟨0, 0, 0⟩ 3.0 = some d ∧
      d = (directionAtT ARROW_DRAG ARROW_GRAVITY 3.0 ((⟨0, 0, 20⟩ : Vector3).sub ⟨0, 0, 0⟩)
            ⟨0, 0, 0⟩ ((103 : ℕ) : ℝ)).normalize ∧
      d.x = 0 ∧ 0 < d.z ∧ d.z < d.y :=
  ⟨ahead_scan.1, ahead_scan.2.1, ahead_scan.2.2, _, ahead_calculate, rfl, ahead_direction.1,
    ahead_direction.2.1, ahead_direction.2.2⟩

/-- C4, counterexample: in the scenario of the claim no direction `d` with
`0 < d.y < d.z` and `d.x = 0` is returned. -/
theorem scenario_ahead_counterexample :
    ¬ ∃ d : Vector3,
      Cydhranian2Js.calculateArrowAimDirection ⟨0, 0, 0⟩ ⟨0, 0, 20⟩ ⟨0, 0, 0⟩ 3.0 = some d ∧
      0 < d.y ∧ d.y < d.z ∧ d.x = 0 := by
  rintro ⟨d, hd, -, hyz, -⟩
  rw [ahead_calculate] at hd
  simp only [Option.some.injEq] at hd
  subst hd
  exact absurd hyz (not_lt.mpr ahead_direction.2.2.le)

end ScenarioAhead

/-! ### Where a returned flight time comes from -/

section TimeCases

open Cydhranian2Js

/-- Whenever `solveAt` of `cydhranian2.js` returns a direction `d` computed at the flight
time `t`, then `d = normalize(direction(t))`, `1 <= t <= MAX_T`, and one of three holds:
* (coarse scan) `t` is the smallest whole time in `1..MAX_T` with residual below `EPS`;
* (bisection) no whole time in `1..MAX_T` has residual below `EPS`, the residual at `t` is
  below `EPS`, and `t` lies in the bracket around the best sample `b`;
* (fallback) no whole time in `1..MAX_T` has residual below `EPS`, and `t` is the best sample
  `b`, the earliest whole time of least residual. -/
theorem solveAt_time_cases (r g : ℝ) (shooter target vel : Vector3) (s t : ℝ) (d : Vector3)
    (h : solveAt r g shooter target vel s = some (t, d)) :
    d = (directionAtT r g s (target.sub shooter) vel t).normalize ∧
    1 ≤ t ∧ t ≤ (MAX_T : ℝ) ∧
    ((∃ t0 : ℕ, t = (t0 : ℝ) ∧ 1 ≤ t0 ∧ t0 ≤ MAX_T ∧
        residualAt r g s (target.sub shooter) vel t0 < EPS ∧
        ∀ u : ℕ, 1 ≤ u → u < t0 → ¬ residualAt r g s (target.sub shooter) vel u < EPS) ∨
     ((∀ u : ℕ, 1 ≤ u → u ≤ MAX_T → ¬ residualAt r g s (target.sub shooter) vel u < EPS) ∧
      ∃ b : ℕ, 1 ≤ b ∧ b ≤ MAX_T ∧
        (∀ u : ℕ, 1 ≤ u → u ≤ MAX_T →
          residualAt r g s (target.sub shooter) vel b
            ≤ residualAt r g s (target.sub shooter) vel u) ∧
        (∀ u : ℕ, 1 ≤ u → u < b →
          residualAt r g s (target.sub shooter) vel b
            < residualAt r g s (target.sub shooter) vel u) ∧
        EPS < residualAt r g s (target.sub shooter) vel b ∧
        ((residualAt r g s (target.sub shooter) vel t < EPS ∧
            max 1 ((b : ℝ) - 20) ≤ t ∧ t ≤ min (MAX_T : ℝ) ((b : ℝ) + 20)) ∨
         t = (b : ℝ)))) := by
  obtain ⟨hs, -, -, -, hd⟩ := cyd2_solveAt_some_shape r g shooter target vel s t d h
  have hr : (1e-12 : ℝ) ≤ |r - 1| := by
    by_contra hr
    simp [Cydhranian2Js.solveAt, not_le.mpr hs, not_le.mp hr] at h
  refine ⟨hd, ?_⟩
  rcases solveAt_cases r g shooter target vel s hs hr with
    ⟨t0, h1, h2, h3, h4, h5⟩ | ⟨hno, b, hb1, hb2, hmin, hfirst, hcase⟩
  · rw [h5] at h
    simp only [Option.some.injEq, Prod.mk.injEq] at h
    obtain ⟨ht, -⟩ := h
    subst ht
    exact ⟨by exact_mod_cast h1, by exact_mod_cast h2, Or.inl ⟨t0, rfl, h1, h2, h3, h4⟩⟩
  · rcases hcase with ⟨-, h0⟩ | ⟨hlt, mid, hm1, hm2, hm3, hm4⟩ | ⟨hlt, -, hacc⟩
    · rw [h0] at h
      exact absurd h (by simp)
    · rw [hm4] at h
      simp only [Option.some.injEq, Prod.mk.injEq] at h
      obtain ⟨ht, -⟩ := h
      subst ht
      obtain ⟨hb3, -, hb4⟩ := bracket_bounds b hb1 hb2
      exact ⟨le_trans hb3 hm1, le_trans hm2 hb4,
        Or.inr ⟨hno, b, hb1, hb2, hmin, hfirst, hlt, Or.inl ⟨hm3, hm1, hm2⟩⟩⟩
    · rw [hacc, accept_eq_some_iff] at h
      obtain ⟨-, heq⟩ := h
      simp only [Prod.mk.injEq] at heq
      obtain ⟨ht, -⟩ := heq
      subst ht
      exact ⟨by exact_mod_cast hb1, by exact_mod_cast hb2,
        Or.inr ⟨hno, b, hb1, hb2, hmin, hfirst, hlt, Or.inr rfl⟩⟩

end TimeCases

/-! ### C9: a target straight above the shooter -/

section ClaimC9

open Cydhranian2Js

theorem above_relPos (h : ℝ) : (⟨0, h, 0⟩ : Vector3).sub ⟨0, 0, 0⟩ = ⟨0, h, 0⟩ := by
  simp only [Vector3.sub]
  ext <;> norm_num

/-- For a target at height `h >= 0` straight above the shooter and at rest, whatever the
solver returns is the direction `(0, 1, 0)`. -/
theorem above_solveAt_direction (h s t : ℝ) (d : Vector3) (hh : 0 ≤ h)
    (hsol : solveAt ARROW_DRAG ARROW_GRAVITY ⟨0, 0, 0⟩ ⟨0, h, 0⟩ ⟨0, 0, 0⟩ s = some (t, d)) :
    d = ⟨0, 1, 0⟩ := by
  obtain ⟨hs, ht1, ht2, hlen, hd⟩ := cyd2_solveAt_some_shape _ _ _ _ _ s t d hsol
  rw [above_relPos] at hlen hd
  have ht3 : t ≤ 300 := by
    have : (MAX_T : ℝ) = 300 := by norm_num [MAX_T]
    linarith
  obtain ⟨hx, hz, hy1, -⟩ := vertical_direction h s t hh hs ht1 ht3
  have hy0 : 0 ≤ (directionAtT ARROW_DRAG ARROW_GRAVITY s ⟨0, h, 0⟩ ⟨0, 0, 0⟩ t).y :=
    le_trans (div_nonneg (mul_nonneg (by norm_num) hh) hs.le) hy1
  rw [length_vertical _ hx hz hy0] at hlen
  rw [hd]
  apply normalize_vertical _ hx hz
  rw [not_lt] at hlen
  norm_num at hlen
  linarith

/-- A target a thousand blocks above the shooter with launch speed `3`: at every real
flight time in `[1, 300]` the direction has length at least `10/3`, so the residual is
nowhere below `EPS`. -/
theorem high_target_residual (t : ℝ) (ht1 : 1 ≤ t) (ht2 : t ≤ 300) :
    (10 / 3 : ℝ) ≤ (directionAtT ARROW_DRAG ARROW_GRAVITY 3
        ((⟨0, 1000, 0⟩ : Vector3).sub ⟨0, 0, 0⟩) ⟨0, 0, 0⟩ t).length ∧
    ¬ residualAt ARROW_DRAG ARROW_GRAVITY 3 ((⟨0, 1000, 0⟩ : Vector3).sub ⟨0, 0, 0⟩)
        ⟨0, 0, 0⟩ t < EPS ∧
    residualAt ARROW_DRAG ARROW_GRAVITY 3 ((⟨0, 1000, 0⟩ : Vector3).sub ⟨0, 0, 0⟩)
        ⟨0, 0, 0⟩ t ≠ EPS := by
  rw [above_relPos]
  obtain ⟨hx, hz, hy1, -⟩ := vertical_direction 1000 3 t (by norm_num) (by norm_num) ht1 ht2
  have hy : (10 / 3 : ℝ) ≤ (directionAtT ARROW_DRAG ARROW_GRAVITY 3 ⟨0, 1000, 0⟩
      ⟨0, 0, 0⟩ t).y := by
    norm_num at hy1 ⊢
    linarith
  have hlen := length_vertical _ hx hz (le_trans (by norm_num) hy)
  have hres : (2 : ℝ) ≤ residualAt ARROW_DRAG ARROW_GRAVITY 3 ⟨0, 1000, 0⟩ ⟨0, 0, 0⟩ t := by
    unfold residualAt magnitudeAtT
    rw [hlen, abs_of_nonneg (by norm_num; linarith)]
    norm_num
    linarith
  refine ⟨by rw [hlen]; exact hy, ?_, ?_⟩
  · rw [not_lt]
    unfold EPS
    linarith
  · unfold EPS
    intro h
    rw [h] at hres
    norm_num at hres

/-- A target a thousand blocks above the shooter with launch speed `3`: the scan and the
bisection fail, and the best-sample fallback returns `(0, 1, 0)`. -/
theorem high_target_solveAt :
    ∃ b : ℕ, 1 ≤ b ∧ b ≤ MAX_T ∧
      solveAt ARROW_DRAG ARROW_GRAVITY ⟨0, 0, 0⟩ ⟨0, 1000, 0⟩ ⟨0, 0, 0⟩ 3
        = some ((b : ℝ), ⟨0, 1, 0⟩) := by
  have hreal : ∀ u : ℕ, 1 ≤ u → u ≤ MAX_T → (1 : ℝ) ≤ u ∧ (u : ℝ) ≤ 300 := by
    intro u hu1 hu2
    constructor
    · exact_mod_cast hu1
    · have : u ≤ 300 := hu2
      exact_mod_cast this
  rcases solveAt_cases ARROW_DRAG ARROW_GRAVITY ⟨0, 0, 0⟩ ⟨0, 1000, 0⟩ ⟨0, 0, 0⟩ 3
    (by norm_num) arrow_drag_guard with
    ⟨t0, h1, h2, h3, -, -⟩ | ⟨-, b, hb1, hb2, -, -, hcase⟩
  · exact absurd h3 (high_target_residual t0 (hreal t0 h1 h2).1 (hreal t0 h1 h2).2).2.1
  · refine ⟨b, hb1, hb2, ?_⟩
    rcases hcase with ⟨heq, -⟩ | ⟨-, mid, hm1, hm2, hm3, -⟩ | ⟨-, -, hacc⟩
    · exact absurd heq (high_target_residual b (hreal b hb1 hb2).1 (hreal b hb1 hb2).2).2.2
    · obtain ⟨hb3, -, hb4⟩ := bracket_bounds b hb1 hb2
      have hm4 : mid ≤ 300 := by
        have : (MAX_T : ℝ) = 300 := by norm_num [MAX_T]
        linarith
      exact absurd hm3 (high_target_residual mid (le_trans hb3 hm1) hm4).2.1
    · obtain ⟨hlen, -, -⟩ :=
        high_target_residual b (hreal b hb1 hb2).1 (hreal b hb1 hb2).2
      have hsome : solveAt ARROW_DRAG ARROW_GRAVITY ⟨0, 0, 0⟩ ⟨0, 1000, 0⟩ ⟨0, 0, 0⟩ 3
          = some ((b : ℝ), (directionAtT ARROW_DRAG ARROW_GRAVITY 3
              ((⟨0, 1000, 0⟩ : Vector3).sub ⟨0, 0, 0⟩) ⟨0, 0, 0⟩ b).normalize) := by
        rw [hacc, accept_eq_some_iff]
        refine ⟨?_, rfl⟩
        rw [not_lt]
        linarith
      have hd := above_solveAt_direction 1000 3 b _ (by norm_num) hsome
      rw [hsome, hd]

theorem high_target_calculate :
    Cydhranian2Js.calculateArrowAimDirection ⟨0, 0, 0⟩ ⟨0, 1000, 0⟩ ⟨0, 0, 0⟩ 3
      = some ⟨0, 1, 0⟩ := by
  obtain ⟨b, -, -, hb⟩ := high_target_solveAt
  unfold Cydhranian2Js.calculateArrowAimDirection
  rw [hb]
  rfl

/-- A target one block above the shooter with launch speed `10^6`: every direction the
solver inspects is shorter than `0.01`, and the solver returns `null`. -/
theorem fast_launch_calculate :
    Cydhranian2Js.calculateArrowAimDirection ⟨0, 0, 0⟩ ⟨0, 1, 0⟩ ⟨0, 0, 0⟩ 1000000 = none := by
  rw [← Option.not_isSome_iff_eq_none, Option.isSome_iff_exists]
  rintro ⟨d, hd⟩
  unfold Cydhranian2Js.calculateArrowAimDirection at hd
  rw [Option.map_eq_some'] at hd
  obtain ⟨⟨t, d1⟩, hsol, -⟩ := hd
  obtain ⟨hs, ht1, ht2, hlen, -⟩ := cyd2_solveAt_some_shape _ _ _ _ _ _ t d1 hsol
  rw [above_relPos] at hlen
  have ht3 : t ≤ 300 := by
    have : (MAX_T : ℝ) = 300 := by norm_num [MAX_T]
    linarith
  obtain ⟨hx, hz, hy1, hy2⟩ := vertical_direction 1 1000000 t (by norm_num) hs ht1 ht3
  have hy0 : 0 ≤ (directionAtT ARROW_DRAG ARROW_GRAVITY 1000000 ⟨0, 1, 0⟩ ⟨0, 0, 0⟩ t).y := by
    norm_num at hy1
    linarith
  rw [length_vertical _ hx hz hy0] at hlen
  apply hlen
  norm_num at hy2 ⊢
  linarith

/-- C9 (amended): for every height `h > 0` and every launch speed `s > 0`, with shooter
`(0,0,0)`, target `(0,h,0)` and target velocity `(0,0,0)` (drag `0.99`, gravity `0.05`),
whenever the solver returns a direction `d`, `d` is vertical-dominant (indeed
`d = (0, 1, 0)`) and `d = normalize(direction(t))` for a `t` in `[1, 300]`; the residual at
that `t` is below `0.001` if `d` was returned by the coarse scan or by the bisection, and
otherwise `t` is the best sample of the scan, whose residual exceeds `0.001`. -/
theorem target_above_direction (h s : ℝ) (hh : 0 < h) (_hs : 0 < s) (d : Vector3)
    (hret : Cydhranian2Js.calculateArrowAimDirection ⟨0, 0, 0⟩ ⟨0, h, 0⟩ ⟨0, 0, 0⟩ s = some d) :
    d = ⟨0, 1, 0⟩ ∧ |d.y| > |d.x| ∧ |d.y| > |d.z| ∧
    ∃ t : ℝ, 1 ≤ t ∧ t ≤ 300 ∧
      solveAt ARROW_DRAG ARROW_GRAVITY ⟨0, 0, 0⟩ ⟨0, h, 0⟩ ⟨0, 0, 0⟩ s = some (t, d) ∧
      d = (directionAtT ARROW_DRAG ARROW_GRAVITY s ((⟨0, h, 0⟩ : Vector3).sub ⟨0, 0, 0⟩)
            ⟨0, 0, 0⟩ t).normalize ∧
      (residualAt ARROW_DRAG ARROW_GRAVITY s ((⟨0, h, 0⟩ : Vector3).sub ⟨0, 0, 0⟩)
          ⟨0, 0, 0⟩ t < EPS ∨
        ((∀ u : ℕ, 1 ≤ u → u ≤ MAX_T →
            ¬ residualAt ARROW_DRAG ARROW_GRAVITY s ((⟨0, h, 0⟩ : Vector3).sub ⟨0, 0, 0⟩)
              ⟨0, 0, 0⟩ u < EPS) ∧
          ∃ b : ℕ, t = (b : ℝ) ∧
            (∀ u : ℕ, 1 ≤ u → u ≤ MAX_T →
              residualAt ARROW_DRAG ARROW_GRAVITY s ((⟨0, h, 0⟩ : Vector3).sub ⟨0, 0, 0⟩)
                  ⟨0, 0, 0⟩ b
                ≤ residualAt ARROW_DRAG ARROW_GRAVITY s ((⟨0, h, 0⟩ : Vector3).sub ⟨0, 0, 0⟩)
                  ⟨0, 0, 0⟩ u) ∧
            EPS < residualAt ARROW_DRAG ARROW_GRAVITY s
              ((⟨0, h, 0⟩ : Vector3).sub ⟨0, 0, 0⟩) ⟨0, 0, 0⟩ b)) := by
  unfold Cydhranian2Js.calculateArrowAimDirection at hret
  rw [Option.map_eq_some'] at hret
  obtain ⟨⟨t, d1⟩, hsol, hd1⟩ := hret
  simp only at hd1
  subst hd1
  have hd := above_solveAt_direction h s t d1 hh.le hsol
  obtain ⟨hnorm, ht1, ht2, hcases⟩ := solveAt_time_cases _ _ _ _ _ s t d1 hsol
  have ht3 : t ≤ 300 := by
    have : (MAX_T : ℝ) = 300 := by norm_num [MAX_T]
    linarith
  refine ⟨hd, ?_, ?_, t, ht1, ht3, hsol, hnorm, ?_⟩
  · rw [hd]
    norm_num
  · rw [hd]
    norm_num
  · rcases hcases with ⟨t0, ht0, -, -, hres, -⟩ | ⟨hno, b, -, -, hmin, -, hlt, hres | hb⟩
    · left
      rw [ht0]
      exact hres
    · exact Or.inl hres.1
    · exact Or.inr ⟨hno, b, hb, hmin, hlt⟩

/-- C9, witness: height `1000`, launch speed `3`, where the solver returns `(0, 1, 0)`. -/
theorem target_above_direction_witness :
    ((0 : ℝ) < 1000 ∧ (0 : ℝ) < 3 ∧
      Cydhranian2Js.calculateArrowAimDirection ⟨0, 0, 0⟩ ⟨0, 1000, 0⟩ ⟨0, 0, 0⟩ 3
        = some ⟨0, 1, 0⟩) ∧
    |(⟨0, 1, 0⟩ : Vector3).y| > |(⟨0, 1, 0⟩ : Vector3).x| ∧
    |(⟨0, 1, 0⟩ : Vector3).y| > |(⟨0, 1, 0⟩ : Vector3).z| :=
  ⟨⟨by norm_num, by norm_num, high_target_calculate⟩,
    (target_above_direction 1000 3 (by norm_num) (by norm_num) ⟨0, 1, 0⟩
      high_target_calculate).2.1,
    (target_above_direction 1000 3 (by norm_num) (by norm_num) ⟨0, 1, 0⟩
      high_target_calculate).2.2.1⟩

/-- C9, counterexample: for height `1` and launch speed `10^6` the solver returns `null`
instead of a direction; for height `1000` and launch speed `3` it returns `(0, 1, 0)`
although no real time `t` in `[1, 300]` has a residual below `0.001`. -/
theorem target_above_counterexample :
    ((0 : ℝ) < 1 ∧ (0 : ℝ) < 1000000 ∧
      Cydhranian2Js.calculateArrowAimDirection ⟨0, 0, 0⟩ ⟨0, 1, 0⟩ ⟨0, 0, 0⟩ 1000000 = none) ∧
    ((0 : ℝ) < 1000 ∧ (0 : ℝ) < 3 ∧
      Cydhranian2Js.calculateArrowAimDirection ⟨0, 0, 0⟩ ⟨0, 1000, 0⟩ ⟨0, 0, 0⟩ 3
        = some ⟨0, 1, 0⟩ ∧
      ∀ t : ℝ, 1 ≤ t → t ≤ 300 →
        ¬ residualAt ARROW_DRAG ARROW_GRAVITY 3 ((⟨0, 1000, 0⟩ : Vector3).sub ⟨0, 0, 0⟩)
          ⟨0, 0, 0⟩ t < EPS) :=
  ⟨⟨by norm_num, by norm_num, fast_launch_calculate⟩,
    ⟨by norm_num, by norm_num, high_target_calculate,
      fun t ht1 ht2 => (high_target_residual t ht1 ht2).2.1⟩⟩

end ClaimC9

/-! ### C8: target at the shooter, at rest -/

section ClaimC8

open Cydhranian2Js

/-- The drag-model solver sees the two positions only through their difference. -/
theorem solveAt_congr (r g : ℝ) (shooter target shooter2 target2 vel : Vector3) (s : ℝ)
    (h : target.sub shooter = target2.sub shooter2) :
    solveAt r g shooter target vel s = solveAt r g shooter2 target2 vel s := by
  simp only [solveAt, h]

theorem sub_self_eq (p : Vector3) : p.sub p = (⟨0, 0, 0⟩ : Vector3).sub ⟨0, 0, 0⟩ := by
  simp only [Vector3.sub, sub_self]

/-- With the target at the shooter and at rest the drag-model solver returns `null` or the
vertical direction `(0, 1, 0)`. -/
theorem same_position_drag (p : Vector3) (s : ℝ) :
    Cydhranian2Js.calculateArrowAimDirection p p ⟨0, 0, 0⟩ s = none ∨
    Cydhranian2Js.calculateArrowAimDirection p p ⟨0, 0, 0⟩ s = some ⟨0, 1, 0⟩ := by
  unfold Cydhranian2Js.calculateArrowAimDirection
  rw [solveAt_congr _ _ p p ⟨0, 0, 0⟩ ⟨0, 0, 0⟩ _ s (sub_self_eq p)]
  cases hsol : solveAt ARROW_DRAG ARROW_GRAVITY ⟨0, 0, 0⟩ ⟨0, 0, 0⟩ ⟨0, 0, 0⟩ s with
  | none => exact Or.inl rfl
  | some res =>
    obtain ⟨t, d⟩ := res
    right
    rw [above_solveAt_direction 0 s t d (le_refl 0) hsol]
    rfl

/-- With the target at the shooter and at rest the quadratic fallback finds the double root
`t = 0` and returns `null`. -/
theorem same_position_quadratic (p : Vector3) (s : ℝ) :
    Polynomial2Js.calculateArrowAimDirection p p ⟨0, 0, 0⟩ s = none := by
  have hsel : Polynomial2Js.selectedTime Polynomial2Js.ARROW_GRAVITY (p.sub p) ⟨0, 0, 0⟩ s
      = none := by
    rw [poly2_selectedTime_of_coeffs Polynomial2Js.ARROW_GRAVITY _ _ s 0.025 0 0 0 0
      (by norm_num [Polynomial2Js.coeffA, Polynomial2Js.ARROW_GRAVITY])
      (by simp [Polynomial2Js.coeffB, Vector3.sub])
      (by simp [Polynomial2Js.coeffC, Vector3.sub])
      (by norm_num) (le_refl 0) Real.sqrt_zero
      (by rw [abs_of_nonneg (by norm_num)]; norm_num)]
    norm_num [Polynomial2Js.chooseTime]
  unfold Polynomial2Js.calculateArrowAimDirection Polynomial2Js.solveAt
  split_ifs
  · rfl
  · simp only [hsel, Option.map_none']

/-- With the target at the shooter and at rest and launch speed `3`, every whole time in
`1..300` has a direction whose length is further than `0.001` from 1. -/
theorem origin_misses : ∀ t ∈ Finset.Icc 1 300, missQ (magSqQ 3 ⟨0, 0, 0⟩ ⟨0, 0, 0⟩ t) := by
  decide!

/-- With the target at the shooter and at rest and launch speed `3`, the direction at
`t = 103` has a length between `0.5` and `1.5`. -/
theorem origin_near : (1 / 2 : ℚ) ^ 2 < magSqQ 3 ⟨0, 0, 0⟩ ⟨0, 0, 0⟩ 103 ∧
    magSqQ 3 ⟨0, 0, 0⟩ ⟨0, 0, 0⟩ 103 < (3 / 2 : ℚ) ^ 2 := by
  decide!

theorem residual_gt_of_missQ (L : ℚ) (h : missQ L) : EPS < |Real.sqrt (L : ℝ) - 1.0| := by
  have e : (1.0 : ℝ) = 1 := by norm_num
  have e2 : EPS = 1 / 1000 := by norm_num [EPS]
  rw [e, e2]
  rcases h with h | h
  · have hr : (L : ℝ) < (999 / 1000 : ℝ) ^ 2 := by
      have : ((L : ℚ) : ℝ) < (((999 / 1000 : ℚ) ^ 2 : ℚ) : ℝ) := by exact_mod_cast h
      push_cast at this
      exact this
    have hr2 : Real.sqrt (L : ℝ) < 999 / 1000 := (Real.sqrt_lt' (by norm_num)).mpr hr
    rw [abs_of_nonpos (by linarith)]
    linarith
  · have hr : (1001 / 1000 : ℝ) ^ 2 < (L : ℝ) := by
      have : (((1001 / 1000 : ℚ) ^ 2 : ℚ) : ℝ) < ((L : ℚ) : ℝ) := by exact_mod_cast h
      push_cast at this
      exact this
    have hr2 : (1001 / 1000 : ℝ) < Real.sqrt (L : ℝ) := (Real.lt_sqrt (by norm_num)).mpr hr
    rw [abs_of_nonneg (by linarith)]
    linarith

theorem origin_relPos :
    (⟨0, 0, 0⟩ : Vector3).sub ⟨0, 0, 0⟩ = (⟨0, 0, 0⟩ : QVector3).toReal := by
  simp only [Vector3.sub, QVector3.toReal]
  ext <;> norm_num

/-- With the target at the shooter and at rest and launch speed `3`, the residual at every
whole time in `1..300` exceeds `EPS`. -/
theorem origin_residual_gt (t : ℕ) (ht1 : 1 ≤ t) (ht2 : t ≤ MAX_T) :
    EPS < residualAt ARROW_DRAG ARROW_GRAVITY 3.0 ((⟨0, 0, 0⟩ : Vector3).sub ⟨0, 0, 0⟩)
      ⟨0, 0, 0⟩ t := by
  unfold residualAt
  rw [origin_relPos, ahead_velocity, ahead_speed,
    magnitudeAtT_rational 3 ⟨0, 0, 0⟩ ⟨0, 0, 0⟩ t ht1]
  exact residual_gt_of_missQ _ (origin_misses t (Finset.mem_Icc.mpr ⟨ht1, ht2⟩))

theorem origin_residual_near :
    residualAt ARROW_DRAG ARROW_GRAVITY 3.0 ((⟨0, 0, 0⟩ : Vector3).sub ⟨0, 0, 0⟩)
      ⟨0, 0, 0⟩ ((103 : ℕ) : ℝ) < 0.5 := by
  unfold residualAt
  rw [origin_relPos, ahead_velocity, ahead_speed,
    magnitudeAtT_rational 3 ⟨0, 0, 0⟩ ⟨0, 0, 0⟩ 103 (by norm_num)]
  obtain ⟨h1, h2⟩ := origin_near
  have h1r : (((1 / 2 : ℚ) ^ 2 : ℚ) : ℝ) < ((magSqQ 3 ⟨0, 0, 0⟩ ⟨0, 0, 0⟩ 103 : ℚ) : ℝ) := by
    exact_mod_cast h1
  have h2r : ((magSqQ 3 ⟨0, 0, 0⟩ ⟨0, 0, 0⟩ 103 : ℚ) : ℝ) < (((3 / 2 : ℚ) ^ 2 : ℚ) : ℝ) := by
    exact_mod_cast h2
  push_cast at h1r h2r
  have h3 : (1 / 2 : ℝ) < Real.sqrt ((magSqQ 3 ⟨0, 0, 0⟩ ⟨0, 0, 0⟩ 103 : ℚ) : ℝ) := by
    rw [Real.lt_sqrt (by norm_num)]
    exact h1r
  have h4 : Real.sqrt ((magSqQ 3 ⟨0, 0, 0⟩ ⟨0, 0, 0⟩ 103 : ℚ) : ℝ) < (3 / 2 : ℝ) := by
    rw [Real.sqrt_lt' (by norm_num)]
    exact h2r
  rw [abs_lt]
  constructor
  · norm_num
    linarith
  · norm_num
    linarith

/-- With the target at the shooter and at rest and the default launch speed `3.0`, the
drag-model solver returns the vertical direction `(0, 1, 0)`. -/
theorem origin_default_speed :
    Cydhranian2Js.calculateArrowAimDirection ⟨0, 0, 0⟩ ⟨0, 0, 0⟩ ⟨0, 0, 0⟩ 3.0
      = some ⟨0, 1, 0⟩ := by
  rcases same_position_drag ⟨0, 0, 0⟩ 3.0 with hnone | hsome
  · exfalso
    unfold Cydhranian2Js.calculateArrowAimDirection at hnone
    rw [Option.map_eq_none'] at hnone
    rcases solveAt_cases ARROW_DRAG ARROW_GRAVITY ⟨0, 0, 0⟩ ⟨0, 0, 0⟩ ⟨0, 0, 0⟩ 3.0
      (by norm_num) arrow_drag_guard with
      ⟨t0, h1, h2, h3, -, -⟩ | ⟨-, b, hb1, hb2, hmin, -, hcase⟩
    · exact absurd h3 (not_lt.mpr (origin_residual_gt t0 h1 h2).le)
    · rcases hcase with ⟨heq, -⟩ | ⟨-, mid, -, -, -, hm4⟩ | ⟨-, -, hacc⟩
      · exact absurd heq (origin_residual_gt b hb1 hb2).ne'
      · rw [hm4] at hnone
        exact absurd hnone (by simp)
      · have hacc2 : accept b (directionAtT ARROW_DRAG ARROW_GRAVITY 3.0
            ((⟨0, 0, 0⟩ : Vector3).sub ⟨0, 0, 0⟩) ⟨0, 0, 0⟩ b) = none := by
          rw [← hacc]
          exact hnone
        rw [accept_eq_none_iff] at hacc2
        have hb := hmin 103 (by norm_num) (by norm_num [MAX_T])
        have hlt := lt_of_le_of_lt hb origin_residual_near
        unfold residualAt magnitudeAtT at hlt
        rw [abs_lt] at hlt
        norm_num at hlt hacc2
        linarith [hlt.1]
  · exact hsome

/-- C8 (amended): when the target is at the shooter position `p` and at rest, the quadratic
fallback (`polynomial2.js`) returns `null` for every positive launch speed; the drag-model
solver (`cydhranian2.js`) returns, for every positive launch speed, either `null` or the
vertical direction `(0, 1, 0)`, and at the default launch speed `3.0` it returns
`(0, 1, 0)`. -/
theorem zero_displacement (p : Vector3) (s : ℝ) (_hs : 0 < s) :
    Polynomial2Js.calculateArrowAimDirection p p ⟨0, 0, 0⟩ s = none ∧
    (Cydhranian2Js.calculateArrowAimDirection p p ⟨0, 0, 0⟩ s = none ∨
      Cydhranian2Js.calculateArrowAimDirection p p ⟨0, 0, 0⟩ s = some ⟨0, 1, 0⟩) ∧
    Cydhranian2Js.calculateArrowAimDirection p p ⟨0, 0, 0⟩ FULLY_CHARGED_SPEED
      = some ⟨0, 1, 0⟩ := by
  refine ⟨same_position_quadratic p s, same_position_drag p s, ?_⟩
  have h := origin_default_speed
  unfold Cydhranian2Js.calculateArrowAimDirection at h ⊢
  rw [solveAt_congr _ _ p p ⟨0, 0, 0⟩ ⟨0, 0, 0⟩ _ _ (sub_self_eq p)]
  exact h

/-- C8, witness: shooter and target at `(1, 2, 3)`, launch speed `3`. -/
theorem zero_displacement_witness :
    (0 : ℝ) < 3 ∧
    Polynomial2Js.calculateArrowAimDirection ⟨1, 2, 3⟩ ⟨1, 2, 3⟩ ⟨0, 0, 0⟩ 3 = none ∧
    Cydhranian2Js.calculateArrowAimDirection ⟨1, 2, 3⟩ ⟨1, 2, 3⟩ ⟨0, 0, 0⟩ FULLY_CHARGED_SPEED
      = some ⟨0, 1, 0⟩ :=
  ⟨by norm_num, (zero_displacement ⟨1, 2, 3⟩ 3 (by norm_num)).1,
    (zero_displacement ⟨1, 2, 3⟩ 3 (by norm_num)).2.2⟩

/-- C8, counterexample: with shooter and target at the origin, the target at rest and the
default launch speed `3.0`, the drag-model solver does not return `null`; nor does it with
launch speed `5/199`, where the coarse scan hits at `t = 2`. -/
theorem zero_displacement_counterexample :
    ((0 : ℝ) < 3.0 ∧
      Cydhranian2Js.calculateArrowAimDirection ⟨0, 0, 0⟩ ⟨0, 0, 0⟩ ⟨0, 0, 0⟩ 3.0 ≠ none) ∧
    ((0 : ℝ) < 5 / 199 ∧
      Cydhranian2Js.calculateArrowAimDirection ⟨0, 0, 0⟩ ⟨0, 0, 0⟩ ⟨0, 0, 0⟩ (5 / 199)
        ≠ none) := by
  refine ⟨⟨by norm_num, ?_⟩, ⟨by norm_num, ?_⟩⟩
  · rw [origin_default_speed]
    simp
  · rw [calculate_slow_launch]
    simp

end ClaimC8

/-! ### C2: the flight time of a returned direction -/

section ClaimC2

open Cydhranian2Js

theorem arrow_drag_rpow_continuous : Continuous (fun t : ℝ => ARROW_DRAG ^ t) :=
  continuous_const.rpow continuous_id (fun _ => Or.inl arrow_drag_pos.ne')

/-- On the real flight times `t >= 1` the magnitude is a continuous function of `t`. -/
theorem magnitudeAtT_continuousOn (g s : ℝ) (relPos v : Vector3) (hs : s ≠ 0) :
    ContinuousOn (fun t : ℝ => magnitudeAtT ARROW_DRAG g s relPos v t) (Set.Ici 1) := by
  have hden : ∀ t ∈ Set.Ici (1 : ℝ), s * (ARROW_DRAG ^ t - 1) ≠ 0 := by
    intro t ht
    have := arrow_drag_rpow_le t ht
    exact mul_ne_zero hs (by linarith)
  have hc := arrow_drag_rpow_continuous
  have hcden : ContinuousOn (fun t : ℝ => s * (ARROW_DRAG ^ t - 1)) (Set.Ici 1) :=
    (continuous_const.mul (hc.sub continuous_const)).continuousOn
  have hhf : ContinuousOn (fun t : ℝ => (ARROW_DRAG - 1) / (s * (ARROW_DRAG ^ t - 1)))
      (Set.Ici 1) := continuousOn_const.div hcden hden
  have hx : ContinuousOn (fun t : ℝ => (relPos.x + v.x * t)
      * ((ARROW_DRAG - 1) / (s * (ARROW_DRAG ^ t - 1)))) (Set.Ici 1) :=
    (continuous_const.add (continuous_const.mul continuous_id)).continuousOn.mul hhf
  have hz : ContinuousOn (fun t : ℝ => (relPos.z + v.z * t)
      * ((ARROW_DRAG - 1) / (s * (ARROW_DRAG ^ t - 1)))) (Set.Ici 1) :=
    (continuous_const.add (continuous_const.mul continuous_id)).continuousOn.mul hhf
  have hgrav : ContinuousOn (fun t : ℝ =>
      g * (ARROW_DRAG ^ t - ARROW_DRAG * t + t - 1) * (1 / (ARROW_DRAG - 1))
        / (s * (ARROW_DRAG ^ t - 1))) (Set.Ici 1) := by
    apply ContinuousOn.div _ hcden hden
    exact ((continuous_const.mul ((((hc.sub (continuous_const.mul continuous_id)).add
      continuous_id).sub continuous_const))).mul continuous_const).continuousOn
  have hy : ContinuousOn (fun t : ℝ => (relPos.y + v.y * t)
      * ((ARROW_DRAG - 1) / (s * (ARROW_DRAG ^ t - 1)))
      + g * (ARROW_DRAG ^ t - ARROW_DRAG * t + t - 1) * (1 / (ARROW_DRAG - 1))
        / (s * (ARROW_DRAG ^ t - 1))) (Set.Ici 1) :=
    ((continuous_const.add (continuous_const.mul continuous_id)).continuousOn.mul hhf).add hgrav
  have hall := (((hx.mul hx).add (hy.mul hy)).add (hz.mul hz)).sqrt
  refine hall.congr ?_
  intro t ht
  simp only [magnitudeAtT, directionAtT_arrow_drag_real g s relPos v t ht, Vector3.length]

theorem ahead_six_seven :
    1 ≤ magSqQ 3 ⟨0, 0, 20⟩ ⟨0, 0, 0⟩ 6 ∧ magSqQ 3 ⟨0, 0, 20⟩ ⟨0, 0, 0⟩ 7 ≤ 1 ∧
    magSqQ 3 ⟨0, 0, 20⟩ ⟨0, 0, 0⟩ 103 ≠ 1 := by
  decide!

/-- In the scenario of a target at rest twenty blocks ahead there is a real flight time
between 6 and 7 at which the direction has length exactly 1. -/
theorem ahead_exact_root :
    ∃ t : ℝ, 6 ≤ t ∧ t ≤ 7 ∧
      magnitudeAtT ARROW_DRAG ARROW_GRAVITY 3.0 ((⟨0, 0, 20⟩ : Vector3).sub ⟨0, 0, 0⟩)
        ⟨0, 0, 0⟩ t = 1 := by
  have hcont : ContinuousOn (fun t : ℝ => magnitudeAtT ARROW_DRAG ARROW_GRAVITY 3.0
      ((⟨0, 0, 20⟩ : Vector3).sub ⟨0, 0, 0⟩) ⟨0, 0, 0⟩ t) (Set.Icc 6 7) :=
    (magnitudeAtT_continuousOn ARROW_GRAVITY 3.0 _ _ (by norm_num)).mono
      (fun t ht => le_trans (by norm_num) ht.1)
  obtain ⟨h6, h7, -⟩ := ahead_six_seven
  have hm6 : 1 ≤ magnitudeAtT ARROW_DRAG ARROW_GRAVITY 3.0
      ((⟨0, 0, 20⟩ : Vector3).sub ⟨0, 0, 0⟩) ⟨0, 0, 0⟩ ((6 : ℕ) : ℝ) := by
    rw [ahead_relPos, ahead_velocity, ahead_speed,
      magnitudeAtT_rational 3 ⟨0, 0, 20⟩ ⟨0, 0, 0⟩ 6 (by norm_num),
      Real.le_sqrt' (by norm_num)]
    have : ((1 : ℚ) : ℝ) ≤ ((magSqQ 3 ⟨0, 0, 20⟩ ⟨0, 0, 0⟩ 6 : ℚ) : ℝ) := by exact_mod_cast h6
    simpa using this
  have hm7 : magnitudeAtT ARROW_DRAG ARROW_GRAVITY 3.0
      ((⟨0, 0, 20⟩ : Vector3).sub ⟨0, 0, 0⟩) ⟨0, 0, 0⟩ ((7 : ℕ) : ℝ) ≤ 1 := by
    rw [ahead_relPos, ahead_velocity, ahead_speed,
      magnitudeAtT_rational 3 ⟨0, 0, 20⟩ ⟨0, 0, 0⟩ 7 (by norm_num),
      Real.sqrt_le_left (by norm_num)]
    have : ((magSqQ 3 ⟨0, 0, 20⟩ ⟨0, 0, 0⟩ 7 : ℚ) : ℝ) ≤ ((1 : ℚ) : ℝ) := by exact_mod_cast h7
    simpa using this
  have hivt := intermediate_value_Icc' (show (6 : ℝ) ≤ 7 by norm_num) hcont
  have hmem : (1 : ℝ) ∈ Set.Icc
      (magnitudeAtT ARROW_DRAG ARROW_GRAVITY 3.0 ((⟨0, 0, 20⟩ : Vector3).sub ⟨0, 0, 0⟩)
        ⟨0, 0, 0⟩ 7)
      (magnitudeAtT ARROW_DRAG ARROW_GRAVITY 3.0 ((⟨0, 0, 20⟩ : Vector3).sub ⟨0, 0, 0⟩)
        ⟨0, 0, 0⟩ 6) := by
    constructor
    · exact_mod_cast hm7
    · exact_mod_cast hm6
  obtain ⟨t, ht, hft⟩ := hivt hmem
  exact ⟨t, ht.1, ht.2, hft⟩

theorem ahead_not_exact :
    magnitudeAtT ARROW_DRAG ARROW_GRAVITY 3.0 ((⟨0, 0, 20⟩ : Vector3).sub ⟨0, 0, 0⟩)
      ⟨0, 0, 0⟩ ((103 : ℕ) : ℝ) ≠ 1 := by
  rw [ahead_relPos, ahead_velocity, ahead_speed,
    magnitudeAtT_rational 3 ⟨0, 0, 20⟩ ⟨0, 0, 0⟩ 103 (by norm_num)]
  intro h
  rw [Real.sqrt_eq_one] at h
  exact ahead_six_seven.2.2 (by exact_mod_cast h)

theorem ahead_solveAt :
    solveAt ARROW_DRAG ARROW_GRAVITY ⟨0, 0, 0⟩ ⟨0, 0, 20⟩ ⟨0, 0, 0⟩ 3.0
      = some (((103 : ℕ) : ℝ),
          (directionAtT ARROW_DRAG ARROW_GRAVITY 3.0 ((⟨0, 0, 20⟩ : Vector3).sub ⟨0, 0, 0⟩)
            ⟨0, 0, 0⟩ ((103 : ℕ) : ℝ)).normalize) := by
  rw [solveAt_eq_scan ARROW_DRAG ARROW_GRAVITY _ _ _ 3.0 (by norm_num) arrow_drag_guard,
    ahead_scan.2.2]

/-- C2 (amended): for every input that passes the input guard, whenever the drag-model
solver returns a direction `d` computed at the flight time `tstar`, then
`d = normalize(direction(tstar))`, `1 <= tstar <= 300`, and one of three holds:
* `tstar` is the smallest whole time in `1..300` whose residual `| ||direction(t)|| - 1 |`
  is below `0.001` (return from the coarse scan);
* no whole time in `1..300` has a residual below `0.001`, the residual at `tstar` is below
  `0.001` and `tstar` lies within the bracket around the best sample (return from the
  bisection);
* no whole time in `1..300` has a residual below `0.001` and `tstar` is the best sample, the
  earliest whole time of least residual (fallback).
Nothing makes `tstar` an exact root of `||direction(t)|| = 1` or the smallest one. -/
theorem returned_time_origin (shooter target vel : Vector3) (s tstar : ℝ) (d : Vector3)
    (_hs : 0 < s)
    (h : solveAt ARROW_DRAG ARROW_GRAVITY shooter target vel s = some (tstar, d)) :
    Cydhranian2Js.calculateArrowAimDirection shooter target vel s = some d ∧
    d = (directionAtT ARROW_DRAG ARROW_GRAVITY s (target.sub shooter) vel tstar).normalize ∧
    1 ≤ tstar ∧ tstar ≤ 300 ∧
    ((∃ t0 : ℕ, tstar = (t0 : ℝ) ∧ 1 ≤ t0 ∧ t0 ≤ 300 ∧
        residualAt ARROW_DRAG ARROW_GRAVITY s (target.sub shooter) vel t0 < EPS ∧
        ∀ u : ℕ, 1 ≤ u → u < t0 →
          ¬ residualAt ARROW_DRAG ARROW_GRAVITY s (target.sub shooter) vel u < EPS) ∨
     ((∀ u : ℕ, 1 ≤ u → u ≤ 300 →
          ¬ residualAt ARROW_DRAG ARROW_GRAVITY s (target.sub shooter) vel u < EPS) ∧
      ∃ b : ℕ, 1 ≤ b ∧ b ≤ 300 ∧
        (∀ u : ℕ, 1 ≤ u → u ≤ 300 →
          residualAt ARROW_DRAG ARROW_GRAVITY s (target.sub shooter) vel b
            ≤ residualAt ARROW_DRAG ARROW_GRAVITY s (target.sub shooter) vel u) ∧
        (∀ u : ℕ, 1 ≤ u → u < b →
          residualAt ARROW_DRAG ARROW_GRAVITY s (target.sub shooter) vel b
            < residualAt ARROW_DRAG ARROW_GRAVITY s (target.sub shooter) vel u) ∧
        EPS < residualAt ARROW_DRAG ARROW_GRAVITY s (target.sub shooter) vel b ∧
        ((residualAt ARROW_DRAG ARROW_GRAVITY s (target.sub shooter) vel tstar < EPS ∧
            max 1 ((b : ℝ) - 20) ≤ tstar ∧ tstar ≤ min 300 ((b : ℝ) + 20)) ∨
         tstar = (b : ℝ)))) := by
  obtain ⟨hd, h1, h2, hcases⟩ := solveAt_time_cases _ _ _ _ _ s tstar d h
  have hmax : (MAX_T : ℝ) = 300 := by norm_num [MAX_T]
  rw [hmax] at h2 hcases
  refine ⟨?_, hd, h1, h2, hcases⟩
  unfold Cydhranian2Js.calculateArrowAimDirection
  rw [h]
  rfl

/-- C2, witness: a target at the shooter and at rest with launch speed `5/199`, where the
solver returns `(0, 1, 0)` computed at `t = 2`. -/
theorem returned_time_origin_witness :
    ((0 : ℝ) < 5 / 199 ∧
      solveAt ARROW_DRAG ARROW_GRAVITY ⟨0, 0, 0⟩ ⟨0, 0, 0⟩ ⟨0, 0, 0⟩ (5 / 199)
        = some (((2 : ℕ) : ℝ), ⟨0, 1, 0⟩)) ∧
    Cydhranian2Js.calculateArrowAimDirection ⟨0, 0, 0⟩ ⟨0, 0, 0⟩ ⟨0, 0, 0⟩ (5 / 199)
      = some ⟨0, 1, 0⟩ ∧
    (1 : ℝ) ≤ ((2 : ℕ) : ℝ) ∧ ((2 : ℕ) : ℝ) ≤ 300 :=
  ⟨⟨by norm_num, solveAt_slow_launch⟩,
    (returned_time_origin ⟨0, 0, 0⟩ ⟨0, 0, 0⟩ ⟨0, 0, 0⟩ (5 / 199) _ ⟨0, 1, 0⟩ (by norm_num)
      solveAt_slow_launch).1,
    (returned_time_origin ⟨0, 0, 0⟩ ⟨0, 0, 0⟩ ⟨0, 0, 0⟩ (5 / 199) _ ⟨0, 1, 0⟩ (by norm_num)
      solveAt_slow_launch).2.2.1,
    (returned_time_origin ⟨0, 0, 0⟩ ⟨0, 0, 0⟩ ⟨0, 0, 0⟩ (5 / 199) _ ⟨0, 1, 0⟩ (by norm_num)
      solveAt_slow_launch).2.2.2.1⟩

/-- C2, counterexample: with shooter `(0,0,0)`, a target at rest at `(0,0,20)` and launch
speed `3.0` the solver returns the direction computed at the flight time `103`, where the
direction does not have length 1, although there is a flight time `t` between 6 and 7 with
`||direction(t)|| = 1` exactly. -/
theorem returned_time_counterexample :
    (0 : ℝ) < 3.0 ∧
    solveAt ARROW_DRAG ARROW_GRAVITY ⟨0, 0, 0⟩ ⟨0, 0, 20⟩ ⟨0, 0, 0⟩ 3.0
      = some (((103 : ℕ) : ℝ),
          (directionAtT ARROW_DRAG ARROW_GRAVITY 3.0 ((⟨0, 0, 20⟩ : Vector3).sub ⟨0, 0, 0⟩)
            ⟨0, 0, 0⟩ ((103 : ℕ) : ℝ)).normalize) ∧
    (directionAtT ARROW_DRAG ARROW_GRAVITY 3.0 ((⟨0, 0, 20⟩ : Vector3).sub ⟨0, 0, 0⟩)
      ⟨0, 0, 0⟩ ((103 : ℕ) : ℝ)).length ≠ 1 ∧
    ∃ t : ℝ, 0 < t ∧ t < ((103 : ℕ) : ℝ) ∧
      (directionAtT ARROW_DRAG ARROW_GRAVITY 3.0 ((⟨0, 0, 20⟩ : Vector3).sub ⟨0, 0, 0⟩)
        ⟨0, 0, 0⟩ t).length = 1 := by
  refine ⟨by norm_num, ahead_solveAt, ahead_not_exact, ?_⟩
  obtain ⟨t, h1, h2, h3⟩ := ahead_exact_root
  refine ⟨t, by linarith, ?_, h3⟩
  have : ((103 : ℕ) : ℝ) = 103 := by norm_num
  rw [this]
  linarith

end ClaimC2

/-! ### C13: a non-positive launch speed and the guarded solvers -/

/-- C13: for every `shooterPos`, `targetPos` and `targetVelocity`, if `arrowSpeed <= 0` then
`calculateArrowAimDirection` of `cydhranian2.js` and `calculateArrowAimDirection` of
`polynomial2.js` both return `null`. -/
theorem nonpositive_speed_rejected (shooter target vel : Vector3) (s : ℝ) (hs : s ≤ 0) :
    Cydhranian2Js.calculateArrowAimDirection shooter target vel s = none ∧
    Polynomial2Js.calculateArrowAimDirection shooter target vel s = none := by
  constructor
  · simp only [Cydhranian2Js.calculateArrowAimDirection, Cydhranian2Js.solveAt, if_pos hs,
      Option.map_none']
  · simp only [Polynomial2Js.calculateArrowAimDirection, Polynomial2Js.solveAt, if_pos hs,
      Option.map_none']

/-- C13, witness: launch speed `-3` towards a target at `(0, 0, 20)`. -/
theorem nonpositive_speed_rejected_witness :
    (-3 : ℝ) ≤ 0 ∧
    Cydhranian2Js.calculateArrowAimDirection ⟨0, 0, 0⟩ ⟨0, 0, 20⟩ ⟨0, 0, 0⟩ (-3) = none ∧
    Polynomial2Js.calculateArrowAimDirection ⟨0, 0, 0⟩ ⟨0, 0, 20⟩ ⟨0, 0, 0⟩ (-3) = none :=
  ⟨by norm_num, nonpositive_speed_rejected ⟨0, 0, 0⟩ ⟨0, 0, 20⟩ ⟨0, 0, 0⟩ (-3) (by norm_num)⟩

/-! ### C15: a degenerate drag ratio -/

/-- C15: with the drag ratio `r` (and the gravity `g`) as parameters of the drag-model
solver of `cydhranian2.js`, for every other input, if `|r - 1| < 1e-12` the solver returns
`null`. -/
theorem degenerate_drag_rejected (r g : ℝ) (shooter target vel : Vector3) (s : ℝ)
    (hr : |r - 1| < 1e-12) :
    Cydhranian2Js.solveAt r g shooter target vel s = none ∧
    (Cydhranian2Js.solveAt r g shooter target vel s).map Prod.snd = none := by
  have h : Cydhranian2Js.solveAt r g shooter target vel s = none := by
    unfold Cydhranian2Js.solveAt
    split_ifs
    · rfl
    · simp only [if_pos hr]
  exact ⟨h, by rw [h]; rfl⟩

/-- C15, witness: the drag ratio `1`. -/
theorem degenerate_drag_rejected_witness :
    |(1 : ℝ) - 1| < 1e-12 ∧
    Cydhranian2Js.solveAt 1 0.05 ⟨0, 0, 0⟩ ⟨0, 0, 20⟩ ⟨0, 0, 0⟩ 3 = none :=
  ⟨by norm_num,
    (degenerate_drag_rejected 1 0.05 ⟨0, 0, 0⟩ ⟨0, 0, 20⟩ ⟨0, 0, 0⟩ 3 (by norm_num)).1⟩

/-! ### C16: zero gravity -/

/-- C16: with the gravity `g` as a parameter of the quadratic fallback of `polynomial2.js`,
for every other input, if `g = 0` the solver returns `null`: the coefficient `a` is `0`, the
discriminant `b * b` is not negative, and the test on the denominator `2 * a` rejects the
input before any division by it. -/
theorem zero_gravity_rejected (g : ℝ) (shooter target vel : Vector3) (s : ℝ) (hg : g = 0) :
    Polynomial2Js.coeffA g = 0 ∧
    ¬ (Polynomial2Js.coeffB g (target.sub shooter) vel s
          * Polynomial2Js.coeffB g (target.sub shooter) vel s
        - 4 * Polynomial2Js.coeffA g * Polynomial2Js.coeffC (target.sub shooter) vel s < 0) ∧
    |2 * Polynomial2Js.coeffA g| < 1e-12 ∧
    Polynomial2Js.selectedTime g (target.sub shooter) vel s = none ∧
    Polynomial2Js.solveAt g shooter target vel s = none ∧
    (Polynomial2Js.solveAt g shooter target vel s).map Prod.snd = none := by
  subst hg
  have ha : Polynomial2Js.coeffA 0 = 0 := by simp [Polynomial2Js.coeffA]
  have hdisc : ¬ (Polynomial2Js.coeffB 0 (target.sub shooter) vel s
          * Polynomial2Js.coeffB 0 (target.sub shooter) vel s
        - 4 * Polynomial2Js.coeffA 0 * Polynomial2Js.coeffC (target.sub shooter) vel s < 0) := by
    rw [ha, not_lt]
    nlinarith [mul_self_nonneg (Polynomial2Js.coeffB 0 (target.sub shooter) vel s)]
  have hden : |2 * Polynomial2Js.coeffA 0| < (1e-12 : ℝ) := by
    rw [ha]
    norm_num
  have hsel : Polynomial2Js.selectedTime 0 (target.sub shooter) vel s = none := by
    simp only [Polynomial2Js.selectedTime, if_neg hdisc, if_pos hden]
  have hsol : Polynomial2Js.solveAt 0 shooter target vel s = none := by
    unfold Polynomial2Js.solveAt
    split_ifs
    · rfl
    · simp only [hsel]
  exact ⟨ha, hdisc, hden, hsel, hsol, by rw [hsol]; rfl⟩

/-- C16, witness: gravity `0`, a target at rest at `(0, 10, 0)`, launch speed `3`. -/
theorem zero_gravity_rejected_witness :
    (0 : ℝ) = 0 ∧ Polynomial2Js.solveAt 0 ⟨0, 0, 0⟩ ⟨0, 10, 0⟩ ⟨0, 0, 0⟩ 3 = none :=
  ⟨rfl, (zero_gravity_rejected 0 ⟨0, 0, 0⟩ ⟨0, 10, 0⟩ ⟨0, 0, 0⟩ 3 rfl).2.2.2.2.1⟩

/-! ### C17: the best sample of the coarse scan -/

section ClaimC17

open Cydhranian2Js

/-- The state with which the coarse scan finishes records the earliest sample of least
residual among `1..MAX_T`, and no sample has a residual below `EPS`. -/
theorem scan_finished_best (r g s : ℝ) (relPos v : Vector3) (st : ScanState)
    (hfin : scanLoop r g s relPos v 1 ⟨none, ⊤⟩ = ScanOutcome.finished st) :
    (∀ u : ℕ, 1 ≤ u → u ≤ MAX_T → ¬ residualAt r g s relPos v u < EPS) ∧
    ∃ b : ℕ, st.bestT = some b ∧ 1 ≤ b ∧ b ≤ MAX_T ∧
      st.bestDiff = ((residualAt r g s relPos v b : ℝ) : WithTop ℝ) ∧
      (∀ u : ℕ, 1 ≤ u → u ≤ MAX_T → residualAt r g s relPos v b ≤ residualAt r g s relPos v u) ∧
      (∀ u : ℕ, 1 ≤ u → u < b → residualAt r g s relPos v b < residualAt r g s relPos v u) := by
  rcases scanLoop_spec r g s relPos v MAX_T 1 ⟨none, ⊤⟩ (by omega) (le_refl 1)
    (isBestSample_init _) with ⟨t0, -, -, -, -, h5⟩ | ⟨hno, st1, h2, h3⟩
  · rw [h5] at hfin
    cases hfin
  · rw [h2] at hfin
    have hst := ScanOutcome.finished.inj hfin
    rw [← hst]
    refine ⟨hno, ?_⟩
    obtain ⟨bt, bd⟩ := st1
    cases bt with
    | none =>
      simp only [IsBestSample, MAX_T] at h3
      omega
    | some b =>
      simp only [IsBestSample] at h3
      obtain ⟨hb1, hb2, hd, hmin, hfirst⟩ := h3
      exact ⟨b, rfl, hb1, hb2, hd, hmin, hfirst⟩

/-- C17: for every input that passes the input guard and for which the coarse scan of
`cydhranian2.js` finishes without returning, `bestT` is a whole number in `1..300`,
`bestDiff = | ||direction(bestT)|| - 1 |`, `bestDiff` is at most the residual of every whole
time in `1..300`, and `bestT` is the smallest whole time attaining that minimum. -/
theorem best_sample_tracking (shooter target vel : Vector3) (s : ℝ) (_hs : 0 < s)
    (st : ScanState)
    (hfin : scanLoop ARROW_DRAG ARROW_GRAVITY s (target.sub shooter) vel 1 ⟨none, ⊤⟩
      = ScanOutcome.finished st) :
    ∃ b : ℕ, st.bestT = some b ∧ 1 ≤ b ∧ b ≤ 300 ∧
      st.bestDiff
        = ((residualAt ARROW_DRAG ARROW_GRAVITY s (target.sub shooter) vel b : ℝ) : WithTop ℝ) ∧
      (∀ u : ℕ, 1 ≤ u → u ≤ 300 →
        residualAt ARROW_DRAG ARROW_GRAVITY s (target.sub shooter) vel b
          ≤ residualAt ARROW_DRAG ARROW_GRAVITY s (target.sub shooter) vel u) ∧
      (∀ u : ℕ, 1 ≤ u → u < b →
        residualAt ARROW_DRAG ARROW_GRAVITY s (target.sub shooter) vel b
          < residualAt ARROW_DRAG ARROW_GRAVITY s (target.sub shooter) vel u) :=
  (scan_finished_best ARROW_DRAG ARROW_GRAVITY s (target.sub shooter) vel st hfin).2

/-- A target a thousand blocks above the shooter with launch speed `3`: the coarse scan
finishes without returning. -/
theorem high_target_scan_finishes :
    ∃ st : ScanState,
      scanLoop ARROW_DRAG ARROW_GRAVITY 3 ((⟨0, 1000, 0⟩ : Vector3).sub ⟨0, 0, 0⟩) ⟨0, 0, 0⟩ 1
        ⟨none, ⊤⟩ = ScanOutcome.finished st := by
  rcases scanLoop_spec ARROW_DRAG ARROW_GRAVITY 3 ((⟨0, 1000, 0⟩ : Vector3).sub ⟨0, 0, 0⟩)
    ⟨0, 0, 0⟩ MAX_T 1 ⟨none, ⊤⟩ (by omega) (le_refl 1) (isBestSample_init _) with
    ⟨t0, h1, h2, h3, -, -⟩ | ⟨-, st1, h2, -⟩
  · exfalso
    have ha : (1 : ℝ) ≤ t0 := by exact_mod_cast h1
    have hb : (t0 : ℝ) ≤ 300 := by
      have : t0 ≤ 300 := h2
      exact_mod_cast this
    exact (high_target_residual t0 ha hb).2.1 h3
  · exact ⟨st1, h2⟩

/-- C17, witness: a target a thousand blocks above the shooter with launch speed `3`, where
the coarse scan finishes without returning. -/
theorem best_sample_tracking_witness :
    (0 : ℝ) < 3 ∧
    ∃ st : ScanState,
      scanLoop ARROW_DRAG ARROW_GRAVITY 3 ((⟨0, 1000, 0⟩ : Vector3).sub ⟨0, 0, 0⟩) ⟨0, 0, 0⟩ 1
        ⟨none, ⊤⟩ = ScanOutcome.finished st ∧
      ∃ b : ℕ, st.bestT = some b ∧ 1 ≤ b ∧ b ≤ 300 := by
  obtain ⟨st, hst⟩ := high_target_scan_finishes
  obtain ⟨b, h1, h2, h3, -⟩ :=
    best_sample_tracking ⟨0, 0, 0⟩ ⟨0, 1000, 0⟩ ⟨0, 0, 0⟩ 3 (by norm_num) st hst
  exact ⟨by norm_num, st, hst, b, h1, h2, h3⟩

end ClaimC17

/-! ### The bracket of the bisection in exact arithmetic -/

section BracketExact

open Cydhranian2Js

/-- A pass through the bisection body that continues replaces one end of the bracket by
the midpoint. -/
theorem bisectStep_narrowed (r g s : ℝ) (relPos v : Vector3) (low high l1 h1 : ℝ)
    (h : bisectStep r g s relPos v low high = BisectStep.narrowed l1 h1) :
    (l1 = low ∧ h1 = (low + high) * 0.5) ∨ (l1 = (low + high) * 0.5 ∧ h1 = high) := by
  rcases bisectStep_cases r g s relPos v low high with ⟨-, hret⟩ | ⟨-, hn | hn⟩
  · rw [hret] at h
    cases h
  · rw [hn] at h
    cases h
    exact Or.inl ⟨rfl, rfl⟩
  · rw [hn] at h
    cases h
    exact Or.inr ⟨rfl, rfl⟩

theorem bisectState_succ (r g s : ℝ) (relPos v : Vector3) (low high : ℝ) (i : ℕ)
    (l1 h1 : ℝ) (h : bisectState r g s relPos v low high (i + 1) = some (l1, h1)) :
    ∃ l h0, bisectState r g s relPos v low high i = some (l, h0) ∧
      bisectStep r g s relPos v l h0 = BisectStep.narrowed l1 h1 := by
  rw [bisectState] at h
  split at h
  · rename_i l h0 hprev
    split at h
    · rename_i l2 h2 hstep
      simp only [Option.some.injEq, Prod.mk.injEq] at h
      obtain ⟨e1, e2⟩ := h
      subst e1
      subst e2
      exact ⟨l, h0, hprev, hstep⟩
    · exact absurd h (by simp)
  · exact absurd h (by simp)

/-- The bracket at the start of iteration `i` lies inside the initial bracket, is non-empty,
has width `(high - low) / 2^i`, and the loop entered with the initial bracket continues from
it. -/
theorem bisectState_invariant (r g s : ℝ) (relPos v : Vector3) (low high : ℝ)
    (hle : low ≤ high) (i : ℕ) (l h : ℝ)
    (hst : bisectState r g s relPos v low high i = some (l, h)) :
    low ≤ l ∧ l ≤ h ∧ h ≤ high ∧ h - l = (high - low) / 2 ^ i ∧
    (i ≤ 70 → bisectLoop r g s relPos v 0 low high = bisectLoop r g s relPos v i l h) := by
  induction i generalizing l h with
  | zero =>
    simp only [bisectState, Option.some.injEq, Prod.mk.injEq] at hst
    obtain ⟨e1, e2⟩ := hst
    subst e1
    subst e2
    refine ⟨le_refl _, hle, le_refl _, by simp, fun _ => rfl⟩
  | succ k ih =>
    obtain ⟨l0, h0, hprev, hstep⟩ := bisectState_succ r g s relPos v low high k l h hst
    obtain ⟨a1, a2, a3, a4, a5⟩ := ih l0 h0 hprev
    have hloop : k + 1 ≤ 70 → bisectLoop r g s relPos v 0 low high
        = bisectLoop r g s relPos v (k + 1) l h := by
      intro hk
      rw [a5 (by omega)]
      have hk2 : k < 70 := by omega
      rw [bisectLoop, if_pos hk2, hstep]
    rcases bisectStep_narrowed r g s relPos v l0 h0 l h hstep with ⟨e1, e2⟩ | ⟨e1, e2⟩
    · subst e1
      subst e2
      refine ⟨a1, by norm_num; linarith, by norm_num; linarith, ?_, hloop⟩
      rw [pow_succ]
      field_simp
      field_simp at a4
      linarith
    · subst e1
      subst e2
      refine ⟨by norm_num; linarith, by norm_num; linarith, a3, ?_, hloop⟩
      rw [pow_succ]
      field_simp
      field_simp at a4
      linarith

end BracketExact

/-! ### The two quadratic fallbacks side by side -/

section TwoFallbacks

/-- The function `polynomial.js` in terms of its selected root. -/
theorem poly_solveAt_eq_selected (shooter target vel : Vector3) (s : ℝ) :
    PolynomialJs.solveAt shooter target vel s
      = match PolynomialJs.selectedTime shooter target vel s with
        | none => none
        | some t =>
          if (PolynomialJs.candidate PolynomialJs.ARROW_GRAVITY (target.sub shooter) vel t).length
              < 0.01 then none
          else some (t,
            (PolynomialJs.candidate PolynomialJs.ARROW_GRAVITY (target.sub shooter) vel
              t).normalize) := by
  unfold PolynomialJs.solveAt PolynomialJs.selectedTime
  simp only
  split_ifs with h1 h2 h3
  · rfl
  · rfl
  · simp only [if_pos h3]
  · simp only [if_neg h3]

/-- The two root-selection rules agree: the rule of `polynomial2.js` yields the time chosen
by `polynomial.js` when that time is positive, and `null` when it is not. -/
theorem chooseTime_agree (t1 t2 : ℝ) :
    Polynomial2Js.chooseTime t1 t2
      = if PolynomialJs.chooseTime t1 t2 ≤ 0 then none
        else some (PolynomialJs.chooseTime t1 t2) := by
  unfold Polynomial2Js.chooseTime PolynomialJs.chooseTime
  by_cases h1 : t1 > 0
  · by_cases h2 : t2 > 0
    · rcases lt_or_le t2 t1 with h | h
      · simp [h1, h2, h, min_eq_right h.le, not_le.mpr h2]
      · simp [h1, h2, not_lt.mpr h, min_eq_left h, not_le.mpr h1]
    · simp [h1, h2, not_le.mpr h1]
  · by_cases h2 : t2 > 0
    · simp [h1, h2, not_le.mpr h2]
    · simp [h1, h2, not_lt.mp h2]

/-- Both files select the same time. -/
theorem selectedTime_agree (shooter target vel : Vector3) (s : ℝ) :
    Polynomial2Js.selectedTime Polynomial2Js.ARROW_GRAVITY (target.sub shooter) vel s
      = PolynomialJs.selectedTime shooter target vel s := by
  have hden : ¬ |2 * (0.5 * (0.05 : ℝ))| < 1e-12 := by
    rw [abs_of_nonneg (by norm_num)]
    norm_num
  simp only [Polynomial2Js.selectedTime, PolynomialJs.selectedTime, Polynomial2Js.coeffA,
    Polynomial2Js.coeffB, Polynomial2Js.coeffC, Polynomial2Js.ARROW_GRAVITY,
    PolynomialJs.ARROW_GRAVITY, if_neg hden, chooseTime_agree]

/-- The function `polynomial2.js` in terms of the root selected by `polynomial.js`, for a
positive launch speed. -/
theorem poly2_solveAt_eq_selected (shooter target vel : Vector3) (s : ℝ) (hs : 0 < s) :
    Polynomial2Js.solveAt Polynomial2Js.ARROW_GRAVITY shooter target vel s
      = match PolynomialJs.selectedTime shooter target vel s with
        | none => none
        | some t =>
          if t ≤ 0 ∨ t > 1e6 then none
          else if (PolynomialJs.candidate PolynomialJs.ARROW_GRAVITY (target.sub shooter) vel
              t).length < 0.01 then none
          else some (t,
            (PolynomialJs.candidate PolynomialJs.ARROW_GRAVITY (target.sub shooter) vel
              t).normalize) := by
  have hs0 : ¬ s ≤ 0 := not_le.mpr hs
  simp only [Polynomial2Js.solveAt, if_neg hs0, selectedTime_agree]
  rfl

/-- A time selected by `polynomial.js` is positive. -/
theorem poly_selectedTime_pos (shooter target vel : Vector3) (s t : ℝ)
    (h : PolynomialJs.selectedTime shooter target vel s = some t) : 0 < t := by
  unfold PolynomialJs.selectedTime at h
  simp only at h
  split_ifs at h with h1 h2
  simp only [Option.some.injEq] at h
  rw [← h]
  exact not_le.mp h2

end TwoFallbacks

/-! ### The guarded quadratic fallback against the exported one, in exact arithmetic -/

/-- In exact arithmetic (every number finite, no rounding), for every input with
`arrowSpeed > 0`, the two root-selection rules pick the same time; `calculateArrowAimDirection` of `polynomial2.js` returns `null` if the root `t`
selected by `polynomial.js` exceeds `1e6`, and otherwise returns exactly what
`calculateArrowAimDirection` of `polynomial.js` returns (`null` or the same direction). -/
theorem guarded_refines_exported (shooter target vel : Vector3) (s : ℝ) (hs : 0 < s) :
    (∀ t1 t2 : ℝ, Polynomial2Js.chooseTime t1 t2
      = if PolynomialJs.chooseTime t1 t2 ≤ 0 then none
        else some (PolynomialJs.chooseTime t1 t2)) ∧
    Polynomial2Js.selectedTime Polynomial2Js.ARROW_GRAVITY (target.sub shooter) vel s
      = PolynomialJs.selectedTime shooter target vel s ∧
    (∀ t : ℝ, PolynomialJs.selectedTime shooter target vel s = some t → t > 1e6 →
      Polynomial2Js.calculateArrowAimDirection shooter target vel s = none) ∧
    ((∀ t : ℝ, PolynomialJs.selectedTime shooter target vel s = some t → t ≤ 1e6) →
      Polynomial2Js.calculateArrowAimDirection shooter target vel s
        = PolynomialJs.calculateArrowAimDirection shooter target vel s) := by
  refine ⟨chooseTime_agree, selectedTime_agree shooter target vel s, ?_, ?_⟩
  · intro t ht hbig
    unfold Polynomial2Js.calculateArrowAimDirection
    rw [poly2_solveAt_eq_selected shooter target vel s hs, ht]
    simp only [hbig, or_true, if_true, Option.map_none']
  · intro hsmall
    unfold Polynomial2Js.calculateArrowAimDirection PolynomialJs.calculateArrowAimDirection
    rw [poly2_solveAt_eq_selected shooter target vel s hs, poly_solveAt_eq_selected]
    cases hsel : PolynomialJs.selectedTime shooter target vel s with
    | none => rfl
    | some t =>
      have h1 : ¬ (t ≤ 0 ∨ t > 1e6) := by
        rw [not_or, not_le, not_lt]
        exact ⟨poly_selectedTime_pos shooter target vel s t hsel, hsmall t hsel⟩
      simp only [if_neg h1]

/-! ### The minimum-length threshold of the quadratic fallback, in exact arithmetic -/

section LengthExact

theorem length_hundredth : (⟨0.01, 0, 0⟩ : Vector3).length = 0.01 := by
  unfold Vector3.length
  rw [show (0.01 : ℝ) * 0.01 + 0 * 0 + 0 * 0 = 0.01 * 0.01 by norm_num]
  exact Real.sqrt_mul_self (by norm_num)

theorem normalize_hundredth : (⟨0.01, 0, 0⟩ : Vector3).normalize = ⟨1, 0, 0⟩ := by
  unfold Vector3.normalize
  rw [length_hundredth]
  ext <;> norm_num

/-- With the shooter at the origin, a target at rest at `(0.01, 40, 0)` and launch speed `3`,
`polynomial2.js` selects the root `t = 40`. -/
theorem poly2_selectedTime_edge :
    Polynomial2Js.selectedTime Polynomial2Js.ARROW_GRAVITY
      ((⟨0.01, 40, 0⟩ : Vector3).sub ⟨0, 0, 0⟩) ⟨0, 0, 0⟩ 3 = some 40 := by
  rw [poly2_selectedTime_of_coeffs Polynomial2Js.ARROW_GRAVITY _ _ 3 0.025 (-1) 0 1 1
    (by norm_num [Polynomial2Js.coeffA, Polynomial2Js.ARROW_GRAVITY])
    (by norm_num [Polynomial2Js.coeffB, Polynomial2Js.ARROW_GRAVITY, Vector3.sub])
    (by norm_num [Polynomial2Js.coeffC, Vector3.sub])
    (by norm_num) (by norm_num) Real.sqrt_one
    (by rw [abs_of_nonneg (by norm_num)]; norm_num)]
  norm_num [Polynomial2Js.chooseTime]

/-- At that root the candidate vector is `(0.01, 0, 0)`, of length exactly `0.01`. -/
theorem candidate_edge :
    Polynomial2Js.candidate Polynomial2Js.ARROW_GRAVITY
      ((⟨0.01, 40, 0⟩ : Vector3).sub ⟨0, 0, 0⟩) ⟨0, 0, 0⟩ 40 = ⟨0.01, 0, 0⟩ := by
  simp only [Polynomial2Js.candidate, Polynomial2Js.ARROW_GRAVITY, Vector3.sub]
  ext <;> norm_num

theorem poly2_solveAt_edge :
    Polynomial2Js.solveAt Polynomial2Js.ARROW_GRAVITY ⟨0, 0, 0⟩ ⟨0.01, 40, 0⟩ ⟨0, 0, 0⟩ 3
      = some (40, ⟨1, 0, 0⟩) := by
  have hs : ¬ ((3 : ℝ) ≤ 0) := by norm_num
  have hguard : ¬ ((40 : ℝ) ≤ 0 ∨ (40 : ℝ) > 1e6) := by norm_num
  have hlen : ¬ ((0.01 : ℝ) < 0.01) := lt_irrefl _
  simp only [Polynomial2Js.solveAt, if_neg hs, poly2_selectedTime_edge, if_neg hguard,
    candidate_edge, length_hundredth, if_neg hlen, normalize_hundredth]

theorem poly_selectedTime_edge :
    PolynomialJs.selectedTime ⟨0, 0, 0⟩ ⟨0.01, 40, 0⟩ ⟨0, 0, 0⟩ 3 = some 40 := by
  rw [← selectedTime_agree]
  exact poly2_selectedTime_edge

theorem poly_solveAt_edge :
    PolynomialJs.solveAt ⟨0, 0, 0⟩ ⟨0.01, 40, 0⟩ ⟨0, 0, 0⟩ 3 = some (40, ⟨1, 0, 0⟩) := by
  have hlen : ¬ ((0.01 : ℝ) < 0.01) := lt_irrefl _
  have hcand : PolynomialJs.candidate PolynomialJs.ARROW_GRAVITY
      ((⟨0.01, 40, 0⟩ : Vector3).sub ⟨0, 0, 0⟩) ⟨0, 0, 0⟩ 40 = ⟨0.01, 0, 0⟩ := candidate_edge
  rw [poly_solveAt_eq_selected, poly_selectedTime_edge]
  simp only [hcand, length_hundredth, if_neg hlen, normalize_hundredth]

/-- In exact arithmetic, for every input, in `polynomial2.js` and in `polynomial.js` alike, if the
candidate vector `(relPos.x + v.x*t, relPos.y + v.y*t - 0.5*g*t^2, relPos.z + v.z*t)` at the
selected root `t` has length below `0.01`, the solver returns `null`; a direction is returned
only when that length is at least `0.01`. -/
theorem minimum_length_threshold (shooter target vel : Vector3) (s : ℝ) :
    ((∀ t : ℝ,
        Polynomial2Js.selectedTime Polynomial2Js.ARROW_GRAVITY (target.sub shooter) vel s
          = some t →
        (Polynomial2Js.candidate Polynomial2Js.ARROW_GRAVITY (target.sub shooter) vel t).length
          < 0.01 →
        Polynomial2Js.calculateArrowAimDirection shooter target vel s = none) ∧
      (∀ (t : ℝ) (d : Vector3),
        Polynomial2Js.solveAt Polynomial2Js.ARROW_GRAVITY shooter target vel s = some (t, d) →
        Polynomial2Js.selectedTime Polynomial2Js.ARROW_GRAVITY (target.sub shooter) vel s
          = some t ∧
        0.01 ≤ (Polynomial2Js.candidate Polynomial2Js.ARROW_GRAVITY (target.sub shooter) vel
          t).length)) ∧
    ((∀ t : ℝ, PolynomialJs.selectedTime shooter target vel s = some t →
        (PolynomialJs.candidate PolynomialJs.ARROW_GRAVITY (target.sub shooter) vel t).length
          < 0.01 →
        PolynomialJs.calculateArrowAimDirection shooter target vel s = none) ∧
      (∀ (t : ℝ) (d : Vector3), PolynomialJs.solveAt shooter target vel s = some (t, d) →
        PolynomialJs.selectedTime shooter target vel s = some t ∧
        0.01 ≤ (PolynomialJs.candidate PolynomialJs.ARROW_GRAVITY (target.sub shooter) vel
          t).length)) := by
  refine ⟨⟨?_, ?_⟩, ⟨?_, ?_⟩⟩
  · intro t hsel hlen
    unfold Polynomial2Js.calculateArrowAimDirection Polynomial2Js.solveAt
    split_ifs with hs
    · rfl
    · simp only [hsel]
      split_ifs
      · rfl
      · simp only [if_pos hlen, Option.map_none']
  · intro t d hsol
    obtain ⟨-, hsel, -, -, hlen, -⟩ := poly2_solveAt_some_shape _ shooter target vel s t d hsol
    exact ⟨hsel, not_lt.mp hlen⟩
  · intro t hsel hlen
    unfold PolynomialJs.calculateArrowAimDirection
    rw [poly_solveAt_eq_selected, hsel]
    simp only [if_pos hlen, Option.map_none']
  · intro t d hsol
    rw [poly_solveAt_eq_selected] at hsol
    cases hsel : PolynomialJs.selectedTime shooter target vel s with
    | none =>
      rw [hsel] at hsol
      exact absurd hsol (by simp)
    | some t1 =>
      rw [hsel] at hsol
      simp only at hsol
      split_ifs at hsol with hlen
      simp only [Option.some.injEq, Prod.mk.injEq] at hsol
      obtain ⟨ht, -⟩ := hsol
      subst ht
      exact ⟨rfl, not_lt.mp hlen⟩

/-- The boundary in exact arithmetic: with the shooter at the origin, a target at rest at `(0.01, 40, 0)`
and launch speed `3`, the selected root is `t = 40` and the candidate vector `(0.01, 0, 0)`
has length exactly `0.01`, hence `<= 0.01`, yet `polynomial2.js` and `polynomial.js` both
return the direction `(1, 0, 0)`. -/
theorem exact_length_boundary :
    Polynomial2Js.selectedTime Polynomial2Js.ARROW_GRAVITY
      ((⟨0.01, 40, 0⟩ : Vector3).sub ⟨0, 0, 0⟩) ⟨0, 0, 0⟩ 3 = some 40 ∧
    PolynomialJs.selectedTime ⟨0, 0, 0⟩ ⟨0.01, 40, 0⟩ ⟨0, 0, 0⟩ 3 = some 40 ∧
    (Polynomial2Js.candidate Polynomial2Js.ARROW_GRAVITY
      ((⟨0.01, 40, 0⟩ : Vector3).sub ⟨0, 0, 0⟩) ⟨0, 0, 0⟩ 40).length ≤ 0.01 ∧
    Polynomial2Js.calculateArrowAimDirection ⟨0, 0, 0⟩ ⟨0.01, 40, 0⟩ ⟨0, 0, 0⟩ 3
      = some ⟨1, 0, 0⟩ ∧
    PolynomialJs.calculateArrowAimDirection ⟨0, 0, 0⟩ ⟨0.01, 40, 0⟩ ⟨0, 0, 0⟩ 3
      = some ⟨1, 0, 0⟩ := by
  refine ⟨poly2_selectedTime_edge, poly_selectedTime_edge, ?_, ?_, ?_⟩
  · rw [candidate_edge, length_hundredth]
  · unfold Polynomial2Js.calculateArrowAimDirection
    rw [poly2_solveAt_edge]
    rfl
  · unfold PolynomialJs.calculateArrowAimDirection
    rw [poly_solveAt_edge]
    rfl

end LengthExact

/-! ### When the drag-model solver returns `null`, in exact arithmetic -/

section NullExact

open Cydhranian2Js

/-- The refinement for a state whose `bestT` is the sample `b`. -/
theorem refine_eq (r g s : ℝ) (relPos v : Vector3) (st : ScanState) (b : ℕ)
    (hbt : st.bestT = some b) :
    refine r g s relPos v st
      = if (EPS : WithTop ℝ) < st.bestDiff then
          match bisectLoop r g s relPos v 0 (max 1 ((b : ℝ) - 20))
              (min (MAX_T : ℝ) ((b : ℝ) + 20)) with
          | some res => res
          | none => accept b (directionAtT r g s relPos v b)
        else none := by
  unfold refine
  rw [hbt]

/-- Every way the refinement can end, for the state with which the coarse scan finished. -/
theorem refine_cases (r g s : ℝ) (relPos v : Vector3) (st : ScanState)
    (hfin : scanLoop r g s relPos v 1 ⟨none, ⊤⟩ = ScanOutcome.finished st) :
    ∃ b : ℕ, st.bestT = some b ∧ 1 ≤ b ∧ b ≤ MAX_T ∧
      st.bestDiff = ((residualAt r g s relPos v b : ℝ) : WithTop ℝ) ∧
      EPS ≤ residualAt r g s relPos v b ∧
      ((residualAt r g s relPos v b = EPS ∧ refine r g s relPos v st = none) ∨
       (EPS < residualAt r g s relPos v b ∧
          ∃ res : ℝ × Vector3, refine r g s relPos v st = some res) ∨
       (EPS < residualAt r g s relPos v b ∧
          bisectLoop r g s relPos v 0 (max 1 ((b : ℝ) - 20))
            (min (MAX_T : ℝ) ((b : ℝ) + 20)) = none ∧
          (directionAtT r g s relPos v b).length < 0.01 ∧
          refine r g s relPos v st = none)) := by
  obtain ⟨hno, b, hbt, hb1, hb2, hd, -, -⟩ := scan_finished_best r g s relPos v st hfin
  have hge : EPS ≤ residualAt r g s relPos v b := not_lt.mp (hno b hb1 hb2)
  refine ⟨b, hbt, hb1, hb2, hd, hge, ?_⟩
  rw [refine_eq r g s relPos v st b hbt, hd]
  rcases eq_or_lt_of_le hge with heq | hlt
  · left
    have hnot : ¬ ((EPS : WithTop ℝ) < ((residualAt r g s relPos v b : ℝ) : WithTop ℝ)) := by
      rw [WithTop.coe_lt_coe, ← heq]
      exact lt_irrefl _
    exact ⟨heq.symm, by rw [if_neg hnot]⟩
  · right
    have hyes : (EPS : WithTop ℝ) < ((residualAt r g s relPos v b : ℝ) : WithTop ℝ) :=
      WithTop.coe_lt_coe.mpr hlt
    rw [if_pos hyes]
    obtain ⟨-, hbr, -⟩ := bracket_bounds b hb1 hb2
    rcases bisectLoop_spec r g s relPos v 70 0 _ _ (by omega) hbr with
      h0 | ⟨mid, -, -, -, hm4⟩
    · simp only [h0]
      by_cases hlen : (directionAtT r g s relPos v b).length < 0.01
      · right
        exact ⟨hlt, trivial, hlen, (accept_eq_none_iff _ _).mpr hlen⟩
      · left
        exact ⟨hlt, _, (accept_eq_some_iff _ _ _).mpr ⟨hlen, rfl⟩⟩
    · left
      simp only [hm4]
      exact ⟨hlt, _, rfl⟩

/-- In exact arithmetic, for every input that passes the input guard, the drag-model solver of
`cydhranian2.js` returns `null` only when the coarse scan finds no whole time with residual
below `0.001` and either the least residual `bestDiff` equals `0.001` exactly (the test
`bestDiff > EPS` then skips the refinement and the fallback), or the bisection finds no time
within tolerance and the best sample `direction(bestT)` has length below `0.01`.  Whenever no
whole time meets the tolerance, `bestDiff` differs from `0.001` and `direction(bestT)` has
length at least `0.01`, the refinement and, if it fails, the best-sample fallback are run and
a direction is returned. -/
theorem failure_conditions (shooter target vel : Vector3) (s : ℝ) (hs : 0 < s) :
    (Cydhranian2Js.calculateArrowAimDirection shooter target vel s = none →
      ∃ (st : ScanState) (b : ℕ),
        scanLoop ARROW_DRAG ARROW_GRAVITY s (target.sub shooter) vel 1 ⟨none, ⊤⟩
          = ScanOutcome.finished st ∧
        st.bestT = some b ∧
        st.bestDiff = ((residualAt ARROW_DRAG ARROW_GRAVITY s (target.sub shooter) vel b : ℝ)
          : WithTop ℝ) ∧
        (∀ u : ℕ, 1 ≤ u → u ≤ 300 →
          ¬ residualAt ARROW_DRAG ARROW_GRAVITY s (target.sub shooter) vel u < EPS) ∧
        (residualAt ARROW_DRAG ARROW_GRAVITY s (target.sub shooter) vel b = EPS ∨
          (EPS < residualAt ARROW_DRAG ARROW_GRAVITY s (target.sub shooter) vel b ∧
            bisectLoop ARROW_DRAG ARROW_GRAVITY s (target.sub shooter) vel 0
              (max 1 ((b : ℝ) - 20)) (min (MAX_T : ℝ) ((b : ℝ) + 20)) = none ∧
            (directionAtT ARROW_DRAG ARROW_GRAVITY s (target.sub shooter) vel b).length
              < 0.01))) ∧
    (∀ (st : ScanState) (b : ℕ),
      scanLoop ARROW_DRAG ARROW_GRAVITY s (target.sub shooter) vel 1 ⟨none, ⊤⟩
        = ScanOutcome.finished st →
      st.bestT = some b → st.bestDiff ≠ ((EPS : ℝ) : WithTop ℝ) →
      0.01 ≤ (directionAtT ARROW_DRAG ARROW_GRAVITY s (target.sub shooter) vel b).length →
      ∃ d : Vector3,
        Cydhranian2Js.calculateArrowAimDirection shooter target vel s = some d) := by
  have hsolve := solveAt_eq_scan ARROW_DRAG ARROW_GRAVITY shooter target vel s hs
    arrow_drag_guard
  constructor
  · intro hnone
    unfold Cydhranian2Js.calculateArrowAimDirection at hnone
    rw [Option.map_eq_none'] at hnone
    rcases scanLoop_spec ARROW_DRAG ARROW_GRAVITY s (target.sub shooter) vel MAX_T 1 ⟨none, ⊤⟩
      (by omega) (le_refl 1) (isBestSample_init _) with
      ⟨t0, -, -, h3, -, h5⟩ | ⟨hno, st1, h2, -⟩
    · rw [hsolve, h5, accept_of_residual_lt _ _ _ _ _ _ h3] at hnone
      exact absurd hnone (by simp)
    · obtain ⟨b, hbt, -, -, hd, -, hcase⟩ :=
        refine_cases ARROW_DRAG ARROW_GRAVITY s (target.sub shooter) vel st1 h2
      rw [hsolve, h2] at hnone
      simp only at hnone
      refine ⟨st1, b, h2, hbt, hd, hno, ?_⟩
      rcases hcase with ⟨heq, -⟩ | ⟨-, res, hres⟩ | ⟨hlt, hb0, hlen, -⟩
      · exact Or.inl heq
      · rw [hres] at hnone
        exact absurd hnone (by simp)
      · exact Or.inr ⟨hlt, hb0, hlen⟩
  · intro st b hfin hbt hne hlen
    obtain ⟨b1, hbt1, -, -, hd, -, hcase⟩ :=
      refine_cases ARROW_DRAG ARROW_GRAVITY s (target.sub shooter) vel st hfin
    rw [hbt] at hbt1
    have hb : b = b1 := Option.some.inj hbt1
    subst hb
    unfold Cydhranian2Js.calculateArrowAimDirection
    rw [hsolve, hfin]
    simp only
    rcases hcase with ⟨heq, -⟩ | ⟨-, res, hres⟩ | ⟨-, -, hsmall, -⟩
    · exfalso
      apply hne
      rw [hd, heq]
    · rw [hres]
      exact ⟨res.2, rfl⟩
    · exfalso
      linarith

theorem edge_misses :
    ∀ t ∈ Finset.Icc 1 300, ¬ hitQ (magSqQ (5000 / 199199) ⟨0, 0, 0⟩ ⟨0, 0, 0⟩ t) := by
  decide!

theorem edge_two :
    magSqQ (5000 / 199199) ⟨0, 0, 0⟩ ⟨0, 0, 0⟩ 2 = (1001 / 1000) * (1001 / 1000) ∧
    magSqQ (5000 / 199199) ⟨0, 0, 0⟩ ⟨0, 0, 0⟩ 1 = 0 := by
  decide!

theorem edge_speed : (5000 / 199199 : ℝ) = ((5000 / 199199 : ℚ) : ℝ) := by norm_num

/-- With a target at the shooter and at rest and launch speed `5000/199199`, no whole time
in `1..300` has a residual below `EPS`. -/
theorem edge_no_hit (u : ℕ) (hu1 : 1 ≤ u) (hu2 : u ≤ MAX_T) :
    ¬ residualAt ARROW_DRAG ARROW_GRAVITY (5000 / 199199)
      ((⟨0, 0, 0⟩ : Vector3).sub ⟨0, 0, 0⟩) ⟨0, 0, 0⟩ u < EPS := by
  rw [origin_relPos, ahead_velocity, edge_speed,
    residual_lt_iff_hitQ (5000 / 199199) ⟨0, 0, 0⟩ ⟨0, 0, 0⟩ u hu1]
  exact edge_misses u (Finset.mem_Icc.mpr ⟨hu1, hu2⟩)

/-- With a target at the shooter and at rest and launch speed `5000/199199`, the direction
at `t = 2` has length exactly `1.001`, so its residual is exactly `EPS`; the direction at
`t = 1` has length `0`. -/
theorem edge_lengths :
    (directionAtT ARROW_DRAG ARROW_GRAVITY (5000 / 199199)
      ((⟨0, 0, 0⟩ : Vector3).sub ⟨0, 0, 0⟩) ⟨0, 0, 0⟩ ((2 : ℕ) : ℝ)).length = 1.001 ∧
    residualAt ARROW_DRAG ARROW_GRAVITY (5000 / 199199)
      ((⟨0, 0, 0⟩ : Vector3).sub ⟨0, 0, 0⟩) ⟨0, 0, 0⟩ ((2 : ℕ) : ℝ) = EPS ∧
    residualAt ARROW_DRAG ARROW_GRAVITY (5000 / 199199)
      ((⟨0, 0, 0⟩ : Vector3).sub ⟨0, 0, 0⟩) ⟨0, 0, 0⟩ ((1 : ℕ) : ℝ) = 1 := by
  have h2 : magnitudeAtT ARROW_DRAG ARROW_GRAVITY (5000 / 199199)
      ((⟨0, 0, 0⟩ : Vector3).sub ⟨0, 0, 0⟩) ⟨0, 0, 0⟩ ((2 : ℕ) : ℝ) = 1.001 := by
    rw [origin_relPos, ahead_velocity, edge_speed,
      magnitudeAtT_rational (5000 / 199199) ⟨0, 0, 0⟩ ⟨0, 0, 0⟩ 2 (by norm_num), edge_two.1]
    push_cast
    rw [Real.sqrt_mul_self (by norm_num)]
    norm_num
  have h1 : magnitudeAtT ARROW_DRAG ARROW_GRAVITY (5000 / 199199)
      ((⟨0, 0, 0⟩ : Vector3).sub ⟨0, 0, 0⟩) ⟨0, 0, 0⟩ ((1 : ℕ) : ℝ) = 0 := by
    rw [origin_relPos, ahead_velocity, edge_speed,
      magnitudeAtT_rational (5000 / 199199) ⟨0, 0, 0⟩ ⟨0, 0, 0⟩ 1 (by norm_num), edge_two.2]
    simp
  refine ⟨h2, ?_, ?_⟩
  · unfold residualAt
    rw [h2]
    norm_num [EPS]
  · unfold residualAt
    rw [h1]
    norm_num

/-- With a target at the shooter and at rest and launch speed `5000/199199`, the coarse scan
finishes with `bestT = 2` and `bestDiff = EPS`, and the solver returns `null`. -/
theorem edge_scan :
    ∃ st : ScanState,
      scanLoop ARROW_DRAG ARROW_GRAVITY (5000 / 199199)
        ((⟨0, 0, 0⟩ : Vector3).sub ⟨0, 0, 0⟩) ⟨0, 0, 0⟩ 1 ⟨none, ⊤⟩
        = ScanOutcome.finished st ∧
      st.bestT = some 2 ∧ st.bestDiff = ((EPS : ℝ) : WithTop ℝ) ∧
      refine ARROW_DRAG ARROW_GRAVITY (5000 / 199199)
        ((⟨0, 0, 0⟩ : Vector3).sub ⟨0, 0, 0⟩) ⟨0, 0, 0⟩ st = none := by
  rcases scanLoop_spec ARROW_DRAG ARROW_GRAVITY (5000 / 199199)
    ((⟨0, 0, 0⟩ : Vector3).sub ⟨0, 0, 0⟩) ⟨0, 0, 0⟩ MAX_T 1 ⟨none, ⊤⟩ (by omega) (le_refl 1)
    (isBestSample_init _) with ⟨t0, h1, h2, h3, -, -⟩ | ⟨-, st1, hfin, -⟩
  · exact absurd h3 (edge_no_hit t0 h1 h2)
  · obtain ⟨-, b, hbt, hb1, hb2, hd, hmin, hfirst⟩ := scan_finished_best _ _ _ _ _ st1 hfin
    obtain ⟨-, hr2, hr1⟩ := edge_lengths
    have hge : EPS ≤ residualAt ARROW_DRAG ARROW_GRAVITY (5000 / 199199)
        ((⟨0, 0, 0⟩ : Vector3).sub ⟨0, 0, 0⟩) ⟨0, 0, 0⟩ b := not_lt.mp (edge_no_hit b hb1 hb2)
    have hle := hmin 2 (by norm_num) (by norm_num [MAX_T])
    rw [hr2] at hle
    have heq : residualAt ARROW_DRAG ARROW_GRAVITY (5000 / 199199)
        ((⟨0, 0, 0⟩ : Vector3).sub ⟨0, 0, 0⟩) ⟨0, 0, 0⟩ b = EPS := le_antisymm hle hge
    have hb : b = 2 := by
      rcases Nat.lt_or_ge 2 b with hlt | hge2
      · have := hfirst 2 (by norm_num) hlt
        rw [hr2, heq] at this
        exact absurd this (lt_irrefl _)
      · rcases Nat.eq_or_lt_of_le hge2 with h | h
        · exact h
        · have hb0 : b = 1 := by omega
          rw [hb0, hr1] at heq
          norm_num [EPS] at heq
    subst hb
    refine ⟨st1, hfin, hbt, by rw [hd, heq], ?_⟩
    rcases refine_cases _ _ _ _ _ st1 hfin with ⟨b1, hbt1, -, -, -, -, hcase⟩
    rw [hbt] at hbt1
    have hb : 2 = b1 := Option.some.inj hbt1
    subst hb
    rcases hcase with ⟨-, hnone⟩ | ⟨hlt, -⟩ | ⟨hlt, -⟩
    · exact hnone
    · rw [heq] at hlt
      exact absurd hlt (lt_irrefl _)
    · rw [heq] at hlt
      exact absurd hlt (lt_irrefl _)

theorem edge_calculate :
    Cydhranian2Js.calculateArrowAimDirection ⟨0, 0, 0⟩ ⟨0, 0, 0⟩ ⟨0, 0, 0⟩ (5000 / 199199)
      = none := by
  obtain ⟨st, hfin, -, -, href⟩ := edge_scan
  unfold Cydhranian2Js.calculateArrowAimDirection
  rw [solveAt_eq_scan ARROW_DRAG ARROW_GRAVITY _ _ _ _ (by norm_num) arrow_drag_guard, hfin]
  simp only [href, Option.map_none']

/-- Exact arithmetic only (a residual of a double is never `0.001`, see
`dyadic_residual_ne_eps`): with a target at the shooter and at rest and launch speed
`5000/199199`, no whole time in `1..300` has a residual below `0.001`, the coarse scan
finishes with `bestT = 2`, and `direction(bestT)` has length `1.001`, which exceeds `0.01`;
yet the solver returns `null`, because `bestDiff` equals `0.001` exactly. -/
theorem exact_residual_at_threshold :
    (0 : ℝ) < 5000 / 199199 ∧
    (∀ u : ℕ, 1 ≤ u → u ≤ 300 →
      ¬ residualAt ARROW_DRAG ARROW_GRAVITY (5000 / 199199)
        ((⟨0, 0, 0⟩ : Vector3).sub ⟨0, 0, 0⟩) ⟨0, 0, 0⟩ u < EPS) ∧
    (∃ st : ScanState,
      scanLoop ARROW_DRAG ARROW_GRAVITY (5000 / 199199)
        ((⟨0, 0, 0⟩ : Vector3).sub ⟨0, 0, 0⟩) ⟨0, 0, 0⟩ 1 ⟨none, ⊤⟩
        = ScanOutcome.finished st ∧
      st.bestT = some 2 ∧ st.bestDiff = ((EPS : ℝ) : WithTop ℝ)) ∧
    (directionAtT ARROW_DRAG ARROW_GRAVITY (5000 / 199199)
      ((⟨0, 0, 0⟩ : Vector3).sub ⟨0, 0, 0⟩) ⟨0, 0, 0⟩ ((2 : ℕ) : ℝ)).length = 1.001 ∧
    (0.01 : ℝ) < 1.001 ∧
    Cydhranian2Js.calculateArrowAimDirection ⟨0, 0, 0⟩ ⟨0, 0, 0⟩ ⟨0, 0, 0⟩ (5000 / 199199)
      = none := by
  obtain ⟨st, hfin, hbt, hd, -⟩ := edge_scan
  exact ⟨by norm_num, fun u hu1 hu2 => edge_no_hit u hu1 hu2, ⟨st, hfin, hbt, hd⟩,
    edge_lengths.1, by norm_num, edge_calculate⟩

end NullExact

/-! ### C14: a non-positive launch speed and the exported solvers -/

section ClaimC14

theorem cyd_scan_miss (s : ℝ) (relPos v : Vector3) (t : ℕ) (st : Cydhranian2Js.ScanState)
    (ht : t ≤ CydhranianJs.MAX_T)
    (hmiss : ¬ |CydhranianJs.magnitudeAtT s relPos v t - 1.0| < CydhranianJs.EPS) :
    CydhranianJs.scanLoop s relPos v t st
      = CydhranianJs.scanLoop s relPos v (t + 1)
          (Cydhranian2Js.track st t |CydhranianJs.magnitudeAtT s relPos v t - 1.0|) := by
  rw [CydhranianJs.scanLoop, if_pos ht]
  simp only [if_neg hmiss]

theorem cyd_scan_hit (s : ℝ) (relPos v : Vector3) (t : ℕ) (st : Cydhranian2Js.ScanState)
    (ht : t ≤ CydhranianJs.MAX_T)
    (hhit : |CydhranianJs.magnitudeAtT s relPos v t - 1.0| < CydhranianJs.EPS) :
    CydhranianJs.scanLoop s relPos v t st
      = Cydhranian2Js.ScanOutcome.returned (some ((t : ℝ),
          (CydhranianJs.directionAtT CydhranianJs.ARROW_DRAG CydhranianJs.ARROW_GRAVITY s
            relPos v t).normalize)) := by
  rw [CydhranianJs.scanLoop, if_pos ht]
  simp only [if_pos hhit]

/-- With a target at the shooter and at rest, and launch speed `-5/199`, the direction of
`cydhranian.js` at `t = 1` is the zero vector. -/
theorem cyd_direction_backward_one :
    CydhranianJs.directionAtT CydhranianJs.ARROW_DRAG CydhranianJs.ARROW_GRAVITY (-5 / 199)
      ((⟨0, 0, 0⟩ : Vector3).sub ⟨0, 0, 0⟩) ⟨0, 0, 0⟩ ((1 : ℕ) : ℝ) = ⟨0, 0, 0⟩ := by
  rw [cyd_directionAtT_nat _ _ _ _ _ 1 (le_refl 1)]
  simp only [directionFormula, CydhranianJs.ARROW_DRAG, CydhranianJs.ARROW_GRAVITY, Vector3.sub]
  ext <;> norm_num

/-- With a target at the shooter and at rest, and launch speed `-5/199`, the direction of
`cydhranian.js` at `t = 2` is exactly `(0, -1, 0)`. -/
theorem cyd_direction_backward_two :
    CydhranianJs.directionAtT CydhranianJs.ARROW_DRAG CydhranianJs.ARROW_GRAVITY (-5 / 199)
      ((⟨0, 0, 0⟩ : Vector3).sub ⟨0, 0, 0⟩) ⟨0, 0, 0⟩ ((2 : ℕ) : ℝ) = ⟨0, -1, 0⟩ := by
  rw [cyd_directionAtT_nat _ _ _ _ _ 2 (by norm_num)]
  simp only [directionFormula, CydhranianJs.ARROW_DRAG, CydhranianJs.ARROW_GRAVITY, Vector3.sub]
  ext <;> norm_num

theorem length_unit_down : (⟨0, -1, 0⟩ : Vector3).length = 1 := by
  simp [Vector3.length]

/-- With a target at the shooter and at rest, and launch speed `-5/199`, the coarse scan of
`cydhranian.js` misses at `t = 1` and returns `(0, -1, 0)` at `t = 2`. -/
theorem cyd_solveAt_backward :
    CydhranianJs.solveAt ⟨0, 0, 0⟩ ⟨0, 0, 0⟩ ⟨0, 0, 0⟩ (-5 / 199)
      = some (((2 : ℕ) : ℝ), ⟨0, -1, 0⟩) := by
  have hmiss : ¬ |CydhranianJs.magnitudeAtT (-5 / 199)
      ((⟨0, 0, 0⟩ : Vector3).sub ⟨0, 0, 0⟩) ⟨0, 0, 0⟩ ((1 : ℕ) : ℝ) - 1.0|
      < CydhranianJs.EPS := by
    unfold CydhranianJs.magnitudeAtT
    rw [cyd_direction_backward_one]
    simp only [Vector3.length, CydhranianJs.EPS]
    norm_num
  have hhit : |CydhranianJs.magnitudeAtT (-5 / 199)
      ((⟨0, 0, 0⟩ : Vector3).sub ⟨0, 0, 0⟩) ⟨0, 0, 0⟩ ((2 : ℕ) : ℝ) - 1.0|
      < CydhranianJs.EPS := by
    unfold CydhranianJs.magnitudeAtT
    rw [cyd_direction_backward_two, length_unit_down]
    norm_num [CydhranianJs.EPS]
  have e : (1 + 1 : ℕ) = 2 := rfl
  have hscan : CydhranianJs.scanLoop (-5 / 199) ((⟨0, 0, 0⟩ : Vector3).sub ⟨0, 0, 0⟩)
      ⟨0, 0, 0⟩ 1 ⟨none, ⊤⟩
      = Cydhranian2Js.ScanOutcome.returned (some (((2 : ℕ) : ℝ), ⟨0, -1, 0⟩)) := by
    rw [cyd_scan_miss _ _ _ 1 _ (by norm_num [CydhranianJs.MAX_T]) hmiss, e,
      cyd_scan_hit _ _ _ 2 _ (by norm_num [CydhranianJs.MAX_T]) hhit,
      cyd_direction_backward_two, normalize_of_length_one _ length_unit_down]
  simp only [CydhranianJs.solveAt, hscan]

/-- With the shooter at the origin and a target at rest at `(0, 10, 0)`, `polynomial.js`
returns `(0, 1, 0)` whatever the launch speed: for a target at rest the launch speed does
not enter the coefficients. -/
theorem poly_solveAt_any_speed (s : ℝ) :
    PolynomialJs.solveAt ⟨0, 0, 0⟩ ⟨0, 10, 0⟩ ⟨0, 0, 0⟩ s = some (10, ⟨0, 1, 0⟩) := by
  have hcand : PolynomialJs.candidate PolynomialJs.ARROW_GRAVITY
      ((⟨0, 10, 0⟩ : Vector3).sub ⟨0, 0, 0⟩) ⟨0, 0, 0⟩ 10 = ⟨0, 7.5, 0⟩ := by
    simp only [PolynomialJs.candidate, PolynomialJs.ARROW_GRAVITY, Vector3.sub]
    ext <;> norm_num
  have hlen : ¬ ((7.5 : ℝ) < 0.01) := by norm_num
  have h10 : ¬ ((10 : ℝ) ≤ 0) := by norm_num
  have hchoose : PolynomialJs.chooseTime
      ((-(-0.25 : ℝ) + 0.25) / (2 * (0.5 * PolynomialJs.ARROW_GRAVITY)))
      ((-(-0.25 : ℝ) - 0.25) / (2 * (0.5 * PolynomialJs.ARROW_GRAVITY))) = 10 := by
    norm_num [PolynomialJs.chooseTime, PolynomialJs.ARROW_GRAVITY]
  rw [poly_solveAt_of_coeffs ⟨0, 0, 0⟩ ⟨0, 10, 0⟩ ⟨0, 0, 0⟩ s (-0.25) 0 0.0625 0.25
    (by norm_num [PolynomialJs.ARROW_GRAVITY, Vector3.sub])
    (by norm_num [Vector3.sub])
    (by norm_num [PolynomialJs.ARROW_GRAVITY]) (by norm_num) sqrt_sixteenth]
  rw [hchoose, hcand, if_neg h10, length_seven_half, if_neg hlen, normalize_seven_half]

/-- C14, the code at the failing inputs: with a launch speed `<= 0` the exported solvers
return a direction instead of `null`.  `polynomial.js` returns `(0, 1, 0)` for a target at
rest at `(0, 10, 0)` with launch speed `0` and with launch speed `-3`; `cydhranian.js`
returns `(0, -1, 0)` for a target at the shooter and at rest with launch speed `-5/199`. -/
theorem exported_accepts_nonpositive_speed :
    ((0 : ℝ) ≤ 0 ∧
      PolynomialJs.calculateArrowAimDirection ⟨0, 0, 0⟩ ⟨0, 10, 0⟩ ⟨0, 0, 0⟩ 0
        = some ⟨0, 1, 0⟩) ∧
    ((-3 : ℝ) ≤ 0 ∧
      PolynomialJs.calculateArrowAimDirection ⟨0, 0, 0⟩ ⟨0, 10, 0⟩ ⟨0, 0, 0⟩ (-3)
        = some ⟨0, 1, 0⟩) ∧
    ((-5 / 199 : ℝ) ≤ 0 ∧
      CydhranianJs.calculateArrowAimDirection ⟨0, 0, 0⟩ ⟨0, 0, 0⟩ ⟨0, 0, 0⟩ (-5 / 199)
        = some ⟨0, -1, 0⟩) := by
  refine ⟨⟨le_refl 0, ?_⟩, ⟨by norm_num, ?_⟩, ⟨by norm_num, ?_⟩⟩
  · unfold PolynomialJs.calculateArrowAimDirection
    rw [poly_solveAt_any_speed]
    rfl
  · unfold PolynomialJs.calculateArrowAimDirection
    rw [poly_solveAt_any_speed]
    rfl
  · unfold CydhranianJs.calculateArrowAimDirection
    rw [cyd_solveAt_backward]
    rfl

end ClaimC14

/-! ### The quadratic fallbacks over the doubles -/

section DoublePoly

/-- The literal `0` is the double zero. -/
theorem JsNum.ofRat_zero : JsNum.ofRat 0 = JsNum.fin 0 := by decide

/-- A number that is `> 0` is not `NaN`. -/
theorem JsNum.ne_nan_of_pos (t : JsNum) (h : JsNum.lt (JsNum.ofRat 0) t = true) :
    t ≠ JsNum.nan := by
  intro ht
  subst ht
  rw [JsNum.ofRat_zero] at h
  simp [JsNum.lt] at h

/-- The function `Math.min` on two numbers that are `> 0`: the second if it is smaller, else the
first. -/
theorem JsNum.min_of_pos (t1 t2 : JsNum) (h1 : JsNum.lt (JsNum.ofRat 0) t1 = true)
    (h2 : JsNum.lt (JsNum.ofRat 0) t2 = true) :
    JsNum.min t1 t2 = if JsNum.lt t2 t1 = true then t2 else t1 := by
  have hn1 := JsNum.ne_nan_of_pos t1 h1
  have hn2 := JsNum.ne_nan_of_pos t2 h2
  cases t1 <;> cases t2 <;> first | rfl | exact absurd rfl hn1 | exact absurd rfl hn2

/-- A finite number that is not `<= 0` is `> 0`. -/
theorem JsNum.pos_of_not_le (t : JsNum) (hf : t.isFinite = true)
    (h : JsNum.le t (JsNum.ofRat 0) = false) : JsNum.lt (JsNum.ofRat 0) t = true := by
  rw [JsNum.ofRat_zero] at *
  cases t with
  | fin q =>
    simp only [JsNum.le, JsNum.lt, decide_eq_false_iff_not, decide_eq_true_eq, not_le] at *
    exact h
  | posInf => simp [JsNum.isFinite] at hf
  | negInf => simp [JsNum.isFinite] at hf
  | nan => simp [JsNum.isFinite] at hf

/-- The two selection rules: whenever the rule of `polynomial2.js` picks a time, the rule of
`polynomial.js` picks the same one. -/
theorem chooseTime_agree_doubles (t1 t2 t : JsNum)
    (h : Polynomial2JsD.chooseTime t1 t2 = some t) : PolynomialJsD.chooseTime t1 t2 = t := by
  unfold Polynomial2JsD.chooseTime at h
  unfold PolynomialJsD.chooseTime
  by_cases h1 : JsNum.lt (JsNum.ofRat 0) t1 = true
  · by_cases h2 : JsNum.lt (JsNum.ofRat 0) t2 = true
    · simp only [h1, h2, Bool.and_self, if_true, Option.some.injEq] at h
      rw [JsNum.min_of_pos t1 t2 h1 h2] at h
      simp only [h1, h2, Bool.true_and, if_true]
      exact h
    · have h2f : JsNum.lt (JsNum.ofRat 0) t2 = false := by simpa using h2
      simp only [h1, h2f, Bool.and_false, Bool.false_eq_true, if_false, if_true,
        Option.some.injEq] at h
      simp only [h1, h2f, Bool.false_and, Bool.false_eq_true, if_false, if_true]
      exact h
  · have h1f : JsNum.lt (JsNum.ofRat 0) t1 = false := by simpa using h1
    by_cases h2 : JsNum.lt (JsNum.ofRat 0) t2 = true
    · simp only [h1f, h2, Bool.false_and, Bool.false_eq_true, if_false, if_true,
        Option.some.injEq] at h
      subst h
      simp only [h1f, Bool.false_eq_true, if_false, ite_self]
    · have h2f : JsNum.lt (JsNum.ofRat 0) t2 = false := by simpa using h2
      simp [h1f, h2f] at h

/-- When neither root is `> 0`, the rule of `polynomial.js` is left with `t2`. -/
theorem chooseTime_of_no_pos (t1 t2 : JsNum) (h1 : JsNum.lt (JsNum.ofRat 0) t1 = false)
    (h2 : JsNum.lt (JsNum.ofRat 0) t2 = false) : PolynomialJsD.chooseTime t1 t2 = t2 := by
  unfold PolynomialJsD.chooseTime
  simp only [h1, h2, Bool.false_and, Bool.false_eq_true, if_false]

/-- When the time picked by `polynomial.js` is `> 0`, the rule of `polynomial2.js` picks it
too. -/
theorem chooseTime_some_of_pos (t1 t2 : JsNum)
    (h : JsNum.lt (JsNum.ofRat 0) (PolynomialJsD.chooseTime t1 t2) = true) :
    Polynomial2JsD.chooseTime t1 t2 = some (PolynomialJsD.chooseTime t1 t2) := by
  cases hc : Polynomial2JsD.chooseTime t1 t2 with
  | some t => rw [chooseTime_agree_doubles t1 t2 t hc]
  | none =>
    exfalso
    unfold Polynomial2JsD.chooseTime at hc
    by_cases h1 : JsNum.lt (JsNum.ofRat 0) t1 = true
    · by_cases h2 : JsNum.lt (JsNum.ofRat 0) t2 = true
      · simp [h1, h2] at hc
      · have h2f : JsNum.lt (JsNum.ofRat 0) t2 = false := by simpa using h2
        simp [h1, h2f] at hc
    · have h1f : JsNum.lt (JsNum.ofRat 0) t1 = false := by simpa using h1
      by_cases h2 : JsNum.lt (JsNum.ofRat 0) t2 = true
      · simp [h1f, h2] at hc
      · have h2f : JsNum.lt (JsNum.ofRat 0) t2 = false := by simpa using h2
        rw [chooseTime_of_no_pos t1 t2 h1f h2f, h2f] at h
        exact absurd h (by simp)

/-- The coefficient `a` is the double `0.025`, which is finite. -/
theorem coeffA_finite : PolynomialJsD.coeffA.isFinite = true := by decide!

/-- The denominator `2 * a` passes the test of line 55 of `polynomial2.js`. -/
theorem denom_guard :
    (!(JsNum.ofRat 2 * PolynomialJsD.coeffA).isFinite ||
      JsNum.lt (JsNum.abs (JsNum.ofRat 2 * PolynomialJsD.coeffA)) (JsNum.ofRat (1 / 10 ^ 12)))
      = false := by decide!

end DoublePoly

section DoubleShape

/-- Every way `polynomial.js` returns a direction: the discriminant is not `< 0`, the time is
the one picked by line 59-60 and is not `<= 0`, and the length of the candidate vector is not
`< 0.01`. -/
theorem poly_solveAt_some_iff (shooter target vel : DVector3) (s t : JsNum) (dir : DVector3) :
    PolynomialJsD.solveAt shooter target vel s = some (t, dir) ↔
      JsNum.lt (PolynomialJsD.discriminant (target.sub shooter) vel s) (JsNum.ofRat 0) = false ∧
      t = PolynomialJsD.chooseTime (PolynomialJsD.root1 (target.sub shooter) vel s)
        (PolynomialJsD.root2 (target.sub shooter) vel s) ∧
      JsNum.le t (JsNum.ofRat 0) = false ∧
      dir = PolynomialJsD.candidate (target.sub shooter) vel t ∧
      JsNum.lt dir.length (JsNum.ofRat (1 / 100)) = false := by
  unfold PolynomialJsD.solveAt
  simp only
  constructor
  · intro h
    split_ifs at h with h1 h2 h3
    simp only [Option.some.injEq, Prod.mk.injEq] at h
    obtain ⟨ht, hd⟩ := h
    subst ht
    subst hd
    exact ⟨by simpa using h1, rfl, by simpa using h2, rfl, by simpa using h3⟩
  · rintro ⟨h1, ht, h2, hd, h3⟩
    subst hd
    subst ht
    rw [if_neg (by rw [h1]; exact Bool.false_ne_true),
      if_neg (by rw [h2]; exact Bool.false_ne_true),
      if_neg (by rw [h3]; exact Bool.false_ne_true)]

/-- Every way `polynomial2.js` returns a direction. -/
theorem poly2_solveAt_some_iff (shooter target vel : DVector3) (s t : JsNum) (dir : DVector3) :
    Polynomial2JsD.solveAt shooter target vel s = some (t, dir) ↔
      (shooter.isVecFinite = true ∧ target.isVecFinite = true ∧ vel.isVecFinite = true) ∧
      (s.isFinite = true ∧ JsNum.le s (JsNum.ofRat 0) = false) ∧
      (PolynomialJsD.coeffB (target.sub shooter) vel s).isFinite = true ∧
      (PolynomialJsD.coeffC (target.sub shooter) vel s).isFinite = true ∧
      (PolynomialJsD.discriminant (target.sub shooter) vel s).isFinite = true ∧
      JsNum.lt (PolynomialJsD.discriminant (target.sub shooter) vel s) (JsNum.ofRat 0) = false ∧
      Polynomial2JsD.chooseTime (PolynomialJsD.root1 (target.sub shooter) vel s)
        (PolynomialJsD.root2 (target.sub shooter) vel s) = some t ∧
      t.isFinite = true ∧ JsNum.le t (JsNum.ofRat 0) = false ∧
      JsNum.lt (JsNum.ofRat (10 ^ 6)) t = false ∧
      dir = PolynomialJsD.candidate (target.sub shooter) vel t ∧
      dir.isVecFinite = true ∧ dir.length.isFinite = true ∧
      JsNum.lt dir.length (JsNum.ofRat (1 / 100)) = false := by
  unfold Polynomial2JsD.solveAt
  simp only [coeffA_finite, denom_guard]
  constructor
  · intro h
    split_ifs at h with h1 h2 h3 h4
    split at h
    · exact absurd h (by simp)
    · rename_i t0 hch
      split_ifs at h with h5 h6 h7
      simp only [Option.some.injEq, Prod.mk.injEq] at h
      obtain ⟨ht, hd⟩ := h
      subst ht
      subst hd
      simp only [Bool.and_eq_false_iff, not_or, Bool.not_eq_false] at h1
      simp only [Bool.or_eq_true, Bool.not_eq_true', not_or, Bool.not_eq_false,
        Bool.not_eq_true] at h2 h3 h4 h5 h7
      have h6t : (PolynomialJsD.candidate (target.sub shooter) vel t0).isVecFinite = true := by
        simpa using h6
      exact ⟨⟨h1.1.1, h1.1.2, h1.2⟩, h2, h3.1.2, h3.2, h4.1, h4.2, hch, h5.1.1, h5.1.2, h5.2,
        rfl, h6t, h7.1, h7.2⟩
  · rintro ⟨⟨a1, a2, a3⟩, ⟨b1, b2⟩, c1, c2, d1, d2, hch, e1, e2, e3, hd, f1, f2, f3⟩
    subst hd
    simp only [a1, a2, a3, b1, b2, c1, c2, d1, d2, hch, e1, e2, e3, f1, f2, f3, Bool.and_self,
      Bool.not_true, Bool.or_self, Bool.false_eq_true, if_false, Bool.true_eq_false]

end DoubleShape

/-! ### C19: the guarded quadratic fallback against the exported one -/

section ClaimC19

/-- A number that is `> 0` is not `<= 0`. -/
theorem JsNum.not_le_of_pos (s : JsNum) (h : JsNum.lt (JsNum.ofRat 0) s = true) :
    JsNum.le s (JsNum.ofRat 0) = false := by
  rw [JsNum.ofRat_zero] at *
  cases s with
  | fin q =>
    simp only [JsNum.le, JsNum.lt, decide_eq_false_iff_not, decide_eq_true_eq, not_le] at *
    exact h
  | posInf => rfl
  | negInf => simp [JsNum.lt] at h
  | nan => rfl

/-- C19 (amended), over the doubles: for every input with finite components and
`arrowSpeed > 0`, whenever the selection rule of `polynomial2.js` picks a time the rule of
`polynomial.js` picks the same one; `polynomial2.js` returns `null` whenever `polynomial.js`
does; and when `polynomial.js` returns the normalisation of the vector `dir` computed at its
time `t`, `polynomial2.js` returns either `null` or the normalisation of the same vector, and
it returns `null` exactly when `t > 1e6` or one of `t`, `b`, `c`, the discriminant, the
components of `dir` or the length of `dir` is not a finite number. -/
theorem guarded_fallback_refinement (shooter target vel : DVector3) (s : JsNum)
    (hsh : shooter.isVecFinite = true) (htg : target.isVecFinite = true)
    (hvl : vel.isVecFinite = true) (hsf : s.isFinite = true)
    (hs : JsNum.lt (JsNum.ofRat 0) s = true) :
    (∀ t1 t2 t : JsNum, Polynomial2JsD.chooseTime t1 t2 = some t →
      PolynomialJsD.chooseTime t1 t2 = t) ∧
    (PolynomialJsD.solveAt shooter target vel s = none →
      Polynomial2JsD.solveAt shooter target vel s = none) ∧
    (∀ (t : JsNum) (dir : DVector3),
      PolynomialJsD.solveAt shooter target vel s = some (t, dir) →
      (Polynomial2JsD.solveAt shooter target vel s = none ∨
        Polynomial2JsD.solveAt shooter target vel s = some (t, dir)) ∧
      (Polynomial2JsD.solveAt shooter target vel s = none ↔
        (JsNum.lt (JsNum.ofRat (10 ^ 6)) t = true ∨ t.isFinite = false ∨
          (PolynomialJsD.coeffB (target.sub shooter) vel s).isFinite = false ∨
          (PolynomialJsD.coeffC (target.sub shooter) vel s).isFinite = false ∨
          (PolynomialJsD.discriminant (target.sub shooter) vel s).isFinite = false ∨
          dir.isVecFinite = false ∨ dir.length.isFinite = false))) := by
  have key : ∀ (t : JsNum) (dir : DVector3),
      Polynomial2JsD.solveAt shooter target vel s = some (t, dir) →
      PolynomialJsD.solveAt shooter target vel s = some (t, dir) ∧
        JsNum.lt (JsNum.ofRat (10 ^ 6)) t = false ∧ t.isFinite = true ∧
        (PolynomialJsD.coeffB (target.sub shooter) vel s).isFinite = true ∧
        (PolynomialJsD.coeffC (target.sub shooter) vel s).isFinite = true ∧
        (PolynomialJsD.discriminant (target.sub shooter) vel s).isFinite = true ∧
        dir.isVecFinite = true ∧ dir.length.isFinite = true := by
    intro t dir h2
    obtain ⟨-, -, c1, c2, d1, d2, hch, e1, e2, e3, hd, f1, f2, f3⟩ :=
      (poly2_solveAt_some_iff shooter target vel s t dir).mp h2
    refine ⟨?_, e3, e1, c1, c2, d1, f1, f2⟩
    exact (poly_solveAt_some_iff shooter target vel s t dir).mpr
      ⟨d2, (chooseTime_agree_doubles _ _ t hch).symm, e2, hd, f3⟩
  refine ⟨chooseTime_agree_doubles, ?_, ?_⟩
  · intro hnone
    cases h2 : Polynomial2JsD.solveAt shooter target vel s with
    | none => rfl
    | some res =>
      obtain ⟨t, dir⟩ := res
      rw [(key t dir h2).1] at hnone
      exact absurd hnone (by simp)
  · intro t dir h1
    have hsame : ∀ (t2 : JsNum) (dir2 : DVector3),
        Polynomial2JsD.solveAt shooter target vel s = some (t2, dir2) →
        t2 = t ∧ dir2 = dir := by
      intro t2 dir2 h2
      have h := (key t2 dir2 h2).1
      rw [h1] at h
      simp only [Option.some.injEq, Prod.mk.injEq] at h
      exact ⟨h.1.symm, h.2.symm⟩
    constructor
    · cases h2 : Polynomial2JsD.solveAt shooter target vel s with
      | none => exact Or.inl rfl
      | some res =>
        obtain ⟨t2, dir2⟩ := res
        obtain ⟨ht, hd⟩ := hsame t2 dir2 h2
        rw [ht, hd]
        exact Or.inr rfl
    · constructor
      · intro hnone
        by_contra hcon
        simp only [not_or, Bool.not_eq_true, Bool.not_eq_false] at hcon
        obtain ⟨g1, g2, g3, g4, g5, g6, g7⟩ := hcon
        obtain ⟨p1, p2, p3, p4, p5⟩ := (poly_solveAt_some_iff shooter target vel s t dir).mp h1
        have hpos : JsNum.lt (JsNum.ofRat 0) t = true := JsNum.pos_of_not_le t g2 p3
        have hch : Polynomial2JsD.chooseTime (PolynomialJsD.root1 (target.sub shooter) vel s)
            (PolynomialJsD.root2 (target.sub shooter) vel s) = some t := by
          rw [p2] at hpos
          rw [p2]
          exact chooseTime_some_of_pos _ _ hpos
        have hsome : Polynomial2JsD.solveAt shooter target vel s = some (t, dir) :=
          (poly2_solveAt_some_iff shooter target vel s t dir).mpr
            ⟨⟨hsh, htg, hvl⟩, ⟨hsf, JsNum.not_le_of_pos s hs⟩, g3, g4, g5, p1, hch, g2, p3, g1,
              p4, g6, g7, p5⟩
        rw [hsome] at hnone
        exact absurd hnone (by simp)
      · intro hbad
        cases h2 : Polynomial2JsD.solveAt shooter target vel s with
        | none => rfl
        | some res =>
          exfalso
          obtain ⟨t2, dir2⟩ := res
          obtain ⟨ht, hd⟩ := hsame t2 dir2 h2
          subst ht
          subst hd
          obtain ⟨-, k1, k2, k3, k4, k5, k6, k7⟩ := key t2 dir2 h2
          rcases hbad with h | h | h | h | h | h | h
          · rw [k1] at h
            exact absurd h (by simp)
          · rw [k2] at h
            exact absurd h (by simp)
          · rw [k3] at h
            exact absurd h (by simp)
          · rw [k4] at h
            exact absurd h (by simp)
          · rw [k5] at h
            exact absurd h (by simp)
          · rw [k6] at h
            exact absurd h (by simp)
          · rw [k7] at h
            exact absurd h (by simp)

/-- C19, witness: shooter at the origin, target at rest at `(0, 10, 0)`, launch speed `3`:
both sources select `t = 10` and return the normalisation of `(0, 7.5, 0)`. -/
theorem guarded_fallback_refinement_witness :
    ((DVector3.ofRat 0 0 0).isVecFinite = true ∧ (DVector3.ofRat 0 10 0).isVecFinite = true ∧
      (JsNum.ofRat 3).isFinite = true ∧ JsNum.lt (JsNum.ofRat 0) (JsNum.ofRat 3) = true) ∧
    PolynomialJsD.solveAt (DVector3.ofRat 0 0 0) (DVector3.ofRat 0 10 0) (DVector3.ofRat 0 0 0)
      (JsNum.ofRat 3) = some (JsNum.fin 10, ⟨JsNum.fin 0, JsNum.fin (15 / 2), JsNum.fin 0⟩) ∧
    Polynomial2JsD.solveAt (DVector3.ofRat 0 0 0) (DVector3.ofRat 0 10 0) (DVector3.ofRat 0 0 0)
      (JsNum.ofRat 3) = some (JsNum.fin 10, ⟨JsNum.fin 0, JsNum.fin (15 / 2), JsNum.fin 0⟩) := by
  have h1 : PolynomialJsD.solveAt (DVector3.ofRat 0 0 0) (DVector3.ofRat 0 10 0)
      (DVector3.ofRat 0 0 0) (JsNum.ofRat 3)
      = some (JsNum.fin 10, ⟨JsNum.fin 0, JsNum.fin (15 / 2), JsNum.fin 0⟩) := by decide!
  obtain ⟨-, -, h3⟩ := guarded_fallback_refinement (DVector3.ofRat 0 0 0) (DVector3.ofRat 0 10 0)
    (DVector3.ofRat 0 0 0) (JsNum.ofRat 3) (by decide) (by decide!) (by decide) (by decide!)
    (by decide!)
  obtain ⟨hor, -⟩ := h3 _ _ h1
  refine ⟨⟨by decide, by decide!, by decide!, by decide!⟩, h1, ?_⟩
  rcases hor with h | h
  · exact absurd h (by decide!)
  · exact h

/-- C19, counterexample: for shooter `(0,0,0)`, target `(1e200, 1e200, 0)`, target velocity
`(1e200, -1e200, 0)` and launch speed `3`, all finite, the product `x * vx` overflows and `c`
is `NaN`; `polynomial2.js` returns `null` at its test of `c`, while in `polynomial.js` every
comparison with `NaN` is false, the selected `t` is `NaN`, which is not `> 1e6`, and the
normalisation of a vector of `NaN` is returned. -/
theorem guarded_fallback_counterexample :
    ((DVector3.ofRat 0 0 0).isVecFinite = true ∧
      (DVector3.ofRat (10 ^ 200) (10 ^ 200) 0).isVecFinite = true ∧
      (DVector3.ofRat (10 ^ 200) (-10 ^ 200) 0).isVecFinite = true ∧
      (JsNum.ofRat 3).isFinite = true ∧ JsNum.lt (JsNum.ofRat 0) (JsNum.ofRat 3) = true) ∧
    PolynomialJsD.coeffC ((DVector3.ofRat (10 ^ 200) (10 ^ 200) 0).sub (DVector3.ofRat 0 0 0))
      (DVector3.ofRat (10 ^ 200) (-10 ^ 200) 0) (JsNum.ofRat 3) = JsNum.nan ∧
    PolynomialJsD.solveAt (DVector3.ofRat 0 0 0) (DVector3.ofRat (10 ^ 200) (10 ^ 200) 0)
      (DVector3.ofRat (10 ^ 200) (-10 ^ 200) 0) (JsNum.ofRat 3)
      = some (JsNum.nan, ⟨JsNum.nan, JsNum.nan, JsNum.nan⟩) ∧
    JsNum.lt (JsNum.ofRat (10 ^ 6)) JsNum.nan = false ∧
    Polynomial2JsD.solveAt (DVector3.ofRat 0 0 0) (DVector3.ofRat (10 ^ 200) (10 ^ 200) 0)
      (DVector3.ofRat (10 ^ 200) (-10 ^ 200) 0) (JsNum.ofRat 3) = none ∧
    ¬ (Polynomial2JsD.solveAt (DVector3.ofRat 0 0 0) (DVector3.ofRat (10 ^ 200) (10 ^ 200) 0)
        (DVector3.ofRat (10 ^ 200) (-10 ^ 200) 0) (JsNum.ofRat 3)
      = PolynomialJsD.solveAt (DVector3.ofRat 0 0 0) (DVector3.ofRat (10 ^ 200) (10 ^ 200) 0)
        (DVector3.ofRat (10 ^ 200) (-10 ^ 200) 0) (JsNum.ofRat 3)) := by
  decide!

end ClaimC19

/-! ### C12: the minimum-length threshold of the quadratic fallback -/

section ClaimC12

/-- A finite number that is not `< y` for a finite `y` is `>= y`. -/
theorem JsNum.le_of_not_lt (x y : JsNum) (hx : x.isFinite = true) (hy : y.isFinite = true)
    (h : JsNum.lt x y = false) : JsNum.le y x = true := by
  cases x with
  | fin a =>
    cases y with
    | fin b =>
      simp only [JsNum.le, JsNum.lt, decide_eq_false_iff_not, decide_eq_true_eq, not_lt] at *
      exact h
    | posInf => simp [JsNum.isFinite] at hy
    | negInf => simp [JsNum.isFinite] at hy
    | nan => simp [JsNum.isFinite] at hy
  | posInf => simp [JsNum.isFinite] at hx
  | negInf => simp [JsNum.isFinite] at hx
  | nan => simp [JsNum.isFinite] at hx

/-- A number that is not `< y` for a finite `y` is `>= y` or `NaN`. -/
theorem JsNum.le_or_nan_of_not_lt (x y : JsNum) (hy : y.isFinite = true)
    (h : JsNum.lt x y = false) : JsNum.le y x = true ∨ x = JsNum.nan := by
  cases x with
  | fin a => exact Or.inl (JsNum.le_of_not_lt _ _ rfl hy h)
  | posInf =>
    cases y with
    | fin b => exact Or.inl rfl
    | posInf => simp [JsNum.isFinite] at hy
    | negInf => simp [JsNum.isFinite] at hy
    | nan => simp [JsNum.isFinite] at hy
  | negInf =>
    cases y with
    | fin b => simp [JsNum.lt] at h
    | posInf => simp [JsNum.isFinite] at hy
    | negInf => simp [JsNum.isFinite] at hy
    | nan => simp [JsNum.isFinite] at hy
  | nan => exact Or.inr rfl

/-- The literal `0.01` is a finite double. -/
theorem hundredth_finite : (JsNum.ofRat (1 / 100)).isFinite = true := by decide!

/-- C12 (amended), over the doubles: for every input, if the candidate vector
`(relPos.x + v.x*t, relPos.y + v.y*t - 0.5*g*t*t, relPos.z + v.z*t)` at the selected root `t`
has length below `0.01`, `polynomial2.js` and `polynomial.js` return `null`; `polynomial2.js`
returns a direction only when that length is a finite number that is at least `0.01`, and
`polynomial.js` only when the length is at least `0.01` or is `NaN`. -/
theorem double_length_threshold (shooter target vel : DVector3) (s : JsNum) :
    (∀ t : JsNum,
      Polynomial2JsD.chooseTime (PolynomialJsD.root1 (target.sub shooter) vel s)
        (PolynomialJsD.root2 (target.sub shooter) vel s) = some t →
      JsNum.lt (PolynomialJsD.candidate (target.sub shooter) vel t).length
        (JsNum.ofRat (1 / 100)) = true →
      Polynomial2JsD.solveAt shooter target vel s = none) ∧
    (JsNum.lt (PolynomialJsD.candidate (target.sub shooter) vel
        (PolynomialJsD.chooseTime (PolynomialJsD.root1 (target.sub shooter) vel s)
          (PolynomialJsD.root2 (target.sub shooter) vel s))).length
        (JsNum.ofRat (1 / 100)) = true →
      PolynomialJsD.solveAt shooter target vel s = none) ∧
    (∀ (t : JsNum) (dir : DVector3),
      Polynomial2JsD.solveAt shooter target vel s = some (t, dir) →
      Polynomial2JsD.chooseTime (PolynomialJsD.root1 (target.sub shooter) vel s)
        (PolynomialJsD.root2 (target.sub shooter) vel s) = some t ∧
      dir = PolynomialJsD.candidate (target.sub shooter) vel t ∧
      dir.length.isFinite = true ∧ JsNum.le (JsNum.ofRat (1 / 100)) dir.length = true) ∧
    (∀ (t : JsNum) (dir : DVector3),
      PolynomialJsD.solveAt shooter target vel s = some (t, dir) →
      t = PolynomialJsD.chooseTime (PolynomialJsD.root1 (target.sub shooter) vel s)
        (PolynomialJsD.root2 (target.sub shooter) vel s) ∧
      dir = PolynomialJsD.candidate (target.sub shooter) vel t ∧
      (JsNum.le (JsNum.ofRat (1 / 100)) dir.length = true ∨ dir.length = JsNum.nan)) := by
  refine ⟨?_, ?_, ?_, ?_⟩
  · intro t hch hlt
    cases h2 : Polynomial2JsD.solveAt shooter target vel s with
    | none => rfl
    | some res =>
      exfalso
      obtain ⟨t2, dir2⟩ := res
      obtain ⟨-, -, -, -, -, -, hch2, -, -, -, hd, -, -, f3⟩ :=
        (poly2_solveAt_some_iff shooter target vel s t2 dir2).mp h2
      rw [hch] at hch2
      have ht : t = t2 := Option.some.inj hch2
      subst ht
      subst hd
      rw [hlt] at f3
      exact absurd f3 (by simp)
  · intro hlt
    cases h1 : PolynomialJsD.solveAt shooter target vel s with
    | none => rfl
    | some res =>
      exfalso
      obtain ⟨t, dir⟩ := res
      obtain ⟨-, ht, -, hd, f3⟩ := (poly_solveAt_some_iff shooter target vel s t dir).mp h1
      subst hd
      subst ht
      rw [hlt] at f3
      exact absurd f3 (by simp)
  · intro t dir h2
    obtain ⟨-, -, -, -, -, -, hch, -, -, -, hd, -, f2, f3⟩ :=
      (poly2_solveAt_some_iff shooter target vel s t dir).mp h2
    exact ⟨hch, hd, f2, JsNum.le_of_not_lt _ _ f2 hundredth_finite f3⟩
  · intro t dir h1
    obtain ⟨-, ht, -, hd, f3⟩ := (poly_solveAt_some_iff shooter target vel s t dir).mp h1
    exact ⟨ht, hd, JsNum.le_or_nan_of_not_lt _ _ hundredth_finite f3⟩

/-- C12, counterexample: with the shooter at the origin, a target at rest at `(0.01, 40, 0)`
and launch speed `3`, both sources select `t = 40`, the candidate vector is `(0.01, 0, 0)`, its
length is the double `0.01`, which is `<= 0.01` and does not exceed `0.01`, and both sources
return its normalisation instead of `null`. -/
theorem double_length_counterexample :
    Polynomial2JsD.solveAt (DVector3.ofRat 0 0 0) (DVector3.ofRat (1 / 100) 40 0)
      (DVector3.ofRat 0 0 0) (JsNum.ofRat 3)
      = some (JsNum.fin 40, DVector3.ofRat (1 / 100) 0 0) ∧
    PolynomialJsD.solveAt (DVector3.ofRat 0 0 0) (DVector3.ofRat (1 / 100) 40 0)
      (DVector3.ofRat 0 0 0) (JsNum.ofRat 3)
      = some (JsNum.fin 40, DVector3.ofRat (1 / 100) 0 0) ∧
    PolynomialJsD.candidate ((DVector3.ofRat (1 / 100) 40 0).sub (DVector3.ofRat 0 0 0))
      (DVector3.ofRat 0 0 0) (JsNum.fin 40) = DVector3.ofRat (1 / 100) 0 0 ∧
    (DVector3.ofRat (1 / 100) 0 0).length = JsNum.ofRat (1 / 100) ∧
    JsNum.le (DVector3.ofRat (1 / 100) 0 0).length (JsNum.ofRat (1 / 100)) = true ∧
    JsNum.lt (JsNum.ofRat (1 / 100)) (DVector3.ofRat (1 / 100) 0 0).length = false := by
  decide!

end ClaimC12

/-! ### C6: the root that `polynomial2.js` uses when `4ac` is lost to rounding -/

section ClaimC6

/-- The real quadratic of the input `target = (1e-8, 100, 0)`, `velocity = (1e-7, 0, 0)`,
`arrowSpeed = 3` is `0.025 t^2 - 2.5 t + 3e-15`; it has a root between `0` and `1e-14`. -/
theorem tiny_root_exists :
    ∃ t : ℝ, 0 < t ∧ t < 1e-14 ∧
      0.5 * Polynomial2Js.ARROW_GRAVITY * t ^ 2
        + -(3 * (⟨1e-7, 0, 0⟩ : Vector3).y + 0.5 * Polynomial2Js.ARROW_GRAVITY
            * ((⟨1e-8, 100, 0⟩ : Vector3).sub ⟨0, 0, 0⟩).y) * t
        + 3 * (((⟨1e-8, 100, 0⟩ : Vector3).sub ⟨0, 0, 0⟩).x * (⟨1e-7, 0, 0⟩ : Vector3).x
            + ((⟨1e-8, 100, 0⟩ : Vector3).sub ⟨0, 0, 0⟩).y * (⟨1e-7, 0, 0⟩ : Vector3).y
            + ((⟨1e-8, 100, 0⟩ : Vector3).sub ⟨0, 0, 0⟩).z * (⟨1e-7, 0, 0⟩ : Vector3).z) = 0 := by
  simp only [Polynomial2Js.ARROW_GRAVITY, Vector3.sub]
  have hcont : ContinuousOn (fun t : ℝ => 0.5 * 0.05 * t ^ 2 + -(3 * 0 + 0.5 * 0.05 * (100 - 0)) * t
      + 3 * ((1e-8 - 0) * 1e-7 + (100 - 0) * 0 + (0 - 0) * 0)) (Set.Icc 0 1e-14) := by
    apply Continuous.continuousOn
    continuity
  have hmem : (0 : ℝ) ∈ Set.Icc
      ((fun t : ℝ => 0.5 * 0.05 * t ^ 2 + -(3 * 0 + 0.5 * 0.05 * (100 - 0)) * t
        + 3 * ((1e-8 - 0) * 1e-7 + (100 - 0) * 0 + (0 - 0) * 0)) 1e-14)
      ((fun t : ℝ => 0.5 * 0.05 * t ^ 2 + -(3 * 0 + 0.5 * 0.05 * (100 - 0)) * t
        + 3 * ((1e-8 - 0) * 1e-7 + (100 - 0) * 0 + (0 - 0) * 0)) 0) := by
    constructor <;> norm_num
  obtain ⟨t, ⟨ht0, ht1⟩, hft⟩ := intermediate_value_Icc' (by norm_num) hcont hmem
  simp only at hft
  refine ⟨t, ?_, ?_, hft⟩
  · rcases eq_or_lt_of_le ht0 with h | h
    · rw [← h] at hft
      norm_num at hft
    · exact h
  · rcases eq_or_lt_of_le ht1 with h | h
    · rw [h] at hft
      norm_num at hft
    · exact h

/-- C6, the code at the failing input (shooter `(0,0,0)`, target `(1e-8, 100, 0)`, target
velocity `(1e-7, 0, 0)`, launch speed `3`).  Over the doubles `b*b - 4*a*c` is `6.25`, the
term `4ac = 3e-16` being below half the spacing of the doubles at `6.25`; so `t1 = 100`,
`t2 = 0`, and `polynomial2.js` uses `t = 100` and normalises a vector that points down,
`(1.0009999999999999e-5, -150, 0)`.  The real quadratic has a strictly positive root below
`1e-14`; the smallest strictly positive root, which exact arithmetic selects, is below
`1e-14` and not `100`. -/
theorem root_selection_loses_small_root :
    PolynomialJsD.discriminant ((DVector3.ofRat (1 / 10 ^ 8) 100 0).sub (DVector3.ofRat 0 0 0))
      (DVector3.ofRat (1 / 10 ^ 7) 0 0) (JsNum.ofRat 3) = JsNum.fin (25 / 4) ∧
    PolynomialJsD.root1 ((DVector3.ofRat (1 / 10 ^ 8) 100 0).sub (DVector3.ofRat 0 0 0))
      (DVector3.ofRat (1 / 10 ^ 7) 0 0) (JsNum.ofRat 3) = JsNum.fin 100 ∧
    PolynomialJsD.root2 ((DVector3.ofRat (1 / 10 ^ 8) 100 0).sub (DVector3.ofRat 0 0 0))
      (DVector3.ofRat (1 / 10 ^ 7) 0 0) (JsNum.ofRat 3) = JsNum.fin 0 ∧
    Polynomial2JsD.solveAt (DVector3.ofRat 0 0 0) (DVector3.ofRat (1 / 10 ^ 8) 100 0)
      (DVector3.ofRat (1 / 10 ^ 7) 0 0) (JsNum.ofRat 3)
      = some (JsNum.fin 100,
          ⟨JsNum.fin (5908861061690643 / 590295810358705651712), JsNum.fin (-150),
            JsNum.fin 0⟩) ∧
    ∃ t0 : ℝ,
      Polynomial2Js.selectedTime Polynomial2Js.ARROW_GRAVITY
        ((⟨1e-8, 100, 0⟩ : Vector3).sub ⟨0, 0, 0⟩) ⟨1e-7, 0, 0⟩ 3 = some t0 ∧
      0 < t0 ∧ t0 < 1e-14 ∧
      0.5 * Polynomial2Js.ARROW_GRAVITY * t0 ^ 2
        + -(3 * (⟨1e-7, 0, 0⟩ : Vector3).y + 0.5 * Polynomial2Js.ARROW_GRAVITY
            * ((⟨1e-8, 100, 0⟩ : Vector3).sub ⟨0, 0, 0⟩).y) * t0
        + 3 * (((⟨1e-8, 100, 0⟩ : Vector3).sub ⟨0, 0, 0⟩).x * (⟨1e-7, 0, 0⟩ : Vector3).x
            + ((⟨1e-8, 100, 0⟩ : Vector3).sub ⟨0, 0, 0⟩).y * (⟨1e-7, 0, 0⟩ : Vector3).y
            + ((⟨1e-8, 100, 0⟩ : Vector3).sub ⟨0, 0, 0⟩).z * (⟨1e-7, 0, 0⟩ : Vector3).z) = 0 := by
  refine ⟨by decide!, by decide!, by decide!, by decide!, ?_⟩
  obtain ⟨t, ht0, ht1, hroot⟩ := tiny_root_exists
  obtain ⟨t0, hsel, hpos, hr0, hleast, -⟩ :=
    (quadratic_root_selection ⟨0, 0, 0⟩ ⟨1e-8, 100, 0⟩ ⟨1e-7, 0, 0⟩ 3 (by norm_num)).2
      ⟨t, ht0, hroot⟩
  exact ⟨t0, hsel, hpos, lt_of_le_of_lt (hleast t ht0 hroot) ht1, hr0⟩

end ClaimC6

/-! ### C7: the scenario `(5, 0, 5)` moving with `(1, 0, 0)` has an intercept -/

section ClaimC7

/-- In the no-drag model of the comment in `polynomial.js` the target of the scenario
(`(5, 0, 5)` moving with `(1, 0, 0)`, launch speed `3`, gravity `0.05`) can be hit: there is a
flight time between 3 and 4 ticks and a unit direction for which the arrow is at the
target. -/
theorem scenario_intercept_exists :
    ∃ (t : ℝ) (u : Vector3), 3 < t ∧ t < 4 ∧ u.length = 1 ∧
      arrowNoDragAt Polynomial2Js.ARROW_GRAVITY 3.0 u t
        = targetAt ((⟨5, 0, 5⟩ : Vector3).sub ⟨0, 0, 0⟩) ⟨1, 0, 0⟩ t := by
  have hcont : ContinuousOn
      (fun t : ℝ => (5 + t) ^ 2 + (0.025 * t ^ 2) ^ 2 + 25 - 9 * t ^ 2) (Set.Icc 3 4) := by
    apply Continuous.continuousOn
    continuity
  have hmem : (0 : ℝ) ∈ Set.Icc
      ((fun t : ℝ => (5 + t) ^ 2 + (0.025 * t ^ 2) ^ 2 + 25 - 9 * t ^ 2) 4)
      ((fun t : ℝ => (5 + t) ^ 2 + (0.025 * t ^ 2) ^ 2 + 25 - 9 * t ^ 2) 3) := by
    constructor <;> norm_num
  obtain ⟨t, ⟨ht0, ht1⟩, hft⟩ := intermediate_value_Icc' (by norm_num) hcont hmem
  simp only at hft
  have h3 : 3 < t := by
    rcases eq_or_lt_of_le ht0 with h | h
    · rw [← h] at hft
      norm_num at hft
    · exact h
  have h4 : t < 4 := by
    rcases eq_or_lt_of_le ht1 with h | h
    · rw [h] at hft
      norm_num at hft
    · exact h
  have htpos : 0 < t := by linarith
  have htne : t ≠ 0 := ne_of_gt htpos
  refine ⟨t, ⟨(5 + t) / (3 * t), 0.025 * t ^ 2 / (3 * t), 5 / (3 * t)⟩, h3, h4, ?_, ?_⟩
  · unfold Vector3.length
    have hsum : (5 + t) / (3 * t) * ((5 + t) / (3 * t))
        + 0.025 * t ^ 2 / (3 * t) * (0.025 * t ^ 2 / (3 * t))
        + 5 / (3 * t) * (5 / (3 * t)) = 1 := by
      field_simp
      linarith
    simp only [hsum, Real.sqrt_one]
  · simp only [arrowNoDragAt, targetAt, Vector3.add, Vector3.scale, Vector3.sub,
      Polynomial2Js.ARROW_GRAVITY]
    ext
    · simp only
      field_simp
      ring
    · simp only
      field_simp
      ring
    · simp only
      field_simp
      ring

/-- C7, the code at the failing input (shooter `(0,0,0)`, target `(5,0,5)`, target velocity
`(1,0,0)`, launch speed `3.0`, gravity `0.05`): the discriminant of `polynomial2.js` is `-1.5`
and `calculateArrowAimDirection` returns `null`, over the real numbers and over the doubles
alike, although in the no-drag model of the comment the target can be hit: there is a flight
time between 3 and 4 ticks and a direction of length 1 for which the arrow is at the target. -/
theorem quadratic_scenario_misses_intercept :
    Polynomial2Js.coeffB Polynomial2Js.ARROW_GRAVITY ((⟨5, 0, 5⟩ : Vector3).sub ⟨0, 0, 0⟩)
        ⟨1, 0, 0⟩ 3.0
      * Polynomial2Js.coeffB Polynomial2Js.ARROW_GRAVITY ((⟨5, 0, 5⟩ : Vector3).sub ⟨0, 0, 0⟩)
        ⟨1, 0, 0⟩ 3.0
      - 4 * Polynomial2Js.coeffA Polynomial2Js.ARROW_GRAVITY
        * Polynomial2Js.coeffC ((⟨5, 0, 5⟩ : Vector3).sub ⟨0, 0, 0⟩) ⟨1, 0, 0⟩ 3.0 = -1.5 ∧
    Polynomial2Js.calculateArrowAimDirection ⟨0, 0, 0⟩ ⟨5, 0, 5⟩ ⟨1, 0, 0⟩ 3.0 = none ∧
    JsNum.lt (PolynomialJsD.discriminant ((DVector3.ofRat 5 0 5).sub (DVector3.ofRat 0 0 0))
      (DVector3.ofRat 1 0 0) (JsNum.ofRat 3)) (JsNum.ofRat 0) = true ∧
    Polynomial2JsD.solveAt (DVector3.ofRat 0 0 0) (DVector3.ofRat 5 0 5) (DVector3.ofRat 1 0 0)
      (JsNum.ofRat 3) = none ∧
    ∃ (t : ℝ) (u : Vector3), 3 < t ∧ t < 4 ∧ u.length = 1 ∧
      arrowNoDragAt Polynomial2Js.ARROW_GRAVITY 3.0 u t
        = targetAt ((⟨5, 0, 5⟩ : Vector3).sub ⟨0, 0, 0⟩) ⟨1, 0, 0⟩ t :=
  ⟨scenario_discriminant, scenario_returns_none, by decide!, by decide!,
    scenario_intercept_exists⟩

end ClaimC7

/-! ### C18: the bracket of the bisection, for any rounding -/

section ClaimC18Rounding

open Cydhranian2Js

/-- With the exact midpoint and the tests on exact magnitudes, a pass of the parametric body
is a pass of `bisectStep`. -/
theorem bracketStep_exact (r g s : ℝ) (relPos v : Vector3) (low high : ℝ) :
    bracketStep (fun l h => (l + h) * 0.5) (exactChoice r g s relPos v) low high
      = match bisectStep r g s relPos v low high with
        | BisectStep.narrowed l1 h1 => some (l1, h1)
        | BisectStep.returned _ => none := by
  unfold bracketStep exactChoice bisectStep
  simp only
  split_ifs <;> rfl

/-- With the exact midpoint and the tests on exact magnitudes, the parametric trace is the
trace `bisectState` of the loop. -/
theorem bracketState_exact (r g s : ℝ) (relPos v : Vector3) (low high : ℝ) (i : ℕ) :
    bracketState (fun l h => (l + h) * 0.5) (exactChoice r g s relPos v) low high i
      = bisectState r g s relPos v low high i := by
  induction i with
  | zero => rfl
  | succ k ih =>
    rw [bracketState, bisectState, ih]
    cases hk : bisectState r g s relPos v low high k with
    | none => rfl
    | some p =>
      obtain ⟨l, h⟩ := p
      simp only
      rw [bracketStep_exact]

/-- A pass through the body that continues has replaced one end of the bracket by the
midpoint. -/
theorem bracketStep_some (midpoint : ℝ → ℝ → ℝ) (choice : ℝ → ℝ → ℝ → BisectChoice)
    (low high l1 h1 : ℝ) (h : bracketStep midpoint choice low high = some (l1, h1)) :
    (l1 = low ∧ h1 = midpoint low high) ∨ (l1 = midpoint low high ∧ h1 = high) := by
  unfold bracketStep at h
  split at h
  · exact absurd h (by simp)
  · exact absurd h (by simp)
  · simp only [Option.some.injEq, Prod.mk.injEq] at h
    exact Or.inl ⟨h.1.symm, h.2.symm⟩
  · simp only [Option.some.injEq, Prod.mk.injEq] at h
    exact Or.inr ⟨h.1.symm, h.2.symm⟩

theorem bracketState_succ (midpoint : ℝ → ℝ → ℝ) (choice : ℝ → ℝ → ℝ → BisectChoice)
    (low high : ℝ) (i : ℕ) (l1 h1 : ℝ)
    (h : bracketState midpoint choice low high (i + 1) = some (l1, h1)) :
    ∃ l h0, bracketState midpoint choice low high i = some (l, h0) ∧
      bracketStep midpoint choice l h0 = some (l1, h1) := by
  rw [bracketState] at h
  split at h
  · rename_i l h0 hprev
    exact ⟨l, h0, hprev, h⟩
  · exact absurd h (by simp)

/-- The bracket at the start of iteration `i` lies inside the initial bracket and is
non-empty, whenever the computed midpoint of a bracket lies within it. -/
theorem bracketState_inside (midpoint : ℝ → ℝ → ℝ) (choice : ℝ → ℝ → ℝ → BisectChoice)
    (lo hi : ℝ) (hlo : 1 ≤ lo) (hle : lo ≤ hi) (hhi : hi ≤ 300)
    (hmid : ∀ l h : ℝ, 1 ≤ l → l ≤ h → h ≤ 300 → l ≤ midpoint l h ∧ midpoint l h ≤ h)
    (i : ℕ) (l h : ℝ) (hst : bracketState midpoint choice lo hi i = some (l, h)) :
    lo ≤ l ∧ l ≤ h ∧ h ≤ hi := by
  induction i generalizing l h with
  | zero =>
    simp only [bracketState, Option.some.injEq, Prod.mk.injEq] at hst
    obtain ⟨e1, e2⟩ := hst
    subst e1
    subst e2
    exact ⟨le_refl _, hle, le_refl _⟩
  | succ k ih =>
    obtain ⟨l0, h0, hprev, hstep⟩ := bracketState_succ midpoint choice lo hi k l h hst
    obtain ⟨a1, a2, a3⟩ := ih l0 h0 hprev
    obtain ⟨m1, m2⟩ := hmid l0 h0 (le_trans hlo a1) a2 (le_trans a3 hhi)
    rcases bracketStep_some midpoint choice l0 h0 l h hstep with ⟨e1, e2⟩ | ⟨e1, e2⟩
    · subst e1
      subst e2
      exact ⟨a1, m1, le_trans m2 a3⟩
    · subst e1
      subst e2
      exact ⟨le_trans a1 m1, m2, a3⟩

/-- C18 (amended): whatever number `(low + high) * 0.5` evaluates to, as long as it lies
between `low` and `high` (as the double it evaluates to does), and whatever the tests on the
magnitudes decide: at the start of each of the at most 70 iterations of the bisection loop of
`cydhranian2.js` (bracket `low`, `high` at the start of iteration `i < 70`, the loop having
been entered with `[max(1, bestT-20), min(300, bestT+20)]` for a best sample `bestT` in
`1..300`), `max(1, bestT-20) <= low <= high <= min(300, bestT+20)`; the midpoint lies in
`[low, high]`, so it is at least 1 and `directionAtT` does not take its `t <= 0` branch; and
an iteration that does not return or break replaces exactly one of `low`, `high` by the
midpoint, so that `high - low` does not grow, and is halved if the midpoint is the exact
mean of `low` and `high`. -/
theorem rounded_bracket_invariant (midpoint : ℝ → ℝ → ℝ) (choice : ℝ → ℝ → ℝ → BisectChoice)
    (hmid : ∀ l h : ℝ, 1 ≤ l → l ≤ h → h ≤ 300 → l ≤ midpoint l h ∧ midpoint l h ≤ h)
    (b : ℕ) (hb1 : 1 ≤ b) (hb2 : b ≤ 300) (i : ℕ) (_hi : i < 70) (low high : ℝ)
    (hst : bracketState midpoint choice (max 1 ((b : ℝ) - 20))
      (min (MAX_T : ℝ) ((b : ℝ) + 20)) i = some (low, high)) :
    max 1 ((b : ℝ) - 20) ≤ low ∧ low ≤ high ∧ high ≤ min (MAX_T : ℝ) ((b : ℝ) + 20) ∧
    low ≤ midpoint low high ∧ midpoint low high ≤ high ∧
    1 ≤ midpoint low high ∧ ¬ (midpoint low high ≤ 0) ∧
    ∀ l1 h1 : ℝ, bracketState midpoint choice (max 1 ((b : ℝ) - 20))
        (min (MAX_T : ℝ) ((b : ℝ) + 20)) (i + 1) = some (l1, h1) →
      ((l1 = low ∧ h1 = midpoint low high) ∨ (l1 = midpoint low high ∧ h1 = high)) ∧
      h1 - l1 ≤ high - low ∧
      (midpoint low high = (low + high) / 2 → h1 - l1 = (high - low) / 2) := by
  obtain ⟨hb3, hbr, hb4⟩ := bracket_bounds b hb1 hb2
  have hb5 : min (MAX_T : ℝ) ((b : ℝ) + 20) ≤ 300 := by
    have : ((MAX_T : ℕ) : ℝ) = 300 := by norm_num [MAX_T]
    rw [← this]
    exact hb4
  obtain ⟨a1, a2, a3⟩ := bracketState_inside midpoint choice _ _ hb3 hbr hb5 hmid i low high hst
  obtain ⟨m1, m2⟩ := hmid low high (le_trans hb3 a1) a2 (le_trans a3 hb5)
  have hm3 : 1 ≤ midpoint low high := le_trans (le_trans hb3 a1) m1
  refine ⟨a1, a2, a3, m1, m2, hm3, by linarith, ?_⟩
  intro l1 h1 hnext
  rw [bracketState, hst] at hnext
  simp only at hnext
  have hc := bracketStep_some midpoint choice low high l1 h1 hnext
  refine ⟨hc, ?_, ?_⟩
  · rcases hc with ⟨e1, e2⟩ | ⟨e1, e2⟩
    · rw [e1, e2]
      linarith
    · rw [e1, e2]
      linarith
  · intro hexact
    rcases hc with ⟨e1, e2⟩ | ⟨e1, e2⟩
    · rw [e1, e2, hexact]
      ring
    · rw [e1, e2, hexact]
      ring

end ClaimC18Rounding

section ClaimC18Scenario

open Cydhranian2Js

theorem high_relPos :
    (⟨0, 1000, 0⟩ : Vector3).sub ⟨0, 0, 0⟩ = (⟨0, 1000, 0⟩ : QVector3).toReal := by
  simp only [Vector3.sub, QVector3.toReal]
  ext <;> norm_num

/-- For a target a thousand blocks above the shooter and launch speed `3`, the magnitude at
`t = 130` is not below the magnitude at `t = 150`. -/
theorem high_magnitudes :
    ¬ magnitudeAtT ARROW_DRAG ARROW_GRAVITY 3 ((⟨0, 1000, 0⟩ : Vector3).sub ⟨0, 0, 0⟩) ⟨0, 0, 0⟩
        130
      < magnitudeAtT ARROW_DRAG ARROW_GRAVITY 3 ((⟨0, 1000, 0⟩ : Vector3).sub ⟨0, 0, 0⟩)
        ⟨0, 0, 0⟩ 150 := by
  have hq : magSqQ 3 ⟨0, 1000, 0⟩ ⟨0, 0, 0⟩ 150 ≤ magSqQ 3 ⟨0, 1000, 0⟩ ⟨0, 0, 0⟩ 130 := by
    decide!
  have e130 : (130 : ℝ) = ((130 : ℕ) : ℝ) := by norm_num
  have e150 : (150 : ℝ) = ((150 : ℕ) : ℝ) := by norm_num
  have e3 : (3 : ℝ) = ((3 : ℚ) : ℝ) := by norm_num
  rw [high_relPos, ahead_velocity, e3, e130, e150,
    magnitudeAtT_rational 3 ⟨0, 1000, 0⟩ ⟨0, 0, 0⟩ 130 (by norm_num),
    magnitudeAtT_rational 3 ⟨0, 1000, 0⟩ ⟨0, 0, 0⟩ 150 (by norm_num)]
  rw [not_lt]
  apply Real.sqrt_le_sqrt
  exact_mod_cast hq

/-- For a target a thousand blocks above the shooter and launch speed `3`, the first pass of
the bisection entered with `[130, 170]` takes the branch `low = mid`. -/
theorem high_first_choice :
    exactChoice ARROW_DRAG ARROW_GRAVITY 3 ((⟨0, 1000, 0⟩ : Vector3).sub ⟨0, 0, 0⟩) ⟨0, 0, 0⟩
      130 170 150 = BisectChoice.raiseLow := by
  obtain ⟨hlen, hres, -⟩ := high_target_residual 150 (by norm_num) (by norm_num)
  have h1 : ¬ |magnitudeAtT ARROW_DRAG ARROW_GRAVITY 3
      ((⟨0, 1000, 0⟩ : Vector3).sub ⟨0, 0, 0⟩) ⟨0, 0, 0⟩ 150 - 1.0| < EPS := hres
  have h2 : magnitudeAtT ARROW_DRAG ARROW_GRAVITY 3
      ((⟨0, 1000, 0⟩ : Vector3).sub ⟨0, 0, 0⟩) ⟨0, 0, 0⟩ 150 > 1.0 := by
    unfold magnitudeAtT
    norm_num
    linarith
  simp only [exactChoice, if_neg h1, if_pos h2, if_neg high_magnitudes]

/-- C18, witness: the start of the second iteration for a target a thousand blocks above the
shooter and launch speed `3`, with the best sample `bestT = 150`, the exact midpoint and the
tests on exact magnitudes: the first pass has replaced `low = 130` by the midpoint `150`, the
bracket is `[150, 170]`, its midpoint `160` is at least 1, and the next pass halves it. -/
theorem rounded_bracket_invariant_witness :
    ((∀ l h : ℝ, 1 ≤ l → l ≤ h → h ≤ 300 → l ≤ (l + h) * 0.5 ∧ (l + h) * 0.5 ≤ h) ∧
      1 ≤ 150 ∧ 150 ≤ 300 ∧ 1 < 70 ∧
      bracketState (fun l h => (l + h) * 0.5)
        (exactChoice ARROW_DRAG ARROW_GRAVITY 3 ((⟨0, 1000, 0⟩ : Vector3).sub ⟨0, 0, 0⟩)
          ⟨0, 0, 0⟩)
        (max 1 (((150 : ℕ) : ℝ) - 20)) (min (MAX_T : ℝ) (((150 : ℕ) : ℝ) + 20)) 1
        = some (150, 170)) ∧
    (1 : ℝ) ≤ (150 + 170) * 0.5 ∧
    ∀ l1 h1 : ℝ,
      bracketState (fun l h => (l + h) * 0.5)
        (exactChoice ARROW_DRAG ARROW_GRAVITY 3 ((⟨0, 1000, 0⟩ : Vector3).sub ⟨0, 0, 0⟩)
          ⟨0, 0, 0⟩)
        (max 1 (((150 : ℕ) : ℝ) - 20)) (min (MAX_T : ℝ) (((150 : ℕ) : ℝ) + 20)) 2
        = some (l1, h1) → h1 - l1 = (170 - 150) / 2 := by
  have hmid : ∀ l h : ℝ, 1 ≤ l → l ≤ h → h ≤ 300 → l ≤ (l + h) * 0.5 ∧ (l + h) * 0.5 ≤ h := by
    intro l h _ hle _
    constructor <;> norm_num <;> linarith
  have e1 : max 1 (((150 : ℕ) : ℝ) - 20) = 130 := by norm_num
  have e2 : min ((MAX_T : ℕ) : ℝ) (((150 : ℕ) : ℝ) + 20) = 170 := by norm_num [MAX_T]
  have em : ((130 : ℝ) + 170) * 0.5 = 150 := by norm_num
  have hst : bracketState (fun l h => (l + h) * 0.5)
      (exactChoice ARROW_DRAG ARROW_GRAVITY 3 ((⟨0, 1000, 0⟩ : Vector3).sub ⟨0, 0, 0⟩)
        ⟨0, 0, 0⟩)
      (max 1 (((150 : ℕ) : ℝ) - 20)) (min (MAX_T : ℝ) (((150 : ℕ) : ℝ) + 20)) 1
      = some (150, 170) := by
    rw [e1, e2]
    simp only [bracketState, bracketStep, em, high_first_choice]
  obtain ⟨-, -, -, -, -, h6, -, h8⟩ := rounded_bracket_invariant (fun l h => (l + h) * 0.5)
    (exactChoice ARROW_DRAG ARROW_GRAVITY 3 ((⟨0, 1000, 0⟩ : Vector3).sub ⟨0, 0, 0⟩) ⟨0, 0, 0⟩)
    hmid 150 (by norm_num) (by norm_num) 1 (by norm_num) 150 170 hst
  refine ⟨⟨hmid, by norm_num, by norm_num, by norm_num, hst⟩, h6, ?_⟩
  intro l1 h1 hnext
  exact (h8 l1 h1 hnext).2.2 (by norm_num)

/-- For a target a thousand blocks above the shooter and launch speed `3`, in exact arithmetic
the bisection entered with a bracket inside `[1, 300]` leaves no iteration by `return`: the
bracket exists at the start of every iteration. -/
theorem high_target_runs_through (lo hi : ℝ) (hlo : 1 ≤ lo) (hle : lo ≤ hi) (hhi : hi ≤ 300)
    (i : ℕ) :
    ∃ l h : ℝ, bisectState ARROW_DRAG ARROW_GRAVITY 3 ((⟨0, 1000, 0⟩ : Vector3).sub ⟨0, 0, 0⟩)
      ⟨0, 0, 0⟩ lo hi i = some (l, h) := by
  induction i with
  | zero => exact ⟨lo, hi, rfl⟩
  | succ k ih =>
    obtain ⟨l, h, hst⟩ := ih
    obtain ⟨a1, a2, a3, -, -⟩ := bisectState_invariant ARROW_DRAG ARROW_GRAVITY 3
      ((⟨0, 1000, 0⟩ : Vector3).sub ⟨0, 0, 0⟩) ⟨0, 0, 0⟩ lo hi hle k l h hst
    have hm1 : (1 : ℝ) ≤ (l + h) * 0.5 := by norm_num; linarith
    have hm2 : (l + h) * 0.5 ≤ 300 := by norm_num; linarith
    rcases bisectStep_cases ARROW_DRAG ARROW_GRAVITY 3
      ((⟨0, 1000, 0⟩ : Vector3).sub ⟨0, 0, 0⟩) ⟨0, 0, 0⟩ l h with ⟨hhit, -⟩ | ⟨-, hn | hn⟩
    · exact absurd hhit (high_target_residual _ hm1 hm2).2.1
    · exact ⟨l, (l + h) * 0.5, by rw [bisectState, hst]; simp only [hn]⟩
    · exact ⟨(l + h) * 0.5, h, by rw [bisectState, hst]; simp only [hn]⟩

/-- For a target a thousand blocks above the shooter and launch speed `3`, the coarse scan
finishes with a best sample whose residual exceeds `EPS`, so that the bisection is entered, and
in exact arithmetic the bisection leaves no iteration by `return`. -/
theorem high_target_refinement :
    ∃ (st : ScanState) (b : ℕ),
      scanLoop ARROW_DRAG ARROW_GRAVITY 3 ((⟨0, 1000, 0⟩ : Vector3).sub ⟨0, 0, 0⟩) ⟨0, 0, 0⟩ 1
        ⟨none, ⊤⟩ = ScanOutcome.finished st ∧
      st.bestT = some b ∧ 1 ≤ b ∧ b ≤ 300 ∧ (EPS : WithTop ℝ) < st.bestDiff ∧
      ∀ i : ℕ, i ≤ 70 → ∃ l h : ℝ,
        bisectState ARROW_DRAG ARROW_GRAVITY 3 ((⟨0, 1000, 0⟩ : Vector3).sub ⟨0, 0, 0⟩)
          ⟨0, 0, 0⟩ (max 1 ((b : ℝ) - 20)) (min (MAX_T : ℝ) ((b : ℝ) + 20)) i = some (l, h) := by
  obtain ⟨st, hfin⟩ := high_target_scan_finishes
  obtain ⟨hno, b, hbt, hb1, hb2, hd, -, -⟩ := scan_finished_best _ _ _ _ _ st hfin
  have ha : (1 : ℝ) ≤ b := by exact_mod_cast hb1
  have hb : (b : ℝ) ≤ 300 := by
    have : b ≤ 300 := hb2
    exact_mod_cast this
  obtain ⟨-, -, hne⟩ := high_target_residual b ha hb
  obtain ⟨hb3, hbr, hb4⟩ := bracket_bounds b hb1 hb2
  have hb5 : min (MAX_T : ℝ) ((b : ℝ) + 20) ≤ 300 := by
    have : ((MAX_T : ℕ) : ℝ) = 300 := by norm_num [MAX_T]
    rw [← this]
    exact hb4
  refine ⟨st, b, hfin, hbt, hb1, hb2, ?_, fun i _ => high_target_runs_through _ _ hb3 hbr hb5 i⟩
  rw [hd]
  exact WithTop.coe_lt_coe.mpr (lt_of_le_of_ne (not_lt.mp (hno b hb1 hb2)) (Ne.symm hne))

/-- The width of the initial bracket is between 20 and 40. -/
theorem initial_width (b : ℕ) (hb1 : 1 ≤ b) (hb2 : b ≤ 300) :
    20 ≤ min (MAX_T : ℝ) ((b : ℝ) + 20) - max 1 ((b : ℝ) - 20) ∧
    min (MAX_T : ℝ) ((b : ℝ) + 20) - max 1 ((b : ℝ) - 20) ≤ 40 := by
  have h1 : (1 : ℝ) ≤ b := by exact_mod_cast hb1
  have h2 : (b : ℝ) ≤ 300 := by exact_mod_cast hb2
  have hM : ((MAX_T : ℕ) : ℝ) = 300 := by norm_num [MAX_T]
  rw [hM]
  rcases max_cases (1 : ℝ) ((b : ℝ) - 20) with ⟨e1, c1⟩ | ⟨e1, c1⟩ <;>
    rcases min_cases (300 : ℝ) ((b : ℝ) + 20) with ⟨e2, c2⟩ | ⟨e2, c2⟩ <;>
    rw [e1, e2] <;> constructor <;> linarith

/-- C18, counterexample.  The numbers `low` and `high` of the program are doubles, and a double
that is at least 1 is a whole multiple of `2^(-52)`.  For a target a thousand blocks above the
shooter and launch speed `3` the coarse scan finishes with a best sample `bestT` whose residual
exceeds `EPS`, the bisection is entered, and no pass of it returns (in exact arithmetic the
bracket exists at the start of every iteration); but whatever the best sample, the computed
midpoints and the outcomes of the tests are, there is no run of 70 iterations on multiples of
`2^(-52)` in which every iteration halves `high - low`: that would leave a width of at most
`40 / 2^70`, which is positive and below `2^(-52)`. -/
theorem bracket_halving_counterexample :
    (∃ (st : ScanState) (b : ℕ),
      scanLoop ARROW_DRAG ARROW_GRAVITY 3 ((⟨0, 1000, 0⟩ : Vector3).sub ⟨0, 0, 0⟩) ⟨0, 0, 0⟩ 1
        ⟨none, ⊤⟩ = ScanOutcome.finished st ∧
      st.bestT = some b ∧ 1 ≤ b ∧ b ≤ 300 ∧ (EPS : WithTop ℝ) < st.bestDiff ∧
      ∀ i : ℕ, i ≤ 70 → ∃ l h : ℝ,
        bisectState ARROW_DRAG ARROW_GRAVITY 3 ((⟨0, 1000, 0⟩ : Vector3).sub ⟨0, 0, 0⟩)
          ⟨0, 0, 0⟩ (max 1 ((b : ℝ) - 20)) (min (MAX_T : ℝ) ((b : ℝ) + 20)) i
          = some (l, h)) ∧
    ¬ ∃ (midpoint : ℝ → ℝ → ℝ) (choice : ℝ → ℝ → ℝ → BisectChoice) (b : ℕ),
      1 ≤ b ∧ b ≤ 300 ∧
      (∀ i : ℕ, i ≤ 70 → ∃ l h : ℝ,
        bracketState midpoint choice (max 1 ((b : ℝ) - 20)) (min (MAX_T : ℝ) ((b : ℝ) + 20)) i
          = some (l, h) ∧
        (∃ k : ℤ, l = (k : ℝ) / 2 ^ 52) ∧ (∃ k : ℤ, h = (k : ℝ) / 2 ^ 52)) ∧
      (∀ (i : ℕ) (l h l1 h1 : ℝ), i < 70 →
        bracketState midpoint choice (max 1 ((b : ℝ) - 20)) (min (MAX_T : ℝ) ((b : ℝ) + 20)) i
          = some (l, h) →
        bracketState midpoint choice (max 1 ((b : ℝ) - 20)) (min (MAX_T : ℝ) ((b : ℝ) + 20))
          (i + 1) = some (l1, h1) →
        h1 - l1 = (h - l) / 2) := by
  refine ⟨high_target_refinement, ?_⟩
  rintro ⟨midpoint, choice, b, hb1, hb2, hrun, hhalf⟩
  obtain ⟨w1, w2⟩ := initial_width b hb1 hb2
  have hwidth : ∀ i : ℕ, i ≤ 70 → ∀ l h : ℝ,
      bracketState midpoint choice (max 1 ((b : ℝ) - 20)) (min (MAX_T : ℝ) ((b : ℝ) + 20)) i
        = some (l, h) →
      h - l = (min (MAX_T : ℝ) ((b : ℝ) + 20) - max 1 ((b : ℝ) - 20)) / 2 ^ i := by
    intro i
    induction i with
    | zero =>
      intro _ l h hst
      simp only [bracketState, Option.some.injEq, Prod.mk.injEq] at hst
      rw [← hst.1, ← hst.2]
      simp
    | succ k ih =>
      intro hk l h hst
      obtain ⟨l0, h0, hprev, -, -⟩ := hrun k (by omega)
      rw [hhalf k l0 h0 l h (by omega) hprev hst, ih (by omega) l0 h0 hprev, pow_succ]
      field_simp
  obtain ⟨l, h, hst, ⟨k1, hk1⟩, ⟨k2, hk2⟩⟩ := hrun 70 (le_refl 70)
  have hw := hwidth 70 (le_refl 70) l h hst
  rw [hk1, hk2] at hw
  have hkey : ((k2 - k1 : ℤ) : ℝ) * 2 ^ 18
      = min (MAX_T : ℝ) ((b : ℝ) + 20) - max 1 ((b : ℝ) - 20) := by
    have h70 : (2 : ℝ) ^ 70 = 2 ^ 52 * 2 ^ 18 := by norm_num
    rw [h70] at hw
    push_cast
    field_simp at hw
    linarith
  have hpos : (0 : ℝ) < ((k2 - k1 : ℤ) : ℝ) := by
    by_contra hneg
    have : ((k2 - k1 : ℤ) : ℝ) * 2 ^ 18 ≤ 0 :=
      mul_nonpos_of_nonpos_of_nonneg (not_lt.mp hneg) (by norm_num)
    linarith
  have hlt : ((k2 - k1 : ℤ) : ℝ) < 1 := by
    by_contra hge
    have h1 : (1 : ℝ) ≤ ((k2 - k1 : ℤ) : ℝ) := not_lt.mp hge
    have : (2 : ℝ) ^ 18 ≤ ((k2 - k1 : ℤ) : ℝ) * 2 ^ 18 := by
      have := mul_le_mul_of_nonneg_right h1 (by norm_num : (0 : ℝ) ≤ 2 ^ 18)
      linarith
    norm_num at this
    linarith
  have hpos2 : (0 : ℤ) < k2 - k1 := by exact_mod_cast hpos
  have hlt2 : k2 - k1 < (1 : ℤ) := by exact_mod_cast hlt
  omega

end ClaimC18Scenario

/-! ### C11: when the drag-model solver returns `null`, on the doubles -/

section ClaimC11Doubles

open Cydhranian2Js

/-- A double between `1/2` and `2` is a whole multiple of `2^(-53)`, and so is its distance
from 1; no such number, and no quotient of an integer by a power of two at all, equals
`0.001`.  (A double outside that range is further than `0.001` from 1.) -/
theorem dyadic_residual_ne_eps (k : ℤ) (n : ℕ) : |(k : ℝ) / 2 ^ n - 1.0| ≠ EPS := by
  intro h
  have hpow : (0 : ℝ) < 2 ^ n := by positivity
  have e : (k : ℝ) / 2 ^ n - 1.0 = ((k - 2 ^ n : ℤ) : ℝ) / 2 ^ n := by
    push_cast
    field_simp
    norm_num
  rw [e, abs_div, abs_of_pos hpow, ← Int.cast_abs] at h
  unfold EPS at h
  have h1 : ((|k - 2 ^ n| : ℤ) : ℝ) * 1000 = 2 ^ n := by
    rw [div_eq_iff (ne_of_gt hpow)] at h
    rw [h]
    norm_num
    ring
  have h2 : |k - 2 ^ n| * 1000 = (2 : ℤ) ^ n := by exact_mod_cast h1
  have h5 : (5 : ℤ) ∣ 2 ^ n := ⟨|k - 2 ^ n| * 200, by linarith⟩
  have hp : Prime (5 : ℤ) := by
    rw [Int.prime_iff_natAbs_prime]
    norm_num
  have := hp.dvd_of_dvd_pow h5
  norm_num at this

/-- C11: for every input that passes the input guard, on the samples of which no residual
`Math.abs(mag - 1.0)` is the number `0.001` itself (no double residual is, see
`dyadic_residual_ne_eps`): the drag-model solver of `cydhranian2.js` returns `null` only when
the coarse scan finds no whole time with residual below `0.001`, the bisection finds no time
within tolerance either, and the best sample `direction(bestT)` has length at most `0.01`;
and whenever no whole time meets the tolerance and `direction(bestT)` has length exceeding
`0.01`, the test `bestDiff > EPS` passes, so that the refinement and, if it fails, the
best-sample fallback are run, and a direction is returned. -/
theorem null_only_when_degenerate (shooter target vel : Vector3) (s : ℝ) (hs : 0 < s)
    (hne : ∀ u : ℕ, 1 ≤ u → u ≤ 300 →
      residualAt ARROW_DRAG ARROW_GRAVITY s (target.sub shooter) vel u ≠ EPS) :
    (Cydhranian2Js.calculateArrowAimDirection shooter target vel s = none →
      ∃ (st : ScanState) (b : ℕ),
        scanLoop ARROW_DRAG ARROW_GRAVITY s (target.sub shooter) vel 1 ⟨none, ⊤⟩
          = ScanOutcome.finished st ∧
        st.bestT = some b ∧
        (∀ u : ℕ, 1 ≤ u → u ≤ 300 →
          ¬ residualAt ARROW_DRAG ARROW_GRAVITY s (target.sub shooter) vel u < EPS) ∧
        bisectLoop ARROW_DRAG ARROW_GRAVITY s (target.sub shooter) vel 0
          (max 1 ((b : ℝ) - 20)) (min (MAX_T : ℝ) ((b : ℝ) + 20)) = none ∧
        (directionAtT ARROW_DRAG ARROW_GRAVITY s (target.sub shooter) vel b).length ≤ 0.01) ∧
    (∀ (st : ScanState) (b : ℕ),
      scanLoop ARROW_DRAG ARROW_GRAVITY s (target.sub shooter) vel 1 ⟨none, ⊤⟩
        = ScanOutcome.finished st →
      st.bestT = some b →
      0.01 < (directionAtT ARROW_DRAG ARROW_GRAVITY s (target.sub shooter) vel b).length →
      (EPS : WithTop ℝ) < st.bestDiff ∧
      ∃ d : Vector3,
        Cydhranian2Js.calculateArrowAimDirection shooter target vel s = some d) := by
  have hbest : ∀ (st : ScanState) (b : ℕ),
      scanLoop ARROW_DRAG ARROW_GRAVITY s (target.sub shooter) vel 1 ⟨none, ⊤⟩
        = ScanOutcome.finished st →
      st.bestT = some b →
      st.bestDiff = ((residualAt ARROW_DRAG ARROW_GRAVITY s (target.sub shooter) vel b : ℝ)
          : WithTop ℝ) ∧
        EPS < residualAt ARROW_DRAG ARROW_GRAVITY s (target.sub shooter) vel b := by
    intro st b hfin hbt
    obtain ⟨hno, b1, hbt1, hb1, hb2, hd, -, -⟩ := scan_finished_best _ _ _ _ _ st hfin
    rw [hbt] at hbt1
    have hb : b = b1 := Option.some.inj hbt1
    subst hb
    refine ⟨hd, lt_of_le_of_ne (not_lt.mp (hno b hb1 hb2)) ?_⟩
    exact fun h => hne b hb1 hb2 h.symm
  obtain ⟨hnull, hret⟩ := failure_conditions shooter target vel s hs
  constructor
  · intro hnone
    obtain ⟨st, b, hfin, hbt, -, hno, hcase⟩ := hnull hnone
    refine ⟨st, b, hfin, hbt, hno, ?_⟩
    rcases hcase with heq | ⟨-, hloop, hlen⟩
    · exact absurd heq (ne_of_gt (hbest st b hfin hbt).2)
    · exact ⟨hloop, le_of_lt hlen⟩
  · intro st b hfin hbt hlen
    obtain ⟨hd, hlt⟩ := hbest st b hfin hbt
    refine ⟨by rw [hd]; exact WithTop.coe_lt_coe.mpr hlt, ?_⟩
    refine hret st b hfin hbt ?_ (le_of_lt hlen)
    rw [hd]
    intro h
    exact (ne_of_gt hlt) (WithTop.coe_injective h)

/-- C11, witness: a target a thousand blocks above the shooter with launch speed `3`, where no
residual is `0.001`, the scan finishes, the best sample has length at least `10/3`, and a
direction is returned. -/
theorem null_only_when_degenerate_witness :
    ((0 : ℝ) < 3 ∧
      ∀ u : ℕ, 1 ≤ u → u ≤ 300 →
        residualAt ARROW_DRAG ARROW_GRAVITY 3 ((⟨0, 1000, 0⟩ : Vector3).sub ⟨0, 0, 0⟩)
          ⟨0, 0, 0⟩ u ≠ EPS) ∧
    ∃ d : Vector3,
      Cydhranian2Js.calculateArrowAimDirection ⟨0, 0, 0⟩ ⟨0, 1000, 0⟩ ⟨0, 0, 0⟩ 3 = some d := by
  have hne : ∀ u : ℕ, 1 ≤ u → u ≤ 300 →
      residualAt ARROW_DRAG ARROW_GRAVITY 3 ((⟨0, 1000, 0⟩ : Vector3).sub ⟨0, 0, 0⟩)
        ⟨0, 0, 0⟩ u ≠ EPS := by
    intro u hu1 hu2
    have ha : (1 : ℝ) ≤ u := by exact_mod_cast hu1
    have hb : (u : ℝ) ≤ 300 := by exact_mod_cast hu2
    exact (high_target_residual u ha hb).2.2
  refine ⟨⟨by norm_num, hne⟩, ?_⟩
  obtain ⟨st, hfin⟩ := high_target_scan_finishes
  obtain ⟨-, b, hbt, hb1, hb2, -, -, -⟩ := scan_finished_best _ _ _ _ _ st hfin
  have ha : (1 : ℝ) ≤ b := by exact_mod_cast hb1
  have hb : (b : ℝ) ≤ 300 := by
    have : b ≤ 300 := hb2
    exact_mod_cast this
  obtain ⟨hlen, -, -⟩ := high_target_residual b ha hb
  exact ((null_only_when_degenerate ⟨0, 0, 0⟩ ⟨0, 1000, 0⟩ ⟨0, 0, 0⟩ 3 (by norm_num) hne).2
    st b hfin hbt (by linarith)).2

end ClaimC11Doubles

end AimCalc

